import Mathlib

/-!
Verification development for the Dream language compiler front-end
(lexer, parser, symbol table, semantic analyzer, LLVM IR emitter).

Each Rust source file is shallowly embedded as executable Lean
definitions.  Machine integers (usize, i64) are modelled as Nat/Int;
`f64` literal payloads are modelled by their source text, since the
compiler never computes with float values (it only stores and prints
them); Rust `HashMap` is modelled as an association list with
replace-on-insert semantics; fallible functions return `Except`;
`&mut self` receivers are modelled by explicit state passing.
Recursive-descent parser routines take an explicit fuel argument
standing for the (finite) recursion depth; all theorems evaluate the
parser with ample fuel.
-/

set_option maxHeartbeats 1000000

namespace Dream

/-- Association-list model of Rust `std::collections::HashMap` keyed by
strings: `get?` finds the first binding, `insertPair` replaces an
existing binding in place (returning the old value) or appends. -/
abbrev RMap (α : Type) : Type := List (String × α)

def RMap.empty {α : Type} : RMap α := []

def RMap.get? {α : Type} : RMap α → String → Option α
  | [], _ => none
  | (k0, v0) :: rest, k => if k0 = k then some v0 else RMap.get? rest k

/-- Model of `HashMap::insert`: replaces the value at an existing key
(returning the previous value) or appends a new binding. -/
def RMap.insertPair {α : Type} : RMap α → String → α → RMap α × Option α
  | [], k, v => ([(k, v)], none)
  | (k0, v0) :: rest, k, v =>
    if k0 = k then ((k0, v) :: rest, some v0)
    else
      let (m, old) := RMap.insertPair rest k v
      ((k0, v0) :: m, old)

def RMap.insert {α : Type} (m : RMap α) (k : String) (v : α) : RMap α :=
  (RMap.insertPair m k v).1

def RMap.contains_key {α : Type} (m : RMap α) (k : String) : Bool :=
  (RMap.get? m k).isSome

/-! ## Token model (src/backend/compiler/src/token.rs)

The enum below is the union of the variants declared in `token.rs` and
the four additional variants (`Invalid`, `DotsPlus`, `PipeGreater`,
`AtAsterisk`) that `lexer.rs` actually constructs. -/

inductive TokenType where
  | CommentSingle
  | CommentMultiLine
  | Keyword
  | Identifier
  | Integer
  | Float
  | String
  | Boolean
  | Plus
  | Minus
  | Asterisk
  | Slash
  | Equal
  | Greater
  | Less
  | Exclamation
  | Ampersand
  | Bar
  | DoubleEqual
  | GreaterEqual
  | LessEqual
  | NotEqual
  | DoubleAmpersand
  | DoubleBar
  | Increment
  | Decrement
  | Splat
  | Spread
  | Pipe
  | Swap
  | ArrowRight
  | LeftParen
  | RightParen
  | LeftBrace
  | RightBrace
  | LeftBracket
  | RightBracket
  | Comma
  | Semicolon
  | Colon
  | Dot
  | Whitespace
  | NewLine
  | EndOfFile
  | Unknown
  | Invalid
  | DotsPlus
  | PipeGreater
  | AtAsterisk
deriving DecidableEq, Repr

/-- Token record: kind, raw lexeme (decoded content for strings),
1-based line, 1-based column of the first character. -/
structure LexerToken where
  token_type : TokenType
  lexeme : String
  line : Nat
  column : Nat
deriving DecidableEq, Repr

def LexerToken.new (token_type : TokenType) (lexeme : String)
    (line : Nat) (column : Nat) : LexerToken :=
  ⟨token_type, lexeme, line, column⟩

/-! ## Lexer (src/backend/compiler/src/lexer.rs) -/

/-- Character classes used by the scanner.  Rust `char::is_alphabetic`
and friends are Unicode; the model uses the ASCII classifiers, which
agree on every input the claims touch. -/
def rustIsAlphabetic (c : Char) : Bool := c.isAlpha

def rustIsAlphanumeric (c : Char) : Bool := c.isAlphanum

def rustIsDigit (c : Char) : Bool := c.isDigit

/-- Keyword table built in `LexicalAnalyzer::new`.  Note that the source
inserts exactly these ten entries: `do`, `until`, `true`, `false` are
absent. -/
def lexerKeywords : RMap TokenType :=
  [("let", .Keyword), ("const", .Keyword), ("fn", .Keyword),
   ("if", .Keyword), ("else", .Keyword), ("while", .Keyword),
   ("struct", .Keyword), ("return", .Keyword), ("for", .Keyword),
   ("in", .Keyword)]

/-- Scanner state: remaining characters plus the 1-based line/column of
the next character (fields `input`, `line`, `column`). -/
structure LexState where
  input : List Char
  line : Nat
  column : Nat
deriving Repr

/-- Mirrors `advance`: line/column bookkeeping for one consumed char. -/
def advChar (c : Char) (line col : Nat) : Nat × Nat :=
  if c = '\n' then (line + 1, 1) else (line, col + 1)

/-- Whitespace munch loop inside `scan_token` (space, tab, CR). -/
def wsLoop : List Char → List Char × List Char
  | [] => ([], [])
  | c :: rest =>
    if c = ' ' ∨ c = '\t' ∨ c = '\r' then
      let (tk, rst) := wsLoop rest
      (c :: tk, rst)
    else ([], c :: rest)

/-- Single-line comment loop: consume up to (excluding) the newline. -/
def slLoop : List Char → List Char × List Char
  | [] => ([], [])
  | c :: rest =>
    if c = '\n' then ([], c :: rest)
    else
      let (tk, rst) := slLoop rest
      (c :: tk, rst)

/-- Multi-line comment loop: consume until `*/` (returning whether the
terminator was found) while updating line/column. -/
def mlLoop : List Char → Nat → Nat → (List Char × Bool × List Char × Nat × Nat)
  | [], line, col => ([], false, [], line, col)
  | c :: rest, line, col =>
    let (l1, c1) := advChar c line col
    if c = '*' then
      match rest with
      | '/' :: rest2 => ([c, '/'], true, rest2, l1, c1 + 1)
      | _ =>
        let (tk, ef, rst, l2, c2) := mlLoop rest l1 c1
        (c :: tk, ef, rst, l2, c2)
    else
      let (tk, ef, rst, l2, c2) := mlLoop rest l1 c1
      (c :: tk, ef, rst, l2, c2)

/-- String scanning loop: returns (terminated?, decoded content, raw
lexeme continuation, rest, line, column).  A newline aborts without
consuming it; end of input aborts; a backslash decodes the standard
escapes and preserves any other escaped character literally. -/
def strLoop : List Char → Char → String → String → Nat → Nat →
    (Bool × String × String × List Char × Nat × Nat)
  | [], _, content, raw, line, col => (false, content, raw, [], line, col)
  | c :: rest, quote, content, raw, line, col =>
    if c = quote then
      let (l1, c1) := advChar c line col
      (true, content, raw.push c, rest, l1, c1)
    else if c = '\\' then
      let (l1, c1) := advChar c line col
      match rest with
      | [] => (false, content, raw.push c, [], l1, c1)
      | e :: rest2 =>
        let (l2, c2) := advChar e l1 c1
        let content2 :=
          if e = 'n' then content.push '\n'
          else if e = 't' then content.push '\t'
          else if e = 'r' then content.push '\r'
          else if e = '\\' then content.push '\\'
          else if e = '\'' then content.push '\''
          else if e = '"' then content.push '"'
          else (content.push '\\').push e
        strLoop rest2 quote content2 ((raw.push c).push e) l2 c2
    else if c = '\n' then
      (false, content, raw, c :: rest, line, col)
    else
      let (l1, c1) := advChar c line col
      strLoop rest quote (content.push c) (raw.push c) l1 c1

/-- Identifier/keyword munch loop (alphanumeric or underscore). -/
def identLoop : List Char → List Char × List Char
  | [] => ([], [])
  | c :: rest =>
    if rustIsAlphanumeric c ∨ c = '_' then
      let (tk, rst) := identLoop rest
      (c :: tk, rst)
    else ([], c :: rest)

/-- Digit munch loop. -/
def digitsLoop : List Char → List Char × List Char
  | [] => ([], [])
  | c :: rest =>
    if rustIsDigit c then
      let (tk, rst) := digitsLoop rest
      (c :: tk, rst)
    else ([], c :: rest)

/-- One step of `scan_token`.  The argument state must have nonempty
input (`scan_tokens` only calls it then); on empty input it returns an
EndOfFile token (the Rust code panics, which is unreachable). -/
def scan_token (st : LexState) : LexerToken × LexState :=
  let start_line := st.line
  let start_column := st.column
  match st.input with
  | [] => (LexerToken.new .EndOfFile "" start_line start_column, st)
  | ch :: rest =>
    let (l1, c1) := advChar ch st.line st.column
    let st1 : LexState := ⟨rest, l1, c1⟩
    if ch = ' ' ∨ ch = '\t' ∨ ch = '\r' then
      let (tk, rst) := wsLoop rest
      (LexerToken.new .Whitespace (String.mk (ch :: tk)) start_line start_column,
       ⟨rst, l1, c1 + tk.length⟩)
    else if ch = '\n' then
      (LexerToken.new .NewLine "\n" start_line start_column, st1)
    else if ch = '/' then
      match rest with
      | '/' :: rest2 =>
        let (tk, rst) := slLoop rest2
        (LexerToken.new .CommentSingle (String.mk ('/' :: '/' :: tk)) start_line start_column,
         ⟨rst, l1, c1 + 1 + tk.length⟩)
      | '*' :: rest2 =>
        let (tk, ef, rst, l2, c2) := mlLoop rest2 l1 (c1 + 1)
        let lexeme := String.mk ('/' :: '*' :: tk)
        if ef then
          (LexerToken.new .CommentMultiLine lexeme start_line start_column, ⟨rst, l2, c2⟩)
        else
          (LexerToken.new .Invalid lexeme start_line start_column, ⟨rst, l2, c2⟩)
      | _ => (LexerToken.new .Slash "/" start_line start_column, st1)
    else if ch = '(' then
      (LexerToken.new .LeftParen "(" start_line start_column, st1)
    else if ch = ')' then
      (LexerToken.new .RightParen ")" start_line start_column, st1)
    else if ch = '{' then
      (LexerToken.new .LeftBrace "\x7b" start_line start_column, st1)
    else if ch = '}' then
      (LexerToken.new .RightBrace "\x7d" start_line start_column, st1)
    else if ch = '[' then
      (LexerToken.new .LeftBracket "[" start_line start_column, st1)
    else if ch = ']' then
      (LexerToken.new .RightBracket "]" start_line start_column, st1)
    else if ch = ',' then
      (LexerToken.new .Comma "," start_line start_column, st1)
    else if ch = ';' then
      (LexerToken.new .Semicolon ";" start_line start_column, st1)
    else if ch = ':' then
      (LexerToken.new .Colon ":" start_line start_column, st1)
    else if ch = '.' then
      match rest with
      | '.' :: '.' :: '+' :: rest2 =>
        (LexerToken.new .DotsPlus "...+" start_line start_column, ⟨rest2, l1, c1 + 3⟩)
      | '.' :: '.' :: rest2 =>
        (LexerToken.new .Invalid "..." start_line start_column, ⟨rest2, l1, c1 + 2⟩)
      | '.' :: rest2 =>
        -- the source consumes the second dot but still emits `Dot "."`
        (LexerToken.new .Dot "." start_line start_column, ⟨rest2, l1, c1 + 1⟩)
      | _ => (LexerToken.new .Dot "." start_line start_column, st1)
    else if ch = '+' then
      match rest with
      | '+' :: rest2 =>
        (LexerToken.new .Increment "++" start_line start_column, ⟨rest2, l1, c1 + 1⟩)
      | _ => (LexerToken.new .Plus "+" start_line start_column, st1)
    else if ch = '-' then
      match rest with
      | '-' :: rest2 =>
        (LexerToken.new .Decrement "--" start_line start_column, ⟨rest2, l1, c1 + 1⟩)
      | '>' :: rest2 =>
        (LexerToken.new .ArrowRight "->" start_line start_column, ⟨rest2, l1, c1 + 1⟩)
      | _ => (LexerToken.new .Minus "-" start_line start_column, st1)
    else if ch = '*' then
      (LexerToken.new .Asterisk "*" start_line start_column, st1)
    else if ch = '=' then
      match rest with
      | '=' :: rest2 =>
        (LexerToken.new .DoubleEqual "==" start_line start_column, ⟨rest2, l1, c1 + 1⟩)
      | _ => (LexerToken.new .Equal "=" start_line start_column, st1)
    else if ch = '>' then
      match rest with
      | '=' :: rest2 =>
        (LexerToken.new .GreaterEqual ">=" start_line start_column, ⟨rest2, l1, c1 + 1⟩)
      | _ => (LexerToken.new .Greater ">" start_line start_column, st1)
    else if ch = '<' then
      match rest with
      | '=' :: rest2 =>
        (LexerToken.new .LessEqual "<=" start_line start_column, ⟨rest2, l1, c1 + 1⟩)
      | '>' :: rest2 =>
        (LexerToken.new .NotEqual "<>" start_line start_column, ⟨rest2, l1, c1 + 1⟩)
      | _ => (LexerToken.new .Less "<" start_line start_column, st1)
    else if ch = '!' then
      match rest with
      | '=' :: rest2 =>
        (LexerToken.new .NotEqual "!=" start_line start_column, ⟨rest2, l1, c1 + 1⟩)
      | _ => (LexerToken.new .Exclamation "!" start_line start_column, st1)
    else if ch = '&' then
      match rest with
      | '&' :: rest2 =>
        (LexerToken.new .DoubleAmpersand "&&" start_line start_column, ⟨rest2, l1, c1 + 1⟩)
      | _ => (LexerToken.new .Ampersand "&" start_line start_column, st1)
    else if ch = '|' then
      match rest with
      | '|' :: rest2 =>
        (LexerToken.new .DoubleBar "||" start_line start_column, ⟨rest2, l1, c1 + 1⟩)
      | '>' :: rest2 =>
        (LexerToken.new .PipeGreater "|>" start_line start_column, ⟨rest2, l1, c1 + 1⟩)
      | _ => (LexerToken.new .Bar "|" start_line start_column, st1)
    else if ch = '@' then
      match rest with
      | '*' :: rest2 =>
        (LexerToken.new .AtAsterisk "@*" start_line start_column, ⟨rest2, l1, c1 + 1⟩)
      | _ => (LexerToken.new .Invalid "@" start_line start_column, st1)
    else if ch = '\'' ∨ ch = '"' then
      let raw0 := String.mk [ch]
      let (terminated, content, raw, rst, l2, c2) := strLoop rest ch "" raw0 l1 c1
      if terminated then
        (LexerToken.new .String content start_line start_column, ⟨rst, l2, c2⟩)
      else
        (LexerToken.new .Invalid raw start_line start_column, ⟨rst, l2, c2⟩)
    else if rustIsAlphabetic ch ∨ ch = '_' then
      let (tk, rst) := identLoop rest
      let identifier := String.mk (ch :: tk)
      let st2 : LexState := ⟨rst, l1, c1 + tk.length⟩
      match RMap.get? lexerKeywords identifier with
      | some keyword_type =>
        (LexerToken.new keyword_type identifier start_line start_column, st2)
      | none =>
        (LexerToken.new .Identifier identifier start_line start_column, st2)
    else if rustIsDigit ch then
      let (tk, rst) := digitsLoop rest
      let number0 := ch :: tk
      let stInt : LexState := ⟨rst, l1, c1 + tk.length⟩
      match rst with
      | '.' :: rst2 =>
        if rst2.head? ≠ some '.' then
          let (frac, rst3) := digitsLoop rst2
          let number := number0 ++ '.' :: frac
          let stNum : LexState := ⟨rst3, l1, c1 + tk.length + 1 + frac.length⟩
          if frac.length ≠ 0 then
            (LexerToken.new .Float (String.mk number) start_line start_column, stNum)
          else
            (LexerToken.new .Invalid (String.mk number) start_line start_column, stNum)
        else
          (LexerToken.new .Integer (String.mk number0) start_line start_column, stInt)
      | _ => (LexerToken.new .Integer (String.mk number0) start_line start_column, stInt)
    else
      (LexerToken.new .Invalid (String.mk [ch]) start_line start_column, st1)

/-- Fueled loop of `scan_tokens`: one `scan_token` per iteration while
input remains.  `scan_token` always consumes at least one character, so
fuel equal to the input length suffices. -/
def scan_tokens_loop : Nat → LexState → List LexerToken → List LexerToken × LexState
  | 0, st, acc => (acc, st)
  | fuel + 1, st, acc =>
    match st.input with
    | [] => (acc, st)
    | _ :: _ =>
      let (t, st2) := scan_token st
      scan_tokens_loop fuel st2 (acc ++ [t])

/-- Mirrors `scan_tokens`: scan the whole source, then append the
EndOfFile token with the special column computation of the source. -/
def scan_tokens (source : String) : List LexerToken :=
  let st0 : LexState := ⟨source.data, 1, 1⟩
  let (tokens, stF) := scan_tokens_loop source.data.length st0 []
  let eof_column :=
    if tokens.getLast?.elim false
        (fun t => t.lexeme == "\n" && t.token_type == TokenType.NewLine) then
      1
    else
      if stF.line == 1 && stF.column == 1 && tokens.isEmpty then 1 else stF.column
  tokens ++ [LexerToken.new .EndOfFile "" stF.line eof_column]

/-! ## AST (src/backend/compiler/src/ast.rs) -/

inductive SyntaxError where
  | UnexpectedToken (msg : String) (line : Nat) (col : Nat)
  | UnexpectedEndOfFile
  | InvalidAssignmentTarget
  | MissingSemicolon
  | MissingColon
  | MissingType
  | MissingInKeyword
  | MissingLoopVariable
  | MissingStructName
  | MissingFieldName
deriving DecidableEq, Repr

/-- Source language types (`ast.rs` `Type`). -/
inductive Ty where
  | int
  | float
  | string
  | bool
  | void
deriving DecidableEq, Repr

def Ty.to_string : Ty → String
  | .int => "Int"
  | .float => "Float"
  | .string => "String"
  | .bool => "Bool"
  | .void => "Void"

def Ty.from_str (s : String) : Option Ty :=
  if s = "Int" then some .int
  else if s = "Float" then some .float
  else if s = "String" then some .string
  else if s = "Bool" then some .bool
  else if s = "Void" then some .void
  else none

structure Identifier where
  name : String
  line : Nat
  column : Nat
deriving DecidableEq, Repr

/-- Literals (`ast.rs` `Literal`).  The `f64` payload of a float literal
is modelled by its source text: the compiler only ever stores floats and
prints them back, it never computes with them. -/
inductive Lit where
  | int (v : Int)
  | float (v : String)
  | str (v : String)
  | bool (v : Bool)
deriving DecidableEq, Repr

inductive BinaryOp where
  | Plus
  | Minus
  | Asterisk
  | Slash
  | Greater
  | Less
  | GreaterEqual
  | LessEqual
  | DoubleEqual
  | NotEqual
  | DoubleAmpersand
  | DoubleBar
  | Pipe
  | Spread
  | Swap
deriving DecidableEq, Repr

inductive UnaryOp where
  | Minus
  | Exclamation
deriving DecidableEq, Repr

/-- Expressions (`ast.rs` `Expression`).  Constructor names follow the
Rust variants (lower-cased); note that `assignment`'s target is an
`Identifier` by construction, exactly as in the Rust type. -/
inductive Expression where
  | identifier (id : Identifier)
  | literal (l : Lit)
  | binary (left : Expression) (op : BinaryOp) (right : Expression)
  | unary (op : UnaryOp) (expr : Expression)
  | assignment (target : Identifier) (value : Expression)
  | grouped (e : Expression)
  | functionCall (function : Expression) (arguments : List Expression)
  | array (elements : List Expression)
  | object (fields : List (Identifier × Expression))
  | splat (e : Expression)
  | structInst (name : Identifier) (fields : List (Identifier × Expression))
  | memberAccess (object : Expression) (property : Identifier)
deriving Repr

/-- Mirrors `Expression::get_line_col`, including the `(0, 0)`
placeholder returned for literals and empty arrays/objects. -/
def Expression.get_line_col : Expression → Nat × Nat
  | .identifier ident => (ident.line, ident.column)
  | .literal _ => (0, 0)
  | .binary left _ _ => left.get_line_col
  | .unary _ e => e.get_line_col
  | .assignment target _ => (target.line, target.column)
  | .grouped e => e.get_line_col
  | .functionCall f _ => f.get_line_col
  | .array [] => (0, 0)
  | .array (e :: _) => e.get_line_col
  | .object [] => (0, 0)
  | .object ((ident, _) :: _) => (ident.line, ident.column)
  | .splat e => e.get_line_col
  | .structInst name _ => (name.line, name.column)
  | .memberAccess obj _ => obj.get_line_col

structure ReturnStatement where
  value : Expression
deriving Repr

structure Parameter where
  name : Identifier
  param_type : Ty
deriving Repr

structure FieldDeclaration where
  name : Identifier
  field_type : Ty
deriving Repr

structure VariableDeclaration where
  identifier : Identifier
  var_type : Option Ty
  value : Expression
deriving Repr

structure ConstantDeclaration where
  identifier : Identifier
  const_type : Option Ty
  value : Expression
deriving Repr

structure StructDeclaration where
  name : Identifier
  fields : List FieldDeclaration
deriving Repr

mutual

inductive Statement where
  | expression (e : Expression)
  | ret (r : ReturnStatement)
  | ifS (s : IfStatement)
  | block (b : Block)
  | whileS (s : WhileStatement)
  | forS (s : ForStatement)
  | doUntil (s : DoUntilStatement)

inductive Block where
  | mk (statements : List Declaration)

inductive ElseBranch where
  | ifB (s : IfStatement)
  | blockB (s : Statement)

inductive IfStatement where
  | mk (condition : Expression) (then_block : Block) (else_block : Option ElseBranch)

inductive WhileStatement where
  | mk (condition : Expression) (body : Block)

inductive DoUntilStatement where
  | mk (body : Block) (condition : Expression)

inductive ForStatement where
  | mk (variable0 : Identifier) (iterable : Expression) (body : Block)

inductive Declaration where
  | fnD (f : Function)
  | varD (v : VariableDeclaration)
  | structD (s : StructDeclaration)
  | constD (c : ConstantDeclaration)
  | stmtD (s : Statement)

inductive Function where
  | mk (name : Identifier) (parameters : List Parameter) (return_type : Ty) (body : Block)

end

def Block.statements : Block → List Declaration
  | .mk s => s

def IfStatement.condition : IfStatement → Expression
  | .mk c _ _ => c

def IfStatement.then_block : IfStatement → Block
  | .mk _ t _ => t

def IfStatement.else_block : IfStatement → Option ElseBranch
  | .mk _ _ e => e

def WhileStatement.condition : WhileStatement → Expression
  | .mk c _ => c

def WhileStatement.body : WhileStatement → Block
  | .mk _ b => b

def DoUntilStatement.body : DoUntilStatement → Block
  | .mk b _ => b

def DoUntilStatement.condition : DoUntilStatement → Expression
  | .mk _ c => c

def ForStatement.variable0 : ForStatement → Identifier
  | .mk v _ _ => v

def ForStatement.iterable : ForStatement → Expression
  | .mk _ i _ => i

def ForStatement.body : ForStatement → Block
  | .mk _ _ b => b

def Function.name : Function → Identifier
  | .mk n _ _ _ => n

def Function.parameters : Function → List Parameter
  | .mk _ p _ _ => p

def Function.return_type : Function → Ty
  | .mk _ _ r _ => r

def Function.body : Function → Block
  | .mk _ _ _ b => b

structure Program where
  declarations : List Declaration

structure ParseResult where
  ast : Program
  errors : List SyntaxError

/-! ## Parser (src/backend/compiler/src/parser.rs)

Parser state: the token slice, the cursor, and the accumulated error
list.  Recursive-descent routines take an explicit fuel parameter; with
fuel at least the total number of grammar steps (amply bounded by, say,
twice the token count plus the nesting depth) the fuel case is never
reached, and every theorem below runs the parser with ample fuel.
Running out of fuel surfaces as an `UnexpectedEndOfFile` error. -/

structure PState where
  tokens : List LexerToken
  current : Nat
  errors : List SyntaxError
deriving Repr

def PState.peek (s : PState) : Option LexerToken := s.tokens.get? s.current

def PState.previous (s : PState) : Option LexerToken :=
  if s.current = 0 then none else s.tokens.get? (s.current - 1)

def PState.is_at_end (s : PState) : Bool :=
  s.peek.elim true (fun t => t.token_type == TokenType.EndOfFile)

def PState.advance (s : PState) : Option LexerToken × PState :=
  let s2 := if s.is_at_end then s else { s with current := s.current + 1 }
  (s2.previous, s2)

def PState.check (s : PState) (tt : TokenType) : Bool :=
  s.peek.elim false (fun t => t.token_type == tt)

def PState.match_token (s : PState) (tt : TokenType) : Bool × PState :=
  if s.check tt then (true, (s.advance).2) else (false, s)

def PState.pushErr (s : PState) (e : SyntaxError) : PState :=
  { s with errors := s.errors ++ [e] }

/-- Mirrors `consume`: on success returns the consumed token, otherwise
records and returns an `UnexpectedToken`/`UnexpectedEndOfFile` error.
Message texts keep the Spanish wording of the source with quote marks
dropped. -/
def PState.consume (s : PState) (tt : TokenType) (msg : String) :
    Except SyntaxError LexerToken × PState :=
  if s.check tt then
    let (t?, s2) := s.advance
    match t? with
    | some t => (.ok t, s2)
    | none => (.error .UnexpectedEndOfFile, s2)
  else
    match s.peek with
    | some token =>
      let err := SyntaxError.UnexpectedToken
        (msg ++ ", se encontro " ++ token.lexeme) token.line token.column
      (.error err, s.pushErr err)
    | none =>
      (.error .UnexpectedEndOfFile, s.pushErr .UnexpectedEndOfFile)

def syncKeyword (t : LexerToken) : Bool :=
  t.lexeme == "fn" || t.lexeme == "let" || t.lexeme == "const" ||
  t.lexeme == "return" || t.lexeme == "if" || t.lexeme == "while" ||
  t.lexeme == "for" || t.lexeme == "struct" || t.lexeme == "do" ||
  t.lexeme == "until"

def synchronizeLoop : Nat → PState → PState
  | 0, s => s
  | fuel + 1, s =>
    if s.is_at_end then s
    else if s.previous.elim false (fun t => t.token_type == TokenType.Semicolon) then s
    else if s.peek.elim false syncKeyword then s
    else synchronizeLoop fuel (s.advance).2

/-- Mirrors `synchronize`: skip one token, then scan forward to a safe
resumption point. -/
def synchronize (fuel : Nat) (s : PState) : PState :=
  synchronizeLoop fuel (s.advance).2

/-- Model of `str::to_lowercase` (character-wise, ASCII-sufficient for
the type keywords it is applied to). -/
def rustToLowercase (s : String) : String := String.mk (s.data.map Char.toLower)

/-- Result-mapping helper for the parser routines. -/
def exmap {α β : Type} (r : Except SyntaxError α × PState) (f : α → β) :
    Except SyntaxError β × PState :=
  match r with
  | (.ok a, s) => (.ok (f a), s)
  | (.error e, s) => (.error e, s)

/-- Decimal digit fold used to model integer-literal parsing. -/
def digitsToNat : List Char → Nat → Nat
  | [], acc => acc
  | c :: rest, acc => digitsToNat rest (acc * 10 + (c.toNat - 48))

/-- Model of `lexeme.parse::<i64>().unwrap()` on a digit-run lexeme. -/
def parseIntLexeme (s : String) : Int := (digitsToNat s.data 0 : Nat)

mutual

def parseLoop : Nat → PState → List Declaration → List Declaration × PState
  | 0, s, acc => (acc, s)
  | fuel + 1, s, acc =>
    if s.is_at_end then (acc, s)
    else
      match declaration fuel s with
      | (.ok decl, s2) => parseLoop fuel s2 (acc ++ [decl])
      | (.error _, s2) => parseLoop fuel (synchronize fuel s2) acc

def declaration : Nat → PState → Except SyntaxError Declaration × PState
  | 0, s => (.error .UnexpectedEndOfFile, s)
  | fuel + 1, s =>
    match s.peek with
    | some token =>
      if token.token_type == TokenType.Keyword then
        if token.lexeme == "fn" then
          exmap (function_declaration fuel (s.advance).2) Declaration.fnD
        else if token.lexeme == "let" then
          exmap (variable_declaration fuel (s.advance).2) Declaration.varD
        else if token.lexeme == "const" then
          exmap (constant_declaration fuel (s.advance).2) Declaration.constD
        else if token.lexeme == "struct" then
          exmap (struct_declaration fuel (s.advance).2) Declaration.structD
        else
          exmap (statement fuel s) Declaration.stmtD
      else
        exmap (statement fuel s) Declaration.stmtD
    | none => exmap (statement fuel s) Declaration.stmtD

def function_declaration : Nat → PState → Except SyntaxError Function × PState
  | 0, s => (.error .UnexpectedEndOfFile, s)
  | fuel + 1, s =>
    match s.consume .Identifier "Se esperaba un nombre de funcion." with
    | (.error e, s1) => (.error e, s1)
    | (.ok name_token, s1) =>
      let name : Identifier := ⟨name_token.lexeme, name_token.line, name_token.column⟩
      match s1.consume .LeftParen "Se esperaba ( despues del nombre de funcion." with
      | (.error e, s2) => (.error e, s2)
      | (.ok _, s2) =>
        match parameters fuel s2 with
        | (.error e, s3) => (.error e, s3)
        | (.ok params, s3) =>
          match s3.consume .RightParen "Se esperaba ) despues de los parametros." with
          | (.error e, s4) => (.error e, s4)
          | (.ok _, s4) =>
            match s4.consume .ArrowRight "Se esperaba -> para el tipo de retorno." with
            | (.error e, s5) => (.error e, s5)
            | (.ok _, s5) =>
              match type_annot fuel s5 with
              | (.error e, s6) => (.error e, s6)
              | (.ok return_type, s6) =>
                match block_statement fuel s6 with
                | (.error e, s7) => (.error e, s7)
                | (.ok body, s7) =>
                  (.ok (Function.mk name params return_type body), s7)

def parameters : Nat → PState → Except SyntaxError (List Parameter) × PState
  | 0, s => (.error .UnexpectedEndOfFile, s)
  | fuel + 1, s =>
    if s.check .RightParen then (.ok [], s)
    else parametersLoop fuel s []

def parametersLoop : Nat → PState → List Parameter →
    Except SyntaxError (List Parameter) × PState
  | 0, s, _ => (.error .UnexpectedEndOfFile, s)
  | fuel + 1, s, acc =>
    match s.consume .Identifier "Se esperaba nombre de parametro." with
    | (.error e, s1) => (.error e, s1)
    | (.ok name_token, s1) =>
      let name : Identifier := ⟨name_token.lexeme, name_token.line, name_token.column⟩
      match s1.consume .Colon "Se esperaba : despues del nombre del parametro." with
      | (.error e, s2) => (.error e, s2)
      | (.ok _, s2) =>
        match type_annot fuel s2 with
        | (.error e, s3) => (.error e, s3)
        | (.ok param_type, s3) =>
          let acc2 := acc ++ [Parameter.mk name param_type]
          match s3.match_token .Comma with
          | (true, s4) => parametersLoop fuel s4 acc2
          | (false, s4) => (.ok acc2, s4)

def type_annot : Nat → PState → Except SyntaxError Ty × PState
  | 0, s => (.error .UnexpectedEndOfFile, s)
  | _ + 1, s =>
    match s.consume .Identifier "Se esperaba un nombre de tipo." with
    | (.error e, s1) => (.error e, s1)
    | (.ok type_token, s1) =>
      let type_str := rustToLowercase type_token.lexeme
      if type_str = "int" then (.ok Ty.int, s1)
      else if type_str = "float" then (.ok Ty.float, s1)
      else if type_str = "string" then (.ok Ty.string, s1)
      else if type_str = "bool" then (.ok Ty.bool, s1)
      else if type_str = "void" then (.ok Ty.void, s1)
      else
        (.error (SyntaxError.UnexpectedToken
          ("Tipo desconocido " ++ type_token.lexeme) type_token.line type_token.column), s1)

def constant_declaration : Nat → PState → Except SyntaxError ConstantDeclaration × PState
  | 0, s => (.error .UnexpectedEndOfFile, s)
  | fuel + 1, s =>
    match s.consume .Identifier "Se esperaba un nombre para la constante." with
    | (.error e, s1) => (.error e, s1)
    | (.ok name_token, s1) =>
      let identifier : Identifier := ⟨name_token.lexeme, name_token.line, name_token.column⟩
      let (hasColon, s2) := s1.match_token .Colon
      let tyRes : Except SyntaxError (Option Ty) × PState :=
        if hasColon then exmap (type_annot fuel s2) some else (.ok none, s2)
      match tyRes with
      | (.error e, s3) => (.error e, s3)
      | (.ok const_type, s3) =>
        match s3.consume .Equal "Se esperaba = despues del nombre de la constante." with
        | (.error e, s4) => (.error e, s4)
        | (.ok _, s4) =>
          match expression fuel s4 with
          | (.error e, s5) => (.error e, s5)
          | (.ok value, s5) =>
            match s5.consume .Semicolon
                "Se esperaba ; despues de la declaracion de la constante." with
            | (.error e, s6) => (.error e, s6)
            | (.ok _, s6) =>
              (.ok (ConstantDeclaration.mk identifier const_type value), s6)

def variable_declaration : Nat → PState → Except SyntaxError VariableDeclaration × PState
  | 0, s => (.error .UnexpectedEndOfFile, s)
  | fuel + 1, s =>
    match s.consume .Identifier "Se esperaba un nombre para la variable." with
    | (.error e, s1) => (.error e, s1)
    | (.ok name_token, s1) =>
      let identifier : Identifier := ⟨name_token.lexeme, name_token.line, name_token.column⟩
      let (hasColon, s2) := s1.match_token .Colon
      let tyRes : Except SyntaxError (Option Ty) × PState :=
        if hasColon then exmap (type_annot fuel s2) some else (.ok none, s2)
      match tyRes with
      | (.error e, s3) => (.error e, s3)
      | (.ok var_type, s3) =>
        match s3.consume .Equal "Se esperaba = en la declaracion de la variable." with
        | (.error e, s4) => (.error e, s4)
        | (.ok _, s4) =>
          match expression fuel s4 with
          | (.error e, s5) => (.error e, s5)
          | (.ok value, s5) =>
            match s5.consume .Semicolon
                "Se esperaba ; despues de la declaracion de la variable." with
            | (.error e, s6) => (.error e, s6)
            | (.ok _, s6) =>
              (.ok (VariableDeclaration.mk identifier var_type value), s6)

def struct_declaration : Nat → PState → Except SyntaxError StructDeclaration × PState
  | 0, s => (.error .UnexpectedEndOfFile, s)
  | fuel + 1, s =>
    match s.consume .Identifier "Se esperaba un nombre para el struct." with
    | (.error e, s1) => (.error e, s1)
    | (.ok name_token, s1) =>
      let name_id : Identifier := ⟨name_token.lexeme, name_token.line, name_token.column⟩
      match s1.consume .LeftBrace "Se esperaba \x7b despues del nombre del struct." with
      | (.error e, s2) => (.error e, s2)
      | (.ok _, s2) =>
        match structFieldsLoop fuel s2 [] with
        | (.error e, s3) => (.error e, s3)
        | (.ok fields, s3) =>
          match s3.consume .RightBrace "Se esperaba \x7d al final del struct." with
          | (.error e, s4) => (.error e, s4)
          | (.ok _, s4) => (.ok (StructDeclaration.mk name_id fields), s4)

def structFieldsLoop : Nat → PState → List FieldDeclaration →
    Except SyntaxError (List FieldDeclaration) × PState
  | 0, s, _ => (.error .UnexpectedEndOfFile, s)
  | fuel + 1, s, acc =>
    if s.check .RightBrace || s.is_at_end then (.ok acc, s)
    else
      match s.consume .Identifier "Se esperaba un nombre de campo." with
      | (.error e, s1) => (.error e, s1)
      | (.ok field_name_token, s1) =>
        let field_name : Identifier :=
          ⟨field_name_token.lexeme, field_name_token.line, field_name_token.column⟩
        match s1.consume .Colon "Se esperaba : despues del nombre de campo." with
        | (.error e, s2) => (.error e, s2)
        | (.ok _, s2) =>
          match type_annot fuel s2 with
          | (.error e, s3) => (.error e, s3)
          | (.ok field_type, s3) =>
            let acc2 := acc ++ [FieldDeclaration.mk field_name field_type]
            if s3.check .RightBrace then structFieldsLoop fuel s3 acc2
            else
              match s3.match_token .Comma with
              | (true, s4) => structFieldsLoop fuel s4 acc2
              | (false, s4) =>
                match s4.peek with
                | some errTok =>
                  (.error (SyntaxError.UnexpectedToken
                    ("Se esperaba , o \x7d despues del campo de struct, se encontro "
                      ++ errTok.lexeme) errTok.line errTok.column), s4)
                | none => (.error .UnexpectedEndOfFile, s4)

def statement : Nat → PState → Except SyntaxError Statement × PState
  | 0, s => (.error .UnexpectedEndOfFile, s)
  | fuel + 1, s =>
    if s.peek.elim false (fun t => t.lexeme == "do") then
      exmap (do_until_statement fuel (s.advance).2) Statement.doUntil
    else if s.peek.elim false (fun t => t.lexeme == "if") then
      exmap (if_statement fuel (s.advance).2) Statement.ifS
    else if s.peek.elim false (fun t => t.lexeme == "while") then
      exmap (while_statement fuel (s.advance).2) Statement.whileS
    else if s.peek.elim false (fun t => t.lexeme == "return") then
      exmap (return_statement fuel (s.advance).2) Statement.ret
    else if s.peek.elim false (fun t => t.lexeme == "for") then
      exmap (for_statement fuel (s.advance).2) Statement.forS
    else if s.check .LeftBrace then
      exmap (block_statement fuel s) Statement.block
    else
      match expression fuel s with
      | (.error e, s1) => (.error e, s1)
      | (.ok expr, s1) =>
        match s1.consume .Semicolon "Se esperaba ; despues de la expresion." with
        | (.error e, s2) => (.error e, s2)
        | (.ok _, s2) => (.ok (Statement.expression expr), s2)

def block_statement : Nat → PState → Except SyntaxError Block × PState
  | 0, s => (.error .UnexpectedEndOfFile, s)
  | fuel + 1, s =>
    match s.consume .LeftBrace "Se esperaba \x7b para iniciar un bloque." with
    | (.error e, s1) => (.error e, s1)
    | (.ok _, s1) =>
      let (stmts, s2) := blockLoop fuel s1 []
      match s2.consume .RightBrace "Se esperaba \x7d para cerrar un bloque." with
      | (.error e, s3) => (.error e, s3)
      | (.ok _, s3) => (.ok (Block.mk stmts), s3)

def blockLoop : Nat → PState → List Declaration → List Declaration × PState
  | 0, s, acc => (acc, s)
  | fuel + 1, s, acc =>
    if s.check .RightBrace || s.is_at_end then (acc, s)
    else
      match declaration fuel s with
      | (.ok decl, s2) => blockLoop fuel s2 (acc ++ [decl])
      | (.error _, s2) => blockLoop fuel (synchronize fuel s2) acc

def return_statement : Nat → PState → Except SyntaxError ReturnStatement × PState
  | 0, s => (.error .UnexpectedEndOfFile, s)
  | fuel + 1, s =>
    match expression fuel s with
    | (.error e, s1) => (.error e, s1)
    | (.ok value, s1) =>
      match s1.consume .Semicolon "Se esperaba ; despues del valor de retorno." with
      | (.error e, s2) => (.error e, s2)
      | (.ok _, s2) => (.ok (ReturnStatement.mk value), s2)

def if_statement : Nat → PState → Except SyntaxError IfStatement × PState
  | 0, s => (.error .UnexpectedEndOfFile, s)
  | fuel + 1, s =>
    match s.consume .LeftParen "Se esperaba ( despues de if." with
    | (.error e, s1) => (.error e, s1)
    | (.ok _, s1) =>
      match logical_or fuel s1 with
      | (.error e, s2) => (.error e, s2)
      | (.ok condition, s2) =>
        match s2.consume .RightParen "Se esperaba ) despues de la condicion." with
        | (.error e, s3) => (.error e, s3)
        | (.ok _, s3) =>
          match block_statement fuel s3 with
          | (.error e, s4) => (.error e, s4)
          | (.ok then_block, s4) =>
            if s4.peek.elim false (fun t => t.lexeme == "else") then
              let s5 := (s4.advance).2
              if s5.peek.elim false (fun t => t.lexeme == "if") then
                match if_statement fuel (s5.advance).2 with
                | (.error e, s6) => (.error e, s6)
                | (.ok inner, s6) =>
                  (.ok (IfStatement.mk condition then_block (some (ElseBranch.ifB inner))), s6)
              else
                match block_statement fuel s5 with
                | (.error e, s6) => (.error e, s6)
                | (.ok blk, s6) =>
                  (.ok (IfStatement.mk condition then_block
                    (some (ElseBranch.blockB (Statement.block blk)))), s6)
            else
              (.ok (IfStatement.mk condition then_block none), s4)

def while_statement : Nat → PState → Except SyntaxError WhileStatement × PState
  | 0, s => (.error .UnexpectedEndOfFile, s)
  | fuel + 1, s =>
    match s.consume .LeftParen "Se esperaba ( despues de while." with
    | (.error e, s1) => (.error e, s1)
    | (.ok _, s1) =>
      match logical_or fuel s1 with
      | (.error e, s2) => (.error e, s2)
      | (.ok condition, s2) =>
        match s2.consume .RightParen "Se esperaba ) despues de la condicion." with
        | (.error e, s3) => (.error e, s3)
        | (.ok _, s3) =>
          match block_statement fuel s3 with
          | (.error e, s4) => (.error e, s4)
          | (.ok body, s4) => (.ok (WhileStatement.mk condition body), s4)

def do_until_statement : Nat → PState → Except SyntaxError DoUntilStatement × PState
  | 0, s => (.error .UnexpectedEndOfFile, s)
  | fuel + 1, s =>
    match block_statement fuel s with
    | (.error e, s1) => (.error e, s1)
    | (.ok body, s1) =>
      match s1.peek with
      | some token =>
        if token.token_type == TokenType.Keyword && token.lexeme == "until" then
          let s2 := (s1.advance).2
          match logical_or fuel s2 with
          | (.error e, s3) => (.error e, s3)
          | (.ok condition, s3) =>
            match s3.consume .Semicolon
                "Se esperaba ; despues de la sentencia do-until." with
            | (.error e, s4) => (.error e, s4)
            | (.ok _, s4) => (.ok (DoUntilStatement.mk body condition), s4)
        else
          let err := SyntaxError.UnexpectedToken
            ("Se esperaba la palabra clave until despues del bloque do, pero se encontro "
              ++ token.lexeme) token.line token.column
          (.error err, s1.pushErr err)
      | none =>
        (.error .UnexpectedEndOfFile, s1.pushErr .UnexpectedEndOfFile)

def for_statement : Nat → PState → Except SyntaxError ForStatement × PState
  | 0, s => (.error .UnexpectedEndOfFile, s)
  | fuel + 1, s =>
    match s.consume .Identifier "Se esperaba una variable de bucle." with
    | (.error e, s1) => (.error e, s1)
    | (.ok variable_token, s1) =>
      let variable1 : Identifier :=
        ⟨variable_token.lexeme, variable_token.line, variable_token.column⟩
      match s1.advance with
      | (none, s2) => (.error .UnexpectedEndOfFile, s2)
      | (some in_keyword, s2) =>
        if in_keyword.token_type != TokenType.Keyword || in_keyword.lexeme != "in" then
          (.error .MissingInKeyword, s2)
        else
          match expression fuel s2 with
          | (.error e, s3) => (.error e, s3)
          | (.ok iterable, s3) =>
            match block_statement fuel s3 with
            | (.error e, s4) => (.error e, s4)
            | (.ok body, s4) => (.ok (ForStatement.mk variable1 iterable body), s4)

def expression : Nat → PState → Except SyntaxError Expression × PState
  | 0, s => (.error .UnexpectedEndOfFile, s)
  | fuel + 1, s => assignment fuel s

def assignment : Nat → PState → Except SyntaxError Expression × PState
  | 0, s => (.error .UnexpectedEndOfFile, s)
  | fuel + 1, s =>
    match pipe fuel s with
    | (.error e, s1) => (.error e, s1)
    | (.ok left, s1) =>
      match s1.match_token .Equal with
      | (true, s2) =>
        match left with
        | .identifier target =>
          match assignment fuel s2 with
          | (.error e, s3) => (.error e, s3)
          | (.ok value, s3) => (.ok (Expression.assignment target value), s3)
        | _ => (.error .InvalidAssignmentTarget, s2)
      | (false, s2) =>
        match s2.match_token .Swap with
        | (true, s3) =>
          match left with
          | .identifier _ =>
            match assignment fuel s3 with
            | (.error e, s4) => (.error e, s4)
            | (.ok right, s4) =>
              match right with
              | .identifier _ =>
                (.ok (Expression.binary left BinaryOp.Swap right), s4)
              | _ => (.error .InvalidAssignmentTarget, s4)
          | _ => (.error .InvalidAssignmentTarget, s3)
        | (false, s3) => (.ok left, s3)

def pipe : Nat → PState → Except SyntaxError Expression × PState
  | 0, s => (.error .UnexpectedEndOfFile, s)
  | fuel + 1, s =>
    match spread fuel s with
    | (.error e, s1) => (.error e, s1)
    | (.ok expr, s1) => pipeLoop fuel s1 expr

def pipeLoop : Nat → PState → Expression → Except SyntaxError Expression × PState
  | 0, s, _ => (.error .UnexpectedEndOfFile, s)
  | fuel + 1, s, expr =>
    match s.match_token .Pipe with
    | (true, s1) =>
      match spread fuel s1 with
      | (.error e, s2) => (.error e, s2)
      | (.ok right, s2) =>
        pipeLoop fuel s2 (Expression.binary expr BinaryOp.Pipe right)
    | (false, s1) => (.ok expr, s1)

def spread : Nat → PState → Except SyntaxError Expression × PState
  | 0, s => (.error .UnexpectedEndOfFile, s)
  | fuel + 1, s =>
    match logical_or fuel s with
    | (.error e, s1) => (.error e, s1)
    | (.ok expr, s1) => spreadLoop fuel s1 expr

def spreadLoop : Nat → PState → Expression → Except SyntaxError Expression × PState
  | 0, s, _ => (.error .UnexpectedEndOfFile, s)
  | fuel + 1, s, expr =>
    match s.match_token .Spread with
    | (true, s1) =>
      match logical_or fuel s1 with
      | (.error e, s2) => (.error e, s2)
      | (.ok right, s2) =>
        spreadLoop fuel s2 (Expression.binary expr BinaryOp.Spread right)
    | (false, s1) => (.ok expr, s1)

def logical_or : Nat → PState → Except SyntaxError Expression × PState
  | 0, s => (.error .UnexpectedEndOfFile, s)
  | fuel + 1, s =>
    match logical_and fuel s with
    | (.error e, s1) => (.error e, s1)
    | (.ok expr, s1) => logicalOrLoop fuel s1 expr

def logicalOrLoop : Nat → PState → Expression → Except SyntaxError Expression × PState
  | 0, s, _ => (.error .UnexpectedEndOfFile, s)
  | fuel + 1, s, expr =>
    match s.match_token .DoubleBar with
    | (true, s1) =>
      match logical_and fuel s1 with
      | (.error e, s2) => (.error e, s2)
      | (.ok right, s2) =>
        logicalOrLoop fuel s2 (Expression.binary expr BinaryOp.DoubleBar right)
    | (false, s1) => (.ok expr, s1)

def logical_and : Nat → PState → Except SyntaxError Expression × PState
  | 0, s => (.error .UnexpectedEndOfFile, s)
  | fuel + 1, s =>
    match equality fuel s with
    | (.error e, s1) => (.error e, s1)
    | (.ok expr, s1) => logicalAndLoop fuel s1 expr

def logicalAndLoop : Nat → PState → Expression → Except SyntaxError Expression × PState
  | 0, s, _ => (.error .UnexpectedEndOfFile, s)
  | fuel + 1, s, expr =>
    match s.match_token .DoubleAmpersand with
    | (true, s1) =>
      match equality fuel s1 with
      | (.error e, s2) => (.error e, s2)
      | (.ok right, s2) =>
        logicalAndLoop fuel s2 (Expression.binary expr BinaryOp.DoubleAmpersand right)
    | (false, s1) => (.ok expr, s1)

def equality : Nat → PState → Except SyntaxError Expression × PState
  | 0, s => (.error .UnexpectedEndOfFile, s)
  | fuel + 1, s =>
    match comparison fuel s with
    | (.error e, s1) => (.error e, s1)
    | (.ok expr, s1) => equalityLoop fuel s1 expr

def equalityLoop : Nat → PState → Expression → Except SyntaxError Expression × PState
  | 0, s, _ => (.error .UnexpectedEndOfFile, s)
  | fuel + 1, s, expr =>
    match s.match_token .DoubleEqual with
    | (true, s1) =>
      match comparison fuel s1 with
      | (.error e, s2) => (.error e, s2)
      | (.ok right, s2) =>
        equalityLoop fuel s2 (Expression.binary expr BinaryOp.DoubleEqual right)
    | (false, s1) =>
      match s1.match_token .NotEqual with
      | (true, s2) =>
        match comparison fuel s2 with
        | (.error e, s3) => (.error e, s3)
        | (.ok right, s3) =>
          equalityLoop fuel s3 (Expression.binary expr BinaryOp.NotEqual right)
      | (false, s2) => (.ok expr, s2)

def comparison : Nat → PState → Except SyntaxError Expression × PState
  | 0, s => (.error .UnexpectedEndOfFile, s)
  | fuel + 1, s =>
    match term fuel s with
    | (.error e, s1) => (.error e, s1)
    | (.ok expr, s1) => comparisonLoop fuel s1 expr

def comparisonLoop : Nat → PState → Expression → Except SyntaxError Expression × PState
  | 0, s, _ => (.error .UnexpectedEndOfFile, s)
  | fuel + 1, s, expr =>
    match s.match_token .Greater with
    | (true, s1) =>
      match term fuel s1 with
      | (.error e, s2) => (.error e, s2)
      | (.ok right, s2) =>
        comparisonLoop fuel s2 (Expression.binary expr BinaryOp.Greater right)
    | (false, s1) =>
      match s1.match_token .GreaterEqual with
      | (true, s2) =>
        match term fuel s2 with
        | (.error e, s3) => (.error e, s3)
        | (.ok right, s3) =>
          comparisonLoop fuel s3 (Expression.binary expr BinaryOp.GreaterEqual right)
      | (false, s2) =>
        match s2.match_token .Less with
        | (true, s3) =>
          match term fuel s3 with
          | (.error e, s4) => (.error e, s4)
          | (.ok right, s4) =>
            comparisonLoop fuel s4 (Expression.binary expr BinaryOp.Less right)
        | (false, s3) =>
          match s3.match_token .LessEqual with
          | (true, s4) =>
            match term fuel s4 with
            | (.error e, s5) => (.error e, s5)
            | (.ok right, s5) =>
              comparisonLoop fuel s5 (Expression.binary expr BinaryOp.LessEqual right)
          | (false, s4) => (.ok expr, s4)

def term : Nat → PState → Except SyntaxError Expression × PState
  | 0, s => (.error .UnexpectedEndOfFile, s)
  | fuel + 1, s =>
    match factor fuel s with
    | (.error e, s1) => (.error e, s1)
    | (.ok expr, s1) => termLoop fuel s1 expr

def termLoop : Nat → PState → Expression → Except SyntaxError Expression × PState
  | 0, s, _ => (.error .UnexpectedEndOfFile, s)
  | fuel + 1, s, expr =>
    match s.match_token .Plus with
    | (true, s1) =>
      match factor fuel s1 with
      | (.error e, s2) => (.error e, s2)
      | (.ok right, s2) =>
        termLoop fuel s2 (Expression.binary expr BinaryOp.Plus right)
    | (false, s1) =>
      match s1.match_token .Minus with
      | (true, s2) =>
        match factor fuel s2 with
        | (.error e, s3) => (.error e, s3)
        | (.ok right, s3) =>
          termLoop fuel s3 (Expression.binary expr BinaryOp.Minus right)
      | (false, s2) => (.ok expr, s2)

def factor : Nat → PState → Except SyntaxError Expression × PState
  | 0, s => (.error .UnexpectedEndOfFile, s)
  | fuel + 1, s =>
    match unaryE fuel s with
    | (.error e, s1) => (.error e, s1)
    | (.ok expr, s1) => factorLoop fuel s1 expr

def factorLoop : Nat → PState → Expression → Except SyntaxError Expression × PState
  | 0, s, _ => (.error .UnexpectedEndOfFile, s)
  | fuel + 1, s, expr =>
    match s.match_token .Asterisk with
    | (true, s1) =>
      match unaryE fuel s1 with
      | (.error e, s2) => (.error e, s2)
      | (.ok right, s2) =>
        factorLoop fuel s2 (Expression.binary expr BinaryOp.Asterisk right)
    | (false, s1) =>
      match s1.match_token .Slash with
      | (true, s2) =>
        match unaryE fuel s2 with
        | (.error e, s3) => (.error e, s3)
        | (.ok right, s3) =>
          factorLoop fuel s3 (Expression.binary expr BinaryOp.Slash right)
      | (false, s2) => (.ok expr, s2)

def unaryE : Nat → PState → Except SyntaxError Expression × PState
  | 0, s => (.error .UnexpectedEndOfFile, s)
  | fuel + 1, s =>
    match s.match_token .Minus with
    | (true, s1) =>
      match unaryE fuel s1 with
      | (.error e, s2) => (.error e, s2)
      | (.ok expr, s2) => (.ok (Expression.unary UnaryOp.Minus expr), s2)
    | (false, s1) =>
      match s1.match_token .Exclamation with
      | (true, s2) =>
        match unaryE fuel s2 with
        | (.error e, s3) => (.error e, s3)
        | (.ok expr, s3) => (.ok (Expression.unary UnaryOp.Exclamation expr), s3)
      | (false, s2) =>
        match s2.match_token .Splat with
        | (true, s3) =>
          match unaryE fuel s3 with
          | (.error e, s4) => (.error e, s4)
          | (.ok expr, s4) => (.ok (Expression.splat expr), s4)
        | (false, s3) => post_fix fuel s3

def post_fix : Nat → PState → Except SyntaxError Expression × PState
  | 0, s => (.error .UnexpectedEndOfFile, s)
  | fuel + 1, s =>
    match primary fuel s with
    | (.error e, s1) => (.error e, s1)
    | (.ok expr, s1) => postFixLoop fuel s1 expr

def postFixLoop : Nat → PState → Expression → Except SyntaxError Expression × PState
  | 0, s, _ => (.error .UnexpectedEndOfFile, s)
  | fuel + 1, s, expr =>
    match s.match_token .LeftParen with
    | (true, s1) =>
      match finish_call fuel s1 expr with
      | (.error e, s2) => (.error e, s2)
      | (.ok expr2, s2) => postFixLoop fuel s2 expr2
    | (false, s1) =>
      match s1.match_token .Dot with
      | (true, s2) =>
        match s2.consume .Identifier
            "Se esperaba el nombre de la propiedad despues de ." with
        | (.error e, s3) => (.error e, s3)
        | (.ok property, s3) =>
          postFixLoop fuel s3 (Expression.memberAccess expr
            ⟨property.lexeme, property.line, property.column⟩)
      | (false, s2) =>
        match s2.match_token .Increment with
        | (true, s3) =>
          match expr with
          | .identifier target_id =>
            postFixLoop fuel s3 (Expression.assignment target_id
              (Expression.binary (Expression.identifier target_id) BinaryOp.Plus
                (Expression.literal (Lit.int 1))))
          | _ => (.error .InvalidAssignmentTarget, s3)
        | (false, s3) =>
          match s3.match_token .Decrement with
          | (true, s4) =>
            match expr with
            | .identifier target_id =>
              postFixLoop fuel s4 (Expression.assignment target_id
                (Expression.binary (Expression.identifier target_id) BinaryOp.Minus
                  (Expression.literal (Lit.int 1))))
            | _ => (.error .InvalidAssignmentTarget, s4)
          | (false, s4) => (.ok expr, s4)

def finish_call : Nat → PState → Expression →
    Except SyntaxError Expression × PState
  | 0, s, _ => (.error .UnexpectedEndOfFile, s)
  | fuel + 1, s, callee =>
    if s.check .RightParen then
      match s.consume .RightParen "Se esperaba ) despues de los argumentos." with
      | (.error e, s1) => (.error e, s1)
      | (.ok _, s1) => (.ok (Expression.functionCall callee []), s1)
    else
      match argumentsLoop fuel s [] with
      | (.error e, s1) => (.error e, s1)
      | (.ok args, s1) =>
        match s1.consume .RightParen "Se esperaba ) despues de los argumentos." with
        | (.error e, s2) => (.error e, s2)
        | (.ok _, s2) => (.ok (Expression.functionCall callee args), s2)

def argumentsLoop : Nat → PState → List Expression →
    Except SyntaxError (List Expression) × PState
  | 0, s, _ => (.error .UnexpectedEndOfFile, s)
  | fuel + 1, s, acc =>
    match expression fuel s with
    | (.error e, s1) => (.error e, s1)
    | (.ok arg, s1) =>
      match s1.match_token .Comma with
      | (true, s2) => argumentsLoop fuel s2 (acc ++ [arg])
      | (false, s2) => (.ok (acc ++ [arg]), s2)

def primary : Nat → PState → Except SyntaxError Expression × PState
  | 0, s => (.error .UnexpectedEndOfFile, s)
  | fuel + 1, s =>
    if s.peek.elim false (fun t => t.lexeme == "true") then
      (.ok (Expression.literal (Lit.bool true)), (s.advance).2)
    else if s.peek.elim false (fun t => t.lexeme == "false") then
      (.ok (Expression.literal (Lit.bool false)), (s.advance).2)
    else
      match s.match_token .Integer with
      | (true, s1) =>
        match s1.previous with
        | some token =>
          (.ok (Expression.literal (Lit.int (parseIntLexeme token.lexeme))), s1)
        | none => (.error .UnexpectedEndOfFile, s1)
      | (false, s1) =>
        match s1.match_token .Float with
        | (true, s2) =>
          match s2.previous with
          | some token => (.ok (Expression.literal (Lit.float token.lexeme)), s2)
          | none => (.error .UnexpectedEndOfFile, s2)
        | (false, s2) =>
          match s2.match_token .String with
          | (true, s3) =>
            match s3.previous with
            | some token => (.ok (Expression.literal (Lit.str token.lexeme)), s3)
            | none => (.error .UnexpectedEndOfFile, s3)
          | (false, s3) =>
            match s3.match_token .LeftBracket with
            | (true, s4) =>
              if s4.check .RightBracket then
                match s4.consume .RightBracket "Se esperaba ] al final del array." with
                | (.error e, s5) => (.error e, s5)
                | (.ok _, s5) => (.ok (Expression.array []), s5)
              else
                match arrayElementsLoop fuel s4 [] with
                | (.error e, s5) => (.error e, s5)
                | (.ok elements, s5) =>
                  match s5.consume .RightBracket "Se esperaba ] al final del array." with
                  | (.error e, s6) => (.error e, s6)
                  | (.ok _, s6) => (.ok (Expression.array elements), s6)
            | (false, s4) =>
              match s4.match_token .LeftBrace with
              | (true, s5) =>
                match objectFieldsLoop fuel s5 [] with
                | (.error e, s6) => (.error e, s6)
                | (.ok fields, s6) =>
                  match s6.consume .RightBrace
                      "Se esperaba \x7d al final del objeto literal." with
                  | (.error e, s7) => (.error e, s7)
                  | (.ok _, s7) => (.ok (Expression.object fields), s7)
              | (false, s5) =>
                if s5.check .Identifier then
                  if (s5.tokens.get? (s5.current + 1)).elim false
                      (fun t => t.token_type == TokenType.LeftBrace) then
                    struct_instantiation fuel s5
                  else
                    match s5.advance with
                    | (some token, s6) =>
                      (.ok (Expression.identifier
                        ⟨token.lexeme, token.line, token.column⟩), s6)
                    | (none, s6) => (.error .UnexpectedEndOfFile, s6)
                else
                  match s5.match_token .LeftParen with
                  | (true, s6) =>
                    match expression fuel s6 with
                    | (.error e, s7) => (.error e, s7)
                    | (.ok expr, s7) =>
                      match s7.consume .RightParen
                          "Se esperaba ) despues de la expresion." with
                      | (.error e, s8) => (.error e, s8)
                      | (.ok _, s8) => (.ok (Expression.grouped expr), s8)
                  | (false, s6) =>
                    match s6.peek with
                    | some token =>
                      let err := SyntaxError.UnexpectedToken
                        ("Token inesperado: " ++ token.lexeme) token.line token.column
                      (.error err, s6.pushErr err)
                    | none => (.error .UnexpectedEndOfFile, s6)

def arrayElementsLoop : Nat → PState → List Expression →
    Except SyntaxError (List Expression) × PState
  | 0, s, _ => (.error .UnexpectedEndOfFile, s)
  | fuel + 1, s, acc =>
    match expression fuel s with
    | (.error e, s1) => (.error e, s1)
    | (.ok el, s1) =>
      match s1.match_token .Comma with
      | (true, s2) => arrayElementsLoop fuel s2 (acc ++ [el])
      | (false, s2) => (.ok (acc ++ [el]), s2)

def objectFieldsLoop : Nat → PState → List (Identifier × Expression) →
    Except SyntaxError (List (Identifier × Expression)) × PState
  | 0, s, _ => (.error .UnexpectedEndOfFile, s)
  | fuel + 1, s, acc =>
    if s.check .RightBrace then (.ok acc, s)
    else
      match s.consume .Identifier "Se esperaba una clave en el literal de objeto." with
      | (.error e, s1) => (.error e, s1)
      | (.ok key_token, s1) =>
        let key : Identifier := ⟨key_token.lexeme, key_token.line, key_token.column⟩
        match s1.consume .Colon "Se esperaba : despues de la clave." with
        | (.error e, s2) => (.error e, s2)
        | (.ok _, s2) =>
          match expression fuel s2 with
          | (.error e, s3) => (.error e, s3)
          | (.ok value, s3) =>
            let acc2 := acc ++ [(key, value)]
            if s3.check .RightBrace then objectFieldsLoop fuel s3 acc2
            else
              match s3.consume .Comma "Se esperaba , despues del valor." with
              | (.error e, s4) => (.error e, s4)
              | (.ok _, s4) => objectFieldsLoop fuel s4 acc2

def struct_instantiation : Nat → PState → Except SyntaxError Expression × PState
  | 0, s => (.error .UnexpectedEndOfFile, s)
  | fuel + 1, s =>
    match s.consume .Identifier "Se esperaba el nombre del struct." with
    | (.error e, s1) => (.error e, s1)
    | (.ok name_token, s1) =>
      let name : Identifier := ⟨name_token.lexeme, name_token.line, name_token.column⟩
      match s1.consume .LeftBrace "Se esperaba \x7b para instanciar el struct." with
      | (.error e, s2) => (.error e, s2)
      | (.ok _, s2) =>
        match structInstFieldsLoop fuel s2 [] with
        | (.error e, s3) => (.error e, s3)
        | (.ok fields, s3) =>
          match s3.consume .RightBrace
              "Se esperaba \x7d al final de la instanciacion." with
          | (.error e, s4) => (.error e, s4)
          | (.ok _, s4) => (.ok (Expression.structInst name fields), s4)

def structInstFieldsLoop : Nat → PState → List (Identifier × Expression) →
    Except SyntaxError (List (Identifier × Expression)) × PState
  | 0, s, _ => (.error .UnexpectedEndOfFile, s)
  | fuel + 1, s, acc =>
    if s.check .RightBrace then (.ok acc, s)
    else
      match s.consume .Identifier "Se esperaba un nombre de campo." with
      | (.error e, s1) => (.error e, s1)
      | (.ok key_token, s1) =>
        let key : Identifier := ⟨key_token.lexeme, key_token.line, key_token.column⟩
        match s1.consume .Equal "Se esperaba = despues del nombre del campo." with
        | (.error e, s2) => (.error e, s2)
        | (.ok _, s2) =>
          match expression fuel s2 with
          | (.error e, s3) => (.error e, s3)
          | (.ok value, s3) =>
            let acc2 := acc ++ [(key, value)]
            if s3.check .RightBrace then structInstFieldsLoop fuel s3 acc2
            else
              match s3.consume .Comma "Se esperaba , despues del valor del campo." with
              | (.error e, s4) => (.error e, s4)
              | (.ok _, s4) => structInstFieldsLoop fuel s4 acc2

end

/-- Mirrors `parse_tokens`: run the top-level parse loop and package the
AST together with the recovered error list. -/
def parse_tokens (tokens : List LexerToken) (fuel : Nat) : ParseResult :=
  let s0 : PState := ⟨tokens, 0, []⟩
  let (decls, sF) := parseLoop fuel s0 []
  ParseResult.mk (Program.mk decls) sF.errors

/-! ## Symbol table (src/backend/compiler/src/symbol_table.rs) -/

inductive Symbol where
  | variableS (name : String) (type_ : Ty) (defined : Bool)
      (line : Nat) (column : Nat) (value : Option Lit)
  | functionS (name : String) (parameters : List Ty) (return_type : Ty)
      (line : Nat) (column : Nat)
  | structS (name : String) (fields : RMap Ty) (line : Nat) (column : Nat)
  | constantS (name : String) (type_ : Ty) (line : Nat) (column : Nat)
      (value : Option Lit)
deriving DecidableEq, Repr

def Symbol.get_type : Symbol → Ty
  | .variableS _ type_ _ _ _ _ => type_
  | .functionS _ _ return_type _ _ => return_type
  | .structS _ _ _ _ => Ty.void
  | .constantS _ type_ _ _ _ => type_

def Symbol.is_constant : Symbol → Bool
  | .constantS _ _ _ _ _ => true
  | _ => false

/-- Scope tree node (`symbol_table.rs` `Scope`): symbol map, optional
parent (boxed in Rust), completed child scopes, name, nesting level. -/
inductive Scope where
  | mk (symbols : RMap Symbol) (parent : Option Scope) (children : List Scope)
      (name : String) (level : Nat)
deriving Repr

def Scope.symbols : Scope → RMap Symbol
  | .mk s _ _ _ _ => s

def Scope.parent : Scope → Option Scope
  | .mk _ p _ _ _ => p

def Scope.children : Scope → List Scope
  | .mk _ _ c _ _ => c

def Scope.name : Scope → String
  | .mk _ _ _ n _ => n

def Scope.level : Scope → Nat
  | .mk _ _ _ _ l => l

def Scope.new (parent : Option Scope) (name : String) : Scope :=
  let level := parent.elim 0 (fun p => p.level + 1)
  .mk RMap.empty parent [] name level

/-- Mirrors `Scope::insert`: a `HashMap::insert` that reports success as
"no previous binding" — on a duplicate key it still replaces the stored
symbol and returns `false`. -/
def Scope.insert (sc : Scope) (name : String) (symbol : Symbol) : Bool × Scope :=
  match sc with
  | .mk syms p ch nm lv =>
    let (m, old) := RMap.insertPair syms name symbol
    (old.isNone, .mk m p ch nm lv)

mutual

/-- Mirrors `Scope::lookup`: the own map first, then
`parent.as_ref().and_then(|p| p.lookup(name))`. -/
def Scope.lookup : Scope → String → Option Symbol
  | .mk syms p _ _ _, name =>
    match RMap.get? syms name with
    | some s => some s
    | none => Scope.lookupParent p name
termination_by structural sc name => sc

/-- The parent step of `Scope::lookup`. -/
def Scope.lookupParent : Option Scope → String → Option Symbol
  | some par, name => Scope.lookup par name
  | none, _ => none
termination_by structural p name => p

end

structure SymbolTable where
  current_scope : Scope
deriving Repr

def SymbolTable.new : SymbolTable :=
  ⟨Scope.new none "global"⟩

def SymbolTable.enter_scope (st : SymbolTable) (name : String) : SymbolTable :=
  ⟨Scope.new (some st.current_scope) name⟩

/-- Mirrors `leave_scope`: pop to the parent and keep the popped scope
(with its parent pointer taken out) as a child of the parent. -/
def SymbolTable.leave_scope (st : SymbolTable) : SymbolTable :=
  match st.current_scope with
  | .mk syms (some p) ch nm lv =>
    let child := Scope.mk syms none ch nm lv
    match p with
    | .mk psyms pp pch pnm plv =>
      ⟨.mk psyms pp (pch ++ [child]) pnm plv⟩
  | s => ⟨s⟩

def SymbolTable.insert (st : SymbolTable) (name : String) (symbol : Symbol) :
    Bool × SymbolTable :=
  let (ok, sc) := st.current_scope.insert name symbol
  (ok, ⟨sc⟩)

def SymbolTable.lookup (st : SymbolTable) (name : String) : Option Symbol :=
  st.current_scope.lookup name

/-! ## Semantic analyzer (src/backend/compiler/src/semantic_analyzer.rs) -/

inductive SemanticError where
  | UndeclaredVariable (name : String) (line : Nat) (col : Nat)
  | RedeclaredVariable (name : String) (line : Nat) (col : Nat)
  | TypeMismatch (expected : String) (found : String) (line : Nat) (col : Nat)
  | InvalidAssignment (msg : String) (line : Nat) (col : Nat)
  | UndefinedStruct (name : String) (line : Nat) (col : Nat)
  | RedeclaredStruct (name : String) (line : Nat) (col : Nat)
  | RedeclaredField (structName : String) (fieldName : String) (line : Nat) (col : Nat)
  | FieldNotFound (structName : String) (fieldName : String) (line : Nat) (col : Nat)
  | InvalidMemberAccess (msg : String) (line : Nat) (col : Nat)
  | InvalidFunctionCallTarget (line : Nat) (col : Nat)
  | UndefinedFunction (name : String) (line : Nat) (col : Nat)
  | ArgumentCountMismatch (name : String) (expected : Nat) (found : Nat)
      (line : Nat) (col : Nat)
  | ArgumentTypeMismatch (name : String) (index : Nat) (expected : String)
      (found : String) (line : Nat) (col : Nat)
  | ReturnOutsideFunction (line : Nat) (col : Nat)
  | ReturnTypeMismatch (expected : String) (found : String) (line : Nat) (col : Nat)
  | MissingReturnStatement (name : String) (line : Nat) (col : Nat)
  | MissingMainFunction
  | InvalidMainFunctionSignature (reason : String) (line : Nat) (col : Nat)
deriving DecidableEq, Repr

/-- Annotated AST node.  The Rust type is the protobuf-generated
`AnnotatedNode` (compiler.proto is not under src/); its fields are fully
determined by the analyzer's uses: node_type, value, children,
start/end line/column, inferred_type, with protobuf defaults. -/
inductive ANode where
  | mk (node_type : String) (value : String) (children : List ANode)
      (start_line : Nat) (start_column : Nat) (end_line : Nat) (end_column : Nat)
      (inferred_type : String)
deriving Repr

def ANode.default : ANode := .mk "" "" [] 0 0 0 0 ""

def ANode.inferred_type : ANode → String
  | .mk _ _ _ _ _ _ _ t => t

def ANode.setInferred : ANode → String → ANode
  | .mk a b c d e f g _, t => .mk a b c d e f g t

/-- Rust `Debug` rendering of a binary operator (used for node values). -/
def BinaryOp.debugStr : BinaryOp → String
  | .Plus => "Plus"
  | .Minus => "Minus"
  | .Asterisk => "Asterisk"
  | .Slash => "Slash"
  | .Greater => "Greater"
  | .Less => "Less"
  | .GreaterEqual => "GreaterEqual"
  | .LessEqual => "LessEqual"
  | .DoubleEqual => "DoubleEqual"
  | .NotEqual => "NotEqual"
  | .DoubleAmpersand => "DoubleAmpersand"
  | .DoubleBar => "DoubleBar"
  | .Pipe => "Pipe"
  | .Spread => "Spread"
  | .Swap => "Swap"

def UnaryOp.debugStr : UnaryOp → String
  | .Minus => "Minus"
  | .Exclamation => "Exclamation"

/-- Analyzer state (`SemanticAnalyzer` struct). -/
structure SA where
  symbol_table : SymbolTable
  errors : List SemanticError
  current_function : Option (String × Ty)
deriving Repr

def SA.new : SA := ⟨SymbolTable.new, [], none⟩

def SA.pushErr (sa : SA) (e : SemanticError) : SA :=
  { sa with errors := sa.errors ++ [e] }

def SA.lookup (sa : SA) (n : String) : Option Symbol := sa.symbol_table.lookup n

def SA.insertSym (sa : SA) (n : String) (sym : Symbol) : Bool × SA :=
  let (ok, st) := sa.symbol_table.insert n sym
  (ok, { sa with symbol_table := st })

def SA.enterScope (sa : SA) (n : String) : SA :=
  { sa with symbol_table := sa.symbol_table.enter_scope n }

def SA.leaveScope (sa : SA) : SA :=
  { sa with symbol_table := sa.symbol_table.leave_scope }

/-- Mirrors the private `get_type` helper: a missing declared type
defaults to `Void`. -/
def get_type (opt_type : Option Ty) : Ty := opt_type.getD Ty.void

def identifier_to_annotated (id : Identifier) : ANode :=
  .mk "Identifier" id.name [] id.line id.column id.line (id.column + id.name.length) ""

mutual

/-- Mirrors `analyze_expression`.  The catch-all arm for MemberAccess,
Array, Object, Splat and StructInstantiation produces the
"UnsupportedExpression" node; its `value` field holds the Rust debug
formatting of the node in the source, which the model abbreviates (no
property depends on it). -/
def analyze_expression : Expression → SA → ANode × SA
  | .identifier id, sa =>
    let type_ := (sa.lookup id.name).elim Ty.void Symbol.get_type
    let sa2 :=
      if (sa.lookup id.name).isNone then
        sa.pushErr (.UndeclaredVariable id.name id.line id.column)
      else sa
    ((identifier_to_annotated id).setInferred type_.to_string, sa2)
  | .literal lit, sa =>
    match lit with
    | .int v => (ANode.mk "IntLiteral" (toString v) [] 0 0 0 0 "Int", sa)
    | .float v => (ANode.mk "FloatLiteral" v [] 0 0 0 0 "Float", sa)
    | .str v => (ANode.mk "StringLiteral" v [] 0 0 0 0 "String", sa)
    | .bool v =>
      (ANode.mk "BoolLiteral" (cond v "true" "false") [] 0 0 0 0 "Bool", sa)
  | .binary left op right, sa =>
    let (left_node, sa1) := analyze_expression left sa
    let (right_node, sa2) := analyze_expression right sa1
    let left_type := (Ty.from_str left_node.inferred_type).getD Ty.void
    let right_type := (Ty.from_str right_node.inferred_type).getD Ty.void
    let sa3 :=
      if left_type ≠ right_type then
        -- the source pushes the literal coordinates 0, 0 here
        -- (semantic_analyzer.rs lines 563-568, comment "Add line/col info")
        sa2.pushErr (.TypeMismatch left_type.to_string right_type.to_string 0 0)
      else sa2
    (ANode.mk "BinaryExpression" op.debugStr [left_node, right_node]
      0 0 0 0 left_type.to_string, sa3)
  | .assignment target value, sa =>
    let symbol_info := (sa.lookup target.name).map
      (fun s => (s.is_constant, s.get_type))
    let (value_node, sa1) := analyze_expression value sa
    let value_type := (Ty.from_str value_node.inferred_type).getD Ty.void
    let sa2 :=
      match symbol_info with
      | some (is_const, target_type) =>
        if is_const then
          sa1.pushErr (.InvalidAssignment
            ("Cannot assign to constant " ++ target.name) target.line target.column)
        else if target_type ≠ value_type then
          sa1.pushErr (.TypeMismatch target_type.to_string value_type.to_string
            target.line target.column)
        else sa1
      | none =>
        sa1.pushErr (.UndeclaredVariable target.name target.line target.column)
    (ANode.mk "Assignment" "" [identifier_to_annotated target, value_node]
      0 0 0 0 "Void", sa2)
  | .functionCall function args, sa =>
    match function with
    | .identifier fn_id =>
      let (arg_nodes, sa1) := analyze_expr_list args sa
      let return_type := (sa1.lookup fn_id.name).elim Ty.void Symbol.get_type
      (ANode.mk "FunctionCall" fn_id.name arg_nodes 0 0 0 0 return_type.to_string, sa1)
    | _ =>
      let (line, col) := function.get_line_col
      (ANode.mk "Error" "Invalid function call target" [] 0 0 0 0 "",
       sa.pushErr (.InvalidFunctionCallTarget line col))
  | .unary op expr, sa =>
    let (expr_node, sa1) := analyze_expression expr sa
    let expr_type := (Ty.from_str expr_node.inferred_type).getD Ty.void
    (ANode.mk "UnaryExpression" op.debugStr [expr_node] 0 0 0 0 expr_type.to_string, sa1)
  | .grouped expr, sa =>
    let (inner, sa1) := analyze_expression expr sa
    (ANode.mk "GroupedExpression" "" [inner] 0 0 0 0 inner.inferred_type, sa1)
  | _, sa =>
    (ANode.mk "UnsupportedExpression" "unsupported" [] 0 0 0 0 "Void", sa)

def analyze_expr_list : List Expression → SA → List ANode × SA
  | [], sa => ([], sa)
  | e :: rest, sa =>
    let (n, sa1) := analyze_expression e sa
    let (ns, sa2) := analyze_expr_list rest sa1
    (n :: ns, sa2)

end

def analyze_return_statement (r : ReturnStatement) (sa : SA) : ANode × SA :=
  let (line, column) := r.value.get_line_col
  let (value_node, sa1) := analyze_expression r.value sa
  let sa2 :=
    match sa1.current_function with
    | some (_, return_type) =>
      let expr_type := (Ty.from_str value_node.inferred_type).getD Ty.void
      if expr_type ≠ return_type then
        sa1.pushErr (.ReturnTypeMismatch return_type.to_string expr_type.to_string
          line column)
      else sa1
    | none => sa1.pushErr (.ReturnOutsideFunction line column)
  (ANode.mk "ReturnStatement" "" [value_node] 0 0 0 0 "", sa2)

/-- Mirrors `analyze_variable_declaration`.  Note: the inserted symbol
carries the inferred initializer type `value_type`, not the declared
type; the `TypeMismatch` check is skipped when the declared type is
`Void` (which is also the encoding of "no declared type"). -/
def analyze_variable_declaration (var_decl : VariableDeclaration) (sa : SA) :
    ANode × SA :=
  let name := var_decl.identifier.name
  let declared_type := get_type var_decl.var_type
  let (value_node, sa1) := analyze_expression var_decl.value sa
  let value_type := (Ty.from_str value_node.inferred_type).getD Ty.void
  let sa2 :=
    if declared_type ≠ Ty.void ∧ declared_type ≠ value_type then
      sa1.pushErr (.TypeMismatch declared_type.to_string value_type.to_string
        var_decl.identifier.line var_decl.identifier.column)
    else sa1
  let literal_value :=
    match var_decl.value with
    | .literal lit => some lit
    | _ => none
  let symbol := Symbol.variableS name value_type true
    var_decl.identifier.line var_decl.identifier.column literal_value
  let (okIns, sa3) := sa2.insertSym name symbol
  let sa4 :=
    if okIns then sa3
    else sa3.pushErr (.RedeclaredVariable name
      var_decl.identifier.line var_decl.identifier.column)
  (ANode.mk "VariableDeclaration" "let"
    [identifier_to_annotated var_decl.identifier, value_node]
    var_decl.identifier.line var_decl.identifier.column 0 0
    value_type.to_string, sa4)

def analyze_constant_declaration (const_decl : ConstantDeclaration) (sa : SA) :
    ANode × SA :=
  let name := const_decl.identifier.name
  let declared_type := get_type const_decl.const_type
  let (value_node, sa1) := analyze_expression const_decl.value sa
  let value_type := (Ty.from_str value_node.inferred_type).getD Ty.void
  let sa2 :=
    if declared_type ≠ Ty.void ∧ declared_type ≠ value_type then
      sa1.pushErr (.TypeMismatch declared_type.to_string value_type.to_string
        const_decl.identifier.line const_decl.identifier.column)
    else sa1
  let literal_value :=
    match const_decl.value with
    | .literal lit => some lit
    | _ => none
  let symbol := Symbol.constantS name value_type
    const_decl.identifier.line const_decl.identifier.column literal_value
  let (okIns, sa3) := sa2.insertSym name symbol
  let sa4 :=
    if okIns then sa3
    else sa3.pushErr (.RedeclaredVariable name
      const_decl.identifier.line const_decl.identifier.column)
  (ANode.mk "ConstantDeclaration" "const"
    [identifier_to_annotated const_decl.identifier, value_node]
    const_decl.identifier.line const_decl.identifier.column 0 0
    value_type.to_string, sa4)

def analyzeStructFields : List FieldDeclaration → String → RMap Ty → List ANode →
    SA → RMap Ty × List ANode × SA
  | [], _, fields, nodes, sa => (fields, nodes, sa)
  | f :: rest, name, fields, nodes, sa =>
    let sa1 :=
      if RMap.contains_key fields f.name.name then
        sa.pushErr (.RedeclaredField name f.name.name f.name.line f.name.column)
      else sa
    let fields2 := RMap.insert fields f.name.name f.field_type
    let node := ANode.mk "FieldDeclaration" f.name.name []
      f.name.line f.name.column 0 0 f.field_type.to_string
    analyzeStructFields rest name fields2 (nodes ++ [node]) sa1

def analyze_struct_declaration (struct_decl : StructDeclaration) (sa : SA) :
    ANode × SA :=
  let name := struct_decl.name.name
  let (fields, field_nodes, sa1) :=
    analyzeStructFields struct_decl.fields name RMap.empty [] sa
  let symbol := Symbol.structS name fields struct_decl.name.line struct_decl.name.column
  let (okIns, sa2) := sa1.insertSym name symbol
  let sa3 :=
    if okIns then sa2
    else sa2.pushErr (.RedeclaredStruct name
      struct_decl.name.line struct_decl.name.column)
  (ANode.mk "StructDeclaration" name field_nodes
    struct_decl.name.line struct_decl.name.column 0 0 "", sa3)

/-- Parameter processing inside `analyze_function_declaration`: insert
each parameter as a defined Variable and build its annotated node. -/
def analyzeParams : List Parameter → SA → List ANode × SA
  | [], sa => ([], sa)
  | p :: rest, sa =>
    let param_symbol := Symbol.variableS p.name.name p.param_type true
      p.name.line p.name.column none
    let (okp, sa1) := sa.insertSym p.name.name param_symbol
    let sa2 :=
      if okp then sa1
      else sa1.pushErr (.RedeclaredVariable p.name.name p.name.line p.name.column)
    let node := ANode.mk "Parameter" p.name.name []
      p.name.line p.name.column 0 0 p.param_type.to_string
    let (nodes, sa3) := analyzeParams rest sa2
    (node :: nodes, sa3)

mutual

def analyze_declaration : Declaration → SA → ANode × SA
  | .varD vd, sa => analyze_variable_declaration vd sa
  | .fnD fd, sa => analyze_function_declaration fd sa
  | .structD sd, sa => analyze_struct_declaration sd sa
  | .constD cd, sa => analyze_constant_declaration cd sa
  | .stmtD st, sa => analyze_statement st sa

termination_by structural d sa => d

/-- Mirrors `analyze_function_declaration`, including the threaded
`has_return` flag starting at `false` and the `MissingReturnStatement`
push when the return type is not Void and the flag stayed false. -/
def analyze_function_declaration : Function → SA → ANode × SA
  | .mk fname fparams freturn_type fbody, sa =>
    let name := fname.name
    let parameters := fparams.map (fun p => p.param_type)
    let symbol := Symbol.functionS name parameters freturn_type fname.line fname.column
    let (ok1, sa1) := sa.insertSym name symbol
    let sa2 :=
      if ok1 then sa1
      else sa1.pushErr (.RedeclaredVariable name fname.line fname.column)
    let previous_function := sa2.current_function
    let sa3 := { sa2 with current_function := some (name, freturn_type) }
    let sa4 := sa3.enterScope ("function: " ++ name)
    let (params_nodes, sa5) := analyzeParams fparams sa4
    let (body_node, has_return, sa6) := analyze_block_with_return_check fbody false sa5
    let sa7 :=
      if freturn_type ≠ Ty.void ∧ has_return = false then
        sa6.pushErr (.MissingReturnStatement name fname.line fname.column)
      else sa6
    let sa8 := sa7.leaveScope
    let sa9 := { sa8 with current_function := previous_function }
    (ANode.mk "FunctionDeclaration" name
      [ANode.mk "Parameters" "" params_nodes 0 0 0 0 "", body_node]
      fname.line fname.column 0 0 freturn_type.to_string, sa9)

termination_by structural f sa => f
def analyze_block_with_return_check : Block → Bool → SA → ANode × Bool × SA
  | .mk statements, hr, sa =>
    let sa1 := sa.enterScope "block"
    let (children, hr2, sa2) := analyze_decls_with_return_check statements hr sa1
    let sa3 := sa2.leaveScope
    (ANode.mk "Block" "" children 0 0 0 0 "", hr2, sa3)

termination_by structural b hr sa => b
def analyze_decls_with_return_check : List Declaration → Bool → SA →
    List ANode × Bool × SA
  | [], hr, sa => ([], hr, sa)
  | d :: rest, hr, sa =>
    match d with
    | .stmtD st =>
      let (n, hr1, sa1) := analyze_statement_with_return_check st hr sa
      let (ns, hr2, sa2) := analyze_decls_with_return_check rest hr1 sa1
      (n :: ns, hr2, sa2)
    | other =>
      let (n, sa1) := analyze_declaration other sa
      let (ns, hr2, sa2) := analyze_decls_with_return_check rest hr sa1
      (n :: ns, hr2, sa2)

termination_by structural ds hr sa => ds

/-- Mirrors `analyze_statement_with_return_check`.  The source's
catch-all arm delegates to `analyze_statement`; its four cases
(expression, while, for, do-until) are inlined here arm by arm so the
recursion stays structural — each arm is verbatim the corresponding
`analyze_statement` arm with the flag passed through unchanged. -/
def analyze_statement_with_return_check : Statement → Bool → SA → ANode × Bool × SA
  | .ret r, _, sa =>
    let (n, sa1) := analyze_return_statement r sa
    (n, true, sa1)
  | .block b, hr, sa => analyze_block_with_return_check b hr sa
  | .ifS is0, hr, sa => analyze_if_with_return_check is0 hr sa
  | .expression e, hr, sa =>
    let (n, sa1) := analyze_expression e sa
    (n, hr, sa1)
  | .whileS w, hr, sa =>
    let (n, sa1) := analyze_while w sa
    (n, hr, sa1)
  | .forS f, hr, sa =>
    let (n, sa1) := analyze_for f sa
    (n, hr, sa1)
  | .doUntil _, hr, sa => (ANode.default, hr, sa)

termination_by structural st hr sa => st

/-- The `Statement::If` arm of `analyze_statement_with_return_check`.
The source wraps the then-block as `Statement::Block(...)` and the
else-if as `Statement::If(...)` before the recursive call; those
wrappers dispatch straight back to the block/if cases, which this
helper calls directly.  Note the source builds the children vector
after both branches, so the condition is analyzed last. -/
def analyze_if_with_return_check : IfStatement → Bool → SA → ANode × Bool × SA
  | .mk condition then_block none, hr, sa =>
    let (then_node, hr1, sa1) := analyze_block_with_return_check then_block hr sa
    let (cond_node, sa3) := analyze_expression condition sa1
    (ANode.mk "IfStatement" "" [cond_node, then_node] 0 0 0 0 "", hr1, sa3)
  | .mk condition then_block (some (.blockB blk)), hr, sa =>
    let (then_node, hr1, sa1) := analyze_block_with_return_check then_block hr sa
    let (else_node, hr2, sa2) := analyze_statement_with_return_check blk hr1 sa1
    let (cond_node, sa3) := analyze_expression condition sa2
    (ANode.mk "IfStatement" "" [cond_node, then_node, else_node] 0 0 0 0 "", hr2, sa3)
  | .mk condition then_block (some (.ifB inner)), hr, sa =>
    let (then_node, hr1, sa1) := analyze_block_with_return_check then_block hr sa
    let (else_node, hr2, sa2) := analyze_if_with_return_check inner hr1 sa1
    let (cond_node, sa3) := analyze_expression condition sa2
    (ANode.mk "IfStatement" "" [cond_node, then_node, else_node] 0 0 0 0 "", hr2, sa3)

termination_by structural i hr sa => i
def analyze_statement : Statement → SA → ANode × SA
  | .expression e, sa => analyze_expression e sa
  | .block b, sa => analyze_block b sa
  | .ifS is0, sa => analyze_if_plain is0 sa
  | .whileS w, sa => analyze_while w sa
  | .ret r, sa => analyze_return_statement r sa
  | .forS f, sa => analyze_for f sa
  | .doUntil _, sa => (ANode.default, sa)

termination_by structural st sa => st

/-- The `Statement::While` arm of `analyze_statement`. -/
def analyze_while : WhileStatement → SA → ANode × SA
  | .mk condition body, sa =>
    let (cond_node, sa1) := analyze_expression condition sa
    let (body_node, sa2) := analyze_block body sa1
    (ANode.mk "WhileStatement" "" [cond_node, body_node] 0 0 0 0 "", sa2)

termination_by structural w sa => w

/-- The `Statement::For` arm of `analyze_statement`. -/
def analyze_for : ForStatement → SA → ANode × SA
  | .mk variable1 iterable body, sa =>
    let sa1 := sa.enterScope "for_loop"
    let symbol := Symbol.variableS variable1.name Ty.int true
      variable1.line variable1.column none
    let (_, sa2) := sa1.insertSym variable1.name symbol
    let (iterable_node, sa3) := analyze_expression iterable sa2
    let (body_node, sa4) := analyze_block body sa3
    let sa5 := sa4.leaveScope
    (ANode.mk "ForStatement" ""
      [identifier_to_annotated variable1, iterable_node, body_node] 0 0 0 0 "", sa5)

termination_by structural f sa => f

/-- The `Statement::If` arm of `analyze_statement` (the source wraps the
chained else-if as `Statement::If(...)` before recursing, which
dispatches straight back here). -/
def analyze_if_plain : IfStatement → SA → ANode × SA
  | .mk condition then_block none, sa =>
    let (cond_node, sa1) := analyze_expression condition sa
    let (then_node, sa2) := analyze_block then_block sa1
    (ANode.mk "IfStatement" "" [cond_node, then_node] 0 0 0 0 "", sa2)
  | .mk condition then_block (some (.blockB blk)), sa =>
    let (cond_node, sa1) := analyze_expression condition sa
    let (then_node, sa2) := analyze_block then_block sa1
    let (else_node, sa3) := analyze_statement blk sa2
    (ANode.mk "IfStatement" "" [cond_node, then_node, else_node] 0 0 0 0 "", sa3)
  | .mk condition then_block (some (.ifB inner)), sa =>
    let (cond_node, sa1) := analyze_expression condition sa
    let (then_node, sa2) := analyze_block then_block sa1
    let (else_node, sa3) := analyze_if_plain inner sa2
    (ANode.mk "IfStatement" "" [cond_node, then_node, else_node] 0 0 0 0 "", sa3)

termination_by structural i sa => i
def analyze_block : Block → SA → ANode × SA
  | .mk statements, sa =>
    let sa1 := sa.enterScope "block"
    let (children, sa2) := analyze_decls statements sa1
    let sa3 := sa2.leaveScope
    (ANode.mk "Block" "" children 0 0 0 0 "", sa3)

termination_by structural b sa => b
def analyze_decls : List Declaration → SA → List ANode × SA
  | [], sa => ([], sa)
  | d :: rest, sa =>
    let (n, sa1) := analyze_declaration d sa
    let (ns, sa2) := analyze_decls rest sa1
    (n :: ns, sa2)

termination_by structural ds sa => ds
end

/-- Mirrors `check_for_main_function`.  The human-readable reason keeps
the source wording with quote marks dropped. -/
def check_for_main_function (sa : SA) : SA :=
  match sa.symbol_table.lookup "main" with
  | some (Symbol.functionS _ parameters return_type line column) =>
    let signature_errors :=
      (if parameters.isEmpty then []
       else ["expected 0 parameters but found " ++ toString parameters.length]) ++
      (if return_type ≠ Ty.int then
        ["expected a Int return type but found " ++ return_type.to_string]
       else [])
    if signature_errors.isEmpty then sa
    else
      sa.pushErr (.InvalidMainFunctionSignature
        ("Invalid main function signature: " ++
          String.intercalate " and " signature_errors) line column)
  | some _ => sa.pushErr .MissingMainFunction
  | none => sa.pushErr .MissingMainFunction

/-- Mirrors `SemanticAnalyzer::analyze`: process every top-level
declaration, then run the main-function check. -/
def SA.analyze (sa : SA) (program : Program) : ANode × SA :=
  let (children, sa1) := analyze_decls program.declarations sa
  let sa2 := check_for_main_function sa1
  (ANode.mk "Program" "" children 0 0 0 0 "", sa2)

/-- Run the analyzer from a fresh state (`SemanticAnalyzer::new`). -/
def analyzeProgram (program : Program) : ANode × SA :=
  SA.new.analyze program

/-! ## IR emitter (src/backend/compiler/src/llvm_compiler.rs)

The inkwell builder API is modelled by an explicit compiler state: a
list of basic blocks (append-only; block references are indices, which
stay stable because deletion only marks a block), the index of the
current insertion block, a fresh-id counter for SSA values, the
variable/pointer maps, the module's function table, and the entry-block
index of the function being compiled.  Constants and module-level
globals produce fresh value ids without block instructions.  The model
covers the statement/expression fragment (`compile_statement` and
below); `compile_function`/`compile` wrap LLVM verification and
printing, which have no shallow embedding. -/

inductive LType where
  | i64
  | f64
  | i1
  | i32
  | ptr
deriving DecidableEq, Repr

/-- An LLVM value: its IR type plus a fresh identity.  The inkwell
`BasicValueEnum::IntValue` pattern corresponds to `i64`/`i1`/`i32`. -/
structure BVal where
  vtype : LType
  id : Nat
deriving DecidableEq, Repr

def BVal.isIntValue (v : BVal) : Bool :=
  v.vtype == LType.i64 || v.vtype == LType.i1 || v.vtype == LType.i32

def BVal.isFloatValue (v : BVal) : Bool := v.vtype == LType.f64

inductive Instr where
  | br (target : Nat)
  | condBr (cond : BVal) (thenT : Nat) (elseT : Nat)
  | retVal (v : BVal)
  | alloca (id : Nat) (name : String)
  | store (p : BVal) (v : BVal)
  | load (id : Nat) (ty : LType) (p : BVal) (name : String)
  | binop (id : Nat) (tag : String) (l : BVal) (r : BVal)
  | unop (id : Nat) (tag : String) (v : BVal)
  | call (id : Nat) (fname : String) (args : List BVal)
deriving DecidableEq, Repr

def Instr.isTerminator : Instr → Bool
  | .br _ => true
  | .condBr _ _ _ => true
  | .retVal _ => true
  | _ => false

structure BBlock where
  name : String
  instrs : List Instr
  deleted : Bool
deriving DecidableEq, Repr

structure CState where
  blocks : List BBlock
  cur : Nat
  nextId : Nat
  -- source field name: variables (a keyword in Lean)
  vars : RMap BVal
  variable_types : RMap LType
  functions : List (String × Option LType)
  current_function : Option Nat
deriving Repr

def listModify {α : Type} : List α → Nat → (α → α) → List α
  | [], _, _ => []
  | x :: xs, 0, f => f x :: xs
  | x :: xs, n + 1, f => x :: listModify xs n f

/-- `context.append_basic_block`: returns the new block's index. -/
def CState.appendBB (st : CState) (name : String) : Nat × CState :=
  (st.blocks.length, { st with blocks := st.blocks ++ [⟨name, [], false⟩] })

def CState.positionAtEnd (st : CState) (i : Nat) : CState := { st with cur := i }

/-- `builder.build_*`: append an instruction to the current block. -/
def CState.addInstr (st : CState) (ins : Instr) : CState :=
  { st with blocks :=
      listModify st.blocks st.cur (fun b => { b with instrs := b.instrs ++ [ins] }) }

def CState.freshId (st : CState) : Nat × CState :=
  (st.nextId, { st with nextId := st.nextId + 1 })

def CState.blockAt (st : CState) (i : Nat) : Option BBlock := st.blocks.get? i

/-- `get_insert_block().get_terminator().is_some()`. -/
def CState.curTerminated (st : CState) : Bool :=
  match st.blocks.get? st.cur with
  | some b => ((b.instrs.getLast?).map Instr.isTerminator).getD false
  | none => false

/-- `merge_bb.delete()`: marks the block; indices stay stable. -/
def CState.deleteBB (st : CState) (i : Nat) : CState :=
  { st with blocks := listModify st.blocks i (fun b => { b with deleted := true }) }

/-- `create_entry_block_alloca`: a fresh builder positioned before the
entry block's first instruction, so the alloca lands at the front of
the current function's entry block. -/
def create_entry_block_alloca (st : CState) (name : String) : BVal × CState :=
  let (id, st1) := st.freshId
  let st2 :=
    match st1.current_function with
    | some e =>
      let front := fun b : BBlock => { b with instrs := Instr.alloca id name :: b.instrs }
      { st1 with blocks := listModify st1.blocks e front }
    | none => st1
  (BVal.mk LType.ptr id, st2)

def ast_type_to_llvm : Ty → Except String (Option LType)
  | .int => .ok (some .i64)
  | .float => .ok (some .f64)
  | .bool => .ok (some .i1)
  | .string => .ok (some .ptr)
  | .void => .ok none

mutual

def compile_expression : Expression → CState → Except String (BVal × CState)
  | .literal lit, st => compile_literal lit st
  | .identifier ident, st =>
    (match RMap.get? st.vars ident.name with
     | none => .error ("Undefined variable: " ++ ident.name)
     | some ptr =>
       match RMap.get? st.variable_types ident.name with
       | none => .error ("Variable type not found: " ++ ident.name)
       | some var_type =>
         let (id, st1) := st.freshId
         .ok (BVal.mk var_type id, st1.addInstr (.load id var_type ptr ident.name)))
  | .binary left op right, st => compile_binary left op right st
  | .unary op expr, st => compile_unary op expr st
  | .assignment target value, st =>
    (match compile_expression value st with
     | .error e => .error e
     | .ok (val, st1) =>
       match RMap.get? st1.vars target.name with
       | none => .error ("Undefined variable: " ++ target.name)
       | some ptr => .ok (val, st1.addInstr (.store ptr val)))
  | .functionCall function args, st => compile_function_call function args st
  | .grouped expr, st => compile_expression expr st
  | _, st =>
    -- the source formats the offending node with Rust Debug; abbreviated
    let _ := st
    .error "Unsupported expression type: unsupported"
termination_by e st => 3 * sizeOf e + 1

def compile_literal : Lit → CState → Except String (BVal × CState)
  | .int _, st =>
    let (id, st1) := st.freshId
    .ok (BVal.mk LType.i64 id, st1)
  | .float _, st =>
    let (id, st1) := st.freshId
    .ok (BVal.mk LType.f64 id, st1)
  | .bool _, st =>
    let (id, st1) := st.freshId
    .ok (BVal.mk LType.i1 id, st1)
  | .str _, st =>
    -- build_global_string_ptr creates a module-level global constant
    let (id, st1) := st.freshId
    .ok (BVal.mk LType.ptr id, st1)
def compile_binary : Expression → BinaryOp → Expression → CState →
    Except String (BVal × CState)
  | left, op, right, st =>
    match compile_expression left st with
    | .error e => .error e
    | .ok (lhs, st1) =>
      match compile_expression right st1 with
      | .error e => .error e
      | .ok (rhs, st2) =>
        if lhs.isIntValue && rhs.isIntValue then
          let arith (tag : String) : Except String (BVal × CState) :=
            let (id, st3) := st2.freshId
            .ok (BVal.mk lhs.vtype id, st3.addInstr (.binop id tag lhs rhs))
          let cmp (tag : String) : Except String (BVal × CState) :=
            let (id, st3) := st2.freshId
            .ok (BVal.mk LType.i1 id, st3.addInstr (.binop id tag lhs rhs))
          match op with
          | .Plus => arith "add"
          | .Minus => arith "sub"
          | .Asterisk => arith "mul"
          | .Slash => arith "sdiv"
          | .Greater => cmp "icmp sgt"
          | .Less => cmp "icmp slt"
          | .GreaterEqual => cmp "icmp sge"
          | .LessEqual => cmp "icmp sle"
          | .DoubleEqual => cmp "icmp eq"
          | .NotEqual => cmp "icmp ne"
          | .DoubleAmpersand => arith "and"
          | .DoubleBar => arith "or"
          | _ => .error ("Unsupported binary operation: " ++ op.debugStr)
        else if lhs.isFloatValue && rhs.isFloatValue then
          let arith (tag : String) : Except String (BVal × CState) :=
            let (id, st3) := st2.freshId
            .ok (BVal.mk LType.f64 id, st3.addInstr (.binop id tag lhs rhs))
          let cmp (tag : String) : Except String (BVal × CState) :=
            let (id, st3) := st2.freshId
            .ok (BVal.mk LType.i1 id, st3.addInstr (.binop id tag lhs rhs))
          match op with
          | .Plus => arith "fadd"
          | .Minus => arith "fsub"
          | .Asterisk => arith "fmul"
          | .Slash => arith "fdiv"
          | .Greater => cmp "fcmp ogt"
          | .Less => cmp "fcmp olt"
          | .GreaterEqual => cmp "fcmp oge"
          | .LessEqual => cmp "fcmp ole"
          | .DoubleEqual => cmp "fcmp oeq"
          | .NotEqual => cmp "fcmp one"
          | _ => .error ("Unsupported binary operation: " ++ op.debugStr)
        else .error "Type mismatch in binary operation"
termination_by left op right st => 3 * (sizeOf left + sizeOf right) + 2

def compile_unary : UnaryOp → Expression → CState → Except String (BVal × CState)
  | op, expr, st =>
    match compile_expression expr st with
    | .error e => .error e
    | .ok (val, st1) =>
      match op with
      | .Minus =>
        if val.isIntValue then
          let (id, st2) := st1.freshId
          .ok (BVal.mk val.vtype id, st2.addInstr (.unop id "neg" val))
        else if val.isFloatValue then
          let (id, st2) := st1.freshId
          .ok (BVal.mk val.vtype id, st2.addInstr (.unop id "fneg" val))
        else .error "Cannot negate non-numeric value"
      | .Exclamation =>
        if val.isIntValue then
          let (id, st2) := st1.freshId
          .ok (BVal.mk val.vtype id, st2.addInstr (.unop id "not" val))
        else .error "Cannot negate non-boolean value"
termination_by op e st => 3 * sizeOf e + 2

def compile_function_call : Expression → List Expression → CState →
    Except String (BVal × CState)
  | function, args, st =>
    match function with
    | .identifier ident =>
      (match (st.functions.find? (fun p => p.1 == ident.name)) with
       | none => .error ("Undefined function: " ++ ident.name)
       | some (_, retTy) =>
         match compile_args args st with
         | .error e => .error e
         | .ok (argVals, st1) =>
           let (id, st2) := st1.freshId
           let st3 := st2.addInstr (.call id ident.name argVals)
           match retTy with
           | some lt => .ok (BVal.mk lt id, st3)
           | none => .error "Function call returned void")
    | _ => .error "Function call target must be an identifier"
termination_by f args st => 3 * (sizeOf f + sizeOf args) + 2

def compile_args : List Expression → CState → Except String (List BVal × CState)
  | [], st => .ok ([], st)
  | e :: rest, st =>
    match compile_expression e st with
    | .error err => .error err
    | .ok (v, st1) =>
      match compile_args rest st1 with
      | .error err => .error err
      | .ok (vs, st2) => .ok (v :: vs, st2)
termination_by es st => 3 * sizeOf es

end

mutual

def compile_block : Block → CState → Except String CState
  | .mk statements, st => compile_block_decls statements st

termination_by structural b st => b
def compile_block_decls : List Declaration → CState → Except String CState
  | [], st => .ok st
  | d :: rest, st =>
    match compile_block_declaration d st with
    | .error e => .error e
    | .ok st1 => compile_block_decls rest st1

termination_by structural ds st => ds
def compile_block_declaration : Declaration → CState → Except String CState
  | .varD var, st =>
    (match compile_expression var.value st with
     | .error e => .error e
     | .ok (value, st1) =>
       let var_type := value.vtype
       let (allocaV, st2) := create_entry_block_alloca st1 var.identifier.name
       let st3 := st2.addInstr (.store allocaV value)
       .ok { st3 with
         vars := RMap.insert st3.vars var.identifier.name allocaV,
         variable_types := RMap.insert st3.variable_types var.identifier.name var_type })
  | .constD const_decl, st =>
    (match compile_expression const_decl.value st with
     | .error e => .error e
     | .ok (value, st1) =>
       let var_type := value.vtype
       let (allocaV, st2) := create_entry_block_alloca st1 const_decl.identifier.name
       let st3 := st2.addInstr (.store allocaV value)
       .ok { st3 with
         vars := RMap.insert st3.vars const_decl.identifier.name allocaV,
         variable_types := RMap.insert st3.variable_types const_decl.identifier.name var_type })
  | .stmtD stmt, st => compile_statement stmt st
  | .fnD _, st =>
    let _ := st
    .error "Nested functions not supported"
  | .structD _, st => .ok st

termination_by structural d st => d
def compile_statement : Statement → CState → Except String CState
  | .expression expr, st =>
    (match compile_expression expr st with
     | .error e => .error e
     | .ok (_, st1) => .ok st1)
  | .ret r, st =>
    (match compile_expression r.value st with
     | .error e => .error e
     | .ok (value, st1) => .ok (st1.addInstr (.retVal value)))
  | .ifS if_stmt, st => compile_if if_stmt st
  | .whileS while_stmt, st => compile_while while_stmt st
  | .forS _, st =>
    let _ := st
    .error "For loops not yet implemented"
  | .doUntil do_until, st => compile_do_until do_until st
  | .block block, st => compile_block block st

termination_by structural s st => s
/-- The source's single `compile_if` body computes `else_value` by an
inner match on `else_block`; the three arms here hoist that match into
the top-level pattern (the prefix and suffix are the same code). -/
def compile_if : IfStatement → CState → Except String CState
  | .mk condition then_block none, st =>
    match compile_expression condition st with
    | .error e => .error e
    | .ok (cond, st1) =>
      if cond.isIntValue then
        match st1.current_function with
        | none => .error "No current function"
        | some _ =>
          let (then_bb, st2) := st1.appendBB "then"
          let (else_bb, st3) := st2.appendBB "else"
          let (merge_bb, st4) := st3.appendBB "ifcont"
          let st5 := st4.addInstr (.condBr cond then_bb else_bb)
          let st6 := st5.positionAtEnd then_bb
          match compile_block then_block st6 with
          | .error e => .error e
          | .ok st7 =>
            let then_has_terminator := st7.curTerminated
            let st8 :=
              if then_has_terminator = false then st7.addInstr (.br merge_bb) else st7
            let st10 := st8.positionAtEnd else_bb
            let else_has_terminator := st10.curTerminated
            let st11 :=
              if else_has_terminator = false then st10.addInstr (.br merge_bb) else st10
            if then_has_terminator = false ∨ else_has_terminator = false then
              .ok (st11.positionAtEnd merge_bb)
            else
              .ok (st11.deleteBB merge_bb)
      else .error "Condition must be boolean"
  | .mk condition then_block (some (.ifB inner)), st =>
    match compile_expression condition st with
    | .error e => .error e
    | .ok (cond, st1) =>
      if cond.isIntValue then
        match st1.current_function with
        | none => .error "No current function"
        | some _ =>
          let (then_bb, st2) := st1.appendBB "then"
          let (else_bb, st3) := st2.appendBB "else"
          let (merge_bb, st4) := st3.appendBB "ifcont"
          let st5 := st4.addInstr (.condBr cond then_bb else_bb)
          let st6 := st5.positionAtEnd then_bb
          match compile_block then_block st6 with
          | .error e => .error e
          | .ok st7 =>
            let then_has_terminator := st7.curTerminated
            let st8 :=
              if then_has_terminator = false then st7.addInstr (.br merge_bb) else st7
            let st9 := st8.positionAtEnd else_bb
            match compile_if inner st9 with
            | .error e => .error e
            | .ok st10 =>
              let else_has_terminator := st10.curTerminated
              let st11 :=
                if else_has_terminator = false then st10.addInstr (.br merge_bb) else st10
              if then_has_terminator = false ∨ else_has_terminator = false then
                .ok (st11.positionAtEnd merge_bb)
              else
                .ok (st11.deleteBB merge_bb)
      else .error "Condition must be boolean"
  | .mk condition then_block (some (.blockB blk)), st =>
    match compile_expression condition st with
    | .error e => .error e
    | .ok (cond, st1) =>
      if cond.isIntValue then
        match st1.current_function with
        | none => .error "No current function"
        | some _ =>
          let (then_bb, st2) := st1.appendBB "then"
          let (else_bb, st3) := st2.appendBB "else"
          let (merge_bb, st4) := st3.appendBB "ifcont"
          let st5 := st4.addInstr (.condBr cond then_bb else_bb)
          let st6 := st5.positionAtEnd then_bb
          match compile_block then_block st6 with
          | .error e => .error e
          | .ok st7 =>
            let then_has_terminator := st7.curTerminated
            let st8 :=
              if then_has_terminator = false then st7.addInstr (.br merge_bb) else st7
            let st9 := st8.positionAtEnd else_bb
            match compile_statement blk st9 with
            | .error e => .error e
            | .ok st10 =>
              let else_has_terminator := st10.curTerminated
              let st11 :=
                if else_has_terminator = false then st10.addInstr (.br merge_bb) else st10
              if then_has_terminator = false ∨ else_has_terminator = false then
                .ok (st11.positionAtEnd merge_bb)
              else
                .ok (st11.deleteBB merge_bb)
      else .error "Condition must be boolean"

termination_by structural i st => i
def compile_while : WhileStatement → CState → Except String CState
  | .mk condition body, st =>
    match st.current_function with
    | none => .error "No current function"
    | some _ =>
      let (cond_bb, st1) := st.appendBB "whilecond"
      let (body_bb, st2) := st1.appendBB "whilebody"
      let (after_bb, st3) := st2.appendBB "afterwhile"
      let st4 := st3.addInstr (.br cond_bb)
      let st5 := st4.positionAtEnd cond_bb
      match compile_expression condition st5 with
      | .error e => .error e
      | .ok (cond, st6) =>
        if cond.isIntValue then
          let st7 := st6.addInstr (.condBr cond body_bb after_bb)
          let st8 := st7.positionAtEnd body_bb
          match compile_block body st8 with
          | .error e => .error e
          | .ok st9 =>
            let st10 :=
              if st9.curTerminated = false then st9.addInstr (.br cond_bb) else st9
            .ok (st10.positionAtEnd after_bb)
        else .error "Condition must be boolean"

termination_by structural w st => w
def compile_do_until : DoUntilStatement → CState → Except String CState
  | .mk body condition, st =>
    match st.current_function with
    | none => .error "No current function"
    | some _ =>
      let (body_bb, st1) := st.appendBB "doBody"
      let (cond_bb, st2) := st1.appendBB "doCond"
      let (after_bb, st3) := st2.appendBB "afterDo"
      let st4 := st3.addInstr (.br body_bb)
      let st5 := st4.positionAtEnd body_bb
      match compile_block body st5 with
      | .error e => .error e
      | .ok st6 =>
        let st7 :=
          if st6.curTerminated = false then st6.addInstr (.br cond_bb) else st6
        let st8 := st7.positionAtEnd cond_bb
        match compile_expression condition st8 with
        | .error e => .error e
        | .ok (cond, st9) =>
          if cond.isIntValue then
            let st10 := st9.addInstr (.condBr cond after_bb body_bb)
            .ok (st10.positionAtEnd after_bb)
          else .error "Condition must be boolean"

termination_by structural d st => d
end

/-! ## Driver token filtering (src/backend/compiler/src/dreamcc.rs)

The driver strips whitespace, newlines, comments and `Unknown` tokens
before handing the stream to the parser. -/

def filter_tokens (ts : List LexerToken) : List LexerToken :=
  ts.filter (fun t =>
    !(t.token_type == TokenType.Whitespace ||
      t.token_type == TokenType.NewLine ||
      t.token_type == TokenType.CommentSingle ||
      t.token_type == TokenType.CommentMultiLine ||
      t.token_type == TokenType.Unknown))

/-! ## Auxiliary lemmas about the HashMap model and the symbol table -/

theorem rmap_insertPair_snd {α : Type} (m : RMap α) (k : String) (v : α) :
    (RMap.insertPair m k v).2 = RMap.get? m k := by
  induction m with
  | nil => rfl
  | cons hd tl ih =>
    obtain ⟨k0, v0⟩ := hd
    by_cases hk : k0 = k <;> simp [RMap.insertPair, RMap.get?, hk, ih]

theorem rmap_get_insertPair {α : Type} (m : RMap α) (k : String) (v : α) :
    RMap.get? (RMap.insertPair m k v).1 k = some v := by
  induction m with
  | nil => simp [RMap.insertPair, RMap.get?]
  | cons hd tl ih =>
    obtain ⟨k0, v0⟩ := hd
    by_cases hk : k0 = k <;> simp [RMap.insertPair, RMap.get?, hk, ih]

theorem symboltable_lookup_insert (st : SymbolTable) (n : String) (sym : Symbol) :
    ((st.insert n sym).2).lookup n = some sym := by
  obtain ⟨cs⟩ := st
  cases cs with
  | mk syms p ch nm lv =>
    show Scope.lookup (Scope.mk (RMap.insertPair syms n sym).1 p ch nm lv) n = some sym
    simp [Scope.lookup, rmap_get_insertPair]

/-! ## Claim C9 -/

/-- C9: for every symbol table state and name, the sequence
enter_scope; insert; leave_scope leaves `lookup` returning exactly what
it returned before: the pre-existing outer binding, or none.  The
popped scope is retained only in `children`, which `lookup` ignores. -/
theorem scope_enter_insert_leave_preserves_lookup
    (st : SymbolTable) (sname name : String) (sym : Symbol) :
    (SymbolTable.leave_scope (((st.enter_scope sname).insert name sym).2)).lookup name
      = st.lookup name := by
  obtain ⟨cs⟩ := st
  cases cs with
  | mk syms p ch nm lv =>
    show Scope.lookup (Scope.mk syms p (ch ++ [_]) nm lv) name
      = Scope.lookup (Scope.mk syms p ch nm lv) name
    simp only [Scope.lookup]

/-! ## Claim C5 -/

/-- C5 counterexample: inserting `x` into a table whose innermost scope
already binds `x` returns failure, but the stored binding is replaced
by the new symbol rather than left unchanged (`HashMap::insert`
overwrites). -/
theorem insert_duplicate_overwrites_cex :
    ((((SymbolTable.new.insert "x" (Symbol.variableS "x" Ty.int true 1 1 none)).2).insert
        "x" (Symbol.constantS "x" Ty.float 2 2 none)).1 = false) ∧
    (((SymbolTable.new.insert "x" (Symbol.variableS "x" Ty.int true 1 1 none)).2).insert
        "x" (Symbol.constantS "x" Ty.float 2 2 none)).2.lookup "x"
      = some (Symbol.constantS "x" Ty.float 2 2 none) ∧
    Symbol.constantS "x" Ty.float 2 2 none ≠ Symbol.variableS "x" Ty.int true 1 1 none := by
  decide

/-- C5 (amended): when the name is already bound in the innermost scope,
`insert` returns failure (`false`), but the innermost-scope binding is
replaced by the newly inserted symbol — `Scope::insert` delegates to
`HashMap::insert`, which overwrites and reports the old value. -/
theorem insert_duplicate_fails_but_overwrites
    (st : SymbolTable) (name : String) (sym : Symbol)
    (h : (RMap.get? st.current_scope.symbols name).isSome = true) :
    ((st.insert name sym).1 = false) ∧
    RMap.get? ((st.insert name sym).2).current_scope.symbols name = some sym := by
  obtain ⟨cs⟩ := st
  cases cs with
  | mk syms p ch nm lv =>
    refine ⟨?_, ?_⟩
    · show (RMap.insertPair syms name sym).2.isNone = false
      rw [rmap_insertPair_snd]
      simp only [Scope.symbols] at h
      obtain ⟨a, ha⟩ := Option.isSome_iff_exists.mp h
      rw [ha]
      rfl
    · show RMap.get? (RMap.insertPair syms name sym).1 name = some sym
      rw [rmap_get_insertPair]

/-- C5 witness: the amended theorem applied at a concrete table. -/
theorem insert_duplicate_fails_but_overwrites_witness :
    (RMap.get? ((SymbolTable.new.insert "x"
        (Symbol.variableS "x" Ty.int true 1 1 none)).2).current_scope.symbols "x").isSome
      = true ∧
    ((((SymbolTable.new.insert "x" (Symbol.variableS "x" Ty.int true 1 1 none)).2).insert
        "x" (Symbol.constantS "x" Ty.float 2 2 none)).1 = false) ∧
    RMap.get? ((((SymbolTable.new.insert "x"
        (Symbol.variableS "x" Ty.int true 1 1 none)).2).insert "x"
        (Symbol.constantS "x" Ty.float 2 2 none)).2).current_scope.symbols "x"
      = some (Symbol.constantS "x" Ty.float 2 2 none) :=
  ⟨by decide,
   insert_duplicate_fails_but_overwrites _ "x" _ (by decide)⟩

/-! ## Claim C2 -/

/-- C2: the keyword table built by `LexicalAnalyzer::new` is missing
`do`, `until`, `true` and `false`, so the scanner classifies all four as
Identifier — never Boolean or Keyword — while the ten listed words are
Keyword as documented.  (`token.rs` documents the `Boolean` kind as the
kind of `true`/`false`, and `parser.rs` requires `until` to arrive as a
`Keyword` token, so the scanner contradicts its own consumers.) -/
theorem lexer_keyword_classification_eval :
    scan_tokens "true" =
      [⟨.Identifier, "true", 1, 1⟩, ⟨.EndOfFile, "", 1, 5⟩] ∧
    scan_tokens "false" =
      [⟨.Identifier, "false", 1, 1⟩, ⟨.EndOfFile, "", 1, 6⟩] ∧
    scan_tokens "do" =
      [⟨.Identifier, "do", 1, 1⟩, ⟨.EndOfFile, "", 1, 3⟩] ∧
    scan_tokens "until" =
      [⟨.Identifier, "until", 1, 1⟩, ⟨.EndOfFile, "", 1, 6⟩] ∧
    scan_tokens "let" =
      [⟨.Keyword, "let", 1, 1⟩, ⟨.EndOfFile, "", 1, 4⟩] ∧
    scan_tokens "return" =
      [⟨.Keyword, "return", 1, 1⟩, ⟨.EndOfFile, "", 1, 7⟩] := by
  decide

/-! ## Claim C4 -/

/-- C4: the semantic analyzer reports the `TypeMismatch` for a binary
expression whose operand types differ with the hard-coded position
`(0, 0)` (semantic_analyzer.rs, "Add line/col info" comment), violating
the 1-based-position invariant the spec states.  Full pipeline on
`let x = 1 + 2.0;`. -/
theorem binary_type_mismatch_zero_position_eval :
    (analyzeProgram (parse_tokens
        (filter_tokens (scan_tokens "let x = 1 + 2.0;")) 50).ast).2.errors =
      [SemanticError.TypeMismatch "Int" "Float" 0 0,
       SemanticError.MissingMainFunction] := by
  decide

/-! ## Claim C3 -/

/-- C3 counterexample: `if_statement` and `while_statement` begin with
`consume(LeftParen)`, so a bare (unparenthesized) condition records an
`UnexpectedToken` syntax error — parentheses are required by the
grammar, contradicting the claim. -/
theorem bare_condition_records_error_cex :
    (parse_tokens (filter_tokens (scan_tokens "if x \x7b \x7d")) 50).errors =
      [SyntaxError.UnexpectedToken "Se esperaba ( despues de if., se encontro x" 1 4] ∧
    (parse_tokens (filter_tokens (scan_tokens "while x \x7b \x7d")) 50).errors =
      [SyntaxError.UnexpectedToken
        "Se esperaba ( despues de while., se encontro x" 1 7] := by
  decide

/-- C3 (amended): the `if`/`while` productions require the parentheses
and consume them themselves — the parenthesized condition parses without
error and the condition node is the bare inner expression (no `Grouped`
wrapper); doubled parentheses do produce a `Grouped` node; a bare
condition records an `UnexpectedToken` error. -/
theorem condition_parentheses_required :
    ((parse_tokens (filter_tokens (scan_tokens "if (x) \x7b \x7d")) 50).errors = [] ∧
     (parse_tokens (filter_tokens (scan_tokens "if (x) \x7b \x7d")) 50).ast.declarations =
       [Declaration.stmtD (Statement.ifS (IfStatement.mk
         (Expression.identifier ⟨"x", 1, 5⟩) (Block.mk []) none))]) ∧
    ((parse_tokens (filter_tokens (scan_tokens "while (x) \x7b \x7d")) 50).errors = [] ∧
     (parse_tokens (filter_tokens (scan_tokens "while (x) \x7b \x7d")) 50).ast.declarations =
       [Declaration.stmtD (Statement.whileS (WhileStatement.mk
         (Expression.identifier ⟨"x", 1, 8⟩) (Block.mk [])))]) ∧
    ((parse_tokens (filter_tokens (scan_tokens "if ((x)) \x7b \x7d")) 50).ast.declarations =
       [Declaration.stmtD (Statement.ifS (IfStatement.mk
         (Expression.grouped (Expression.identifier ⟨"x", 1, 6⟩)) (Block.mk []) none))]) ∧
    ((parse_tokens (filter_tokens (scan_tokens "if x \x7b \x7d")) 50).errors =
       [SyntaxError.UnexpectedToken
         "Se esperaba ( despues de if., se encontro x" 1 4]) := by
  exact ⟨⟨by decide, by rfl⟩, ⟨by decide, by rfl⟩, by rfl, by decide⟩

/-! ## Claim C6 -/

/-- C6 counterexample: an assignment whose target is a MemberAccess is
not accepted — `assignment` only accepts an `Expression::Identifier`
target and rejects everything else (including member access) with
`InvalidAssignmentTarget`. -/
theorem member_access_assignment_rejected_cex :
    (expression 50 ⟨filter_tokens (scan_tokens "a.b = 1;"), 0, []⟩).1 =
      Except.error SyntaxError.InvalidAssignmentTarget := by
  rfl

/-- C6 (amended): an assignment target must be an Identifier; identifier
targets produce an `Assignment` node, while member-access, grouped and
literal targets are all rejected with `InvalidAssignmentTarget` (and the
`Assignment` AST node can only carry an `Identifier` target by
construction). -/
theorem assignment_target_identifier_only :
    (expression 50 ⟨filter_tokens (scan_tokens "x = 1;"), 0, []⟩).1 =
      Except.ok (Expression.assignment ⟨"x", 1, 1⟩ (Expression.literal (Lit.int 1))) ∧
    (expression 50 ⟨filter_tokens (scan_tokens "a.b = 1;"), 0, []⟩).1 =
      Except.error SyntaxError.InvalidAssignmentTarget ∧
    (expression 50 ⟨filter_tokens (scan_tokens "(x) = 1;"), 0, []⟩).1 =
      Except.error SyntaxError.InvalidAssignmentTarget ∧
    (expression 50 ⟨filter_tokens (scan_tokens "1 = 2;"), 0, []⟩).1 =
      Except.error SyntaxError.InvalidAssignmentTarget := by
  exact ⟨by rfl, by rfl, by rfl, by rfl⟩

/-! ## Claim C7 -/

/-- C7: the postfix chain rewrites `x++` into an Assignment whose value
is `x + 1` (integer literal 1) and `x--` into `x - 1`, for every
identifier name and position; a non-l-value operand (e.g. the literal
`1`) yields `InvalidAssignmentTarget`.  The first three conjuncts state
this about the postfix loop itself (entered right after the primary, as
in the source); the last three run the whole expression parser on
lexed source text. -/
theorem postfix_incdec_rewrite (name : String) (l c : Nat) :
    (postFixLoop 3 ⟨[⟨.Identifier, name, l, c⟩, ⟨.Increment, "++", l, c + 1⟩,
        ⟨.Semicolon, ";", l, c + 3⟩, ⟨.EndOfFile, "", l, c + 4⟩], 1, []⟩
      (Expression.identifier ⟨name, l, c⟩)).1
      = .ok (Expression.assignment ⟨name, l, c⟩
          (Expression.binary (.identifier ⟨name, l, c⟩) .Plus (.literal (.int 1)))) ∧
    (postFixLoop 3 ⟨[⟨.Identifier, name, l, c⟩, ⟨.Decrement, "--", l, c + 1⟩,
        ⟨.Semicolon, ";", l, c + 3⟩, ⟨.EndOfFile, "", l, c + 4⟩], 1, []⟩
      (Expression.identifier ⟨name, l, c⟩)).1
      = .ok (Expression.assignment ⟨name, l, c⟩
          (Expression.binary (.identifier ⟨name, l, c⟩) .Minus (.literal (.int 1)))) ∧
    (postFixLoop 3 ⟨[⟨.Integer, "1", 1, 1⟩, ⟨.Increment, "++", 1, 2⟩,
        ⟨.Semicolon, ";", 1, 4⟩, ⟨.EndOfFile, "", 1, 5⟩], 1, []⟩
      (Expression.literal (.int 1))).1
      = .error SyntaxError.InvalidAssignmentTarget ∧
    (expression 50 ⟨filter_tokens (scan_tokens "x++;"), 0, []⟩).1
      = .ok (Expression.assignment ⟨"x", 1, 1⟩
          (Expression.binary (.identifier ⟨"x", 1, 1⟩) .Plus (.literal (.int 1)))) ∧
    (expression 50 ⟨filter_tokens (scan_tokens "x--;"), 0, []⟩).1
      = .ok (Expression.assignment ⟨"x", 1, 1⟩
          (Expression.binary (.identifier ⟨"x", 1, 1⟩) .Minus (.literal (.int 1)))) ∧
    (expression 50 ⟨filter_tokens (scan_tokens "1++;"), 0, []⟩).1
      = .error SyntaxError.InvalidAssignmentTarget := by
  refine ⟨?_, ?_, by rfl, by rfl, by rfl, by rfl⟩
  · simp [postFixLoop, PState.match_token, PState.check, PState.peek, PState.advance,
      PState.previous, PState.is_at_end, PState.consume, PState.pushErr]
  · simp [postFixLoop, PState.match_token, PState.check, PState.peek, PState.advance,
      PState.previous, PState.is_at_end, PState.consume, PState.pushErr]

/-! ## Claim C10 -/

/-- C10 counterexample: the claim's "declared type T" case fails when
T is Void — `let x: Void = 1;` declares Void, infers Int, yet records
no TypeMismatch (the analyzer's check is guarded by
`declared_type != Type::Void`); the symbol still gets the inferred
type Int. -/
theorem void_declared_type_no_mismatch_cex :
    ((analyzeProgram (parse_tokens
        (filter_tokens (scan_tokens "let x: Void = 1;")) 50).ast).2.errors =
      [SemanticError.MissingMainFunction]) ∧
    (analyzeProgram (parse_tokens
        (filter_tokens (scan_tokens "let x: Void = 1;")) 50).ast).2.symbol_table.lookup "x"
      = some (Symbol.variableS "x" Ty.int true 1 5 (some (Lit.int 1))) := by
  decide

/-- C10 (amended): for a variable or constant declaration whose declared
type T is not Void, if the initializer's inferred type U differs from T
the analyzer records `TypeMismatch(T, U, line, col)`, and in all cases it
inserts the symbol with the inferred type U (not T), so later lookups see
U.  (When T is Void — also the encoding of an absent annotation — the
mismatch check is skipped, as the counterexample shows.) -/
theorem declaration_inserts_inferred_type
    (sa sb : SA) (vd : VariableDeclaration) (cd : ConstantDeclaration) (t u : Ty)
    (hv : vd.var_type = some t) (htv : t ≠ Ty.void)
    (hc : cd.const_type = some u) (htu : u ≠ Ty.void) :
    (((Ty.from_str (analyze_expression vd.value sa).1.inferred_type).getD Ty.void ≠ t →
      SemanticError.TypeMismatch t.to_string
        ((Ty.from_str (analyze_expression vd.value sa).1.inferred_type).getD Ty.void).to_string
        vd.identifier.line vd.identifier.column
        ∈ ((analyze_variable_declaration vd sa).2).errors) ∧
     ((analyze_variable_declaration vd sa).2).symbol_table.lookup vd.identifier.name
      = some (Symbol.variableS vd.identifier.name
          ((Ty.from_str (analyze_expression vd.value sa).1.inferred_type).getD Ty.void)
          true vd.identifier.line vd.identifier.column
          (match vd.value with | .literal lit => some lit | _ => none))) ∧
    (((Ty.from_str (analyze_expression cd.value sb).1.inferred_type).getD Ty.void ≠ u →
      SemanticError.TypeMismatch u.to_string
        ((Ty.from_str (analyze_expression cd.value sb).1.inferred_type).getD Ty.void).to_string
        cd.identifier.line cd.identifier.column
        ∈ ((analyze_constant_declaration cd sb).2).errors) ∧
     ((analyze_constant_declaration cd sb).2).symbol_table.lookup cd.identifier.name
      = some (Symbol.constantS cd.identifier.name
          ((Ty.from_str (analyze_expression cd.value sb).1.inferred_type).getD Ty.void)
          cd.identifier.line cd.identifier.column
          (match cd.value with | .literal lit => some lit | _ => none))) := by
  constructor
  · rcases hA : analyze_expression vd.value sa with ⟨vnode, sa1⟩
    simp only [hA]
    unfold analyze_variable_declaration
    rw [hA, hv]
    simp only [get_type, Option.getD_some, SA.insertSym, SA.pushErr]
    constructor
    · intro hne
      split
      · split <;> simp
      · next hcond => exact absurd ⟨htv, fun h => hne h.symm⟩ hcond
    · split <;> split <;> exact symboltable_lookup_insert _ _ _
  · rcases hA : analyze_expression cd.value sb with ⟨vnode, sb1⟩
    simp only [hA]
    unfold analyze_constant_declaration
    rw [hA, hc]
    simp only [get_type, Option.getD_some, SA.insertSym, SA.pushErr]
    constructor
    · intro hne
      split
      · split <;> simp
      · next hcond => exact absurd ⟨htu, fun h => hne h.symm⟩ hcond
    · split <;> split <;> exact symboltable_lookup_insert _ _ _

/-- C10 witness: the amended theorem at `let x: Int = 3.0;` and
`const c: Int = "s";` from a fresh analyzer state. -/
theorem declaration_inserts_inferred_type_witness :
    ((VariableDeclaration.mk ⟨"x", 1, 5⟩ (some Ty.int)
        (Expression.literal (Lit.float "3.0"))).var_type = some Ty.int) ∧
    (Ty.int ≠ Ty.void) ∧
    (SemanticError.TypeMismatch "Int" "Float" 1 5
      ∈ ((analyze_variable_declaration
          (VariableDeclaration.mk ⟨"x", 1, 5⟩ (some Ty.int)
            (Expression.literal (Lit.float "3.0"))) SA.new).2).errors) ∧
    (((analyze_variable_declaration
        (VariableDeclaration.mk ⟨"x", 1, 5⟩ (some Ty.int)
          (Expression.literal (Lit.float "3.0"))) SA.new).2).symbol_table.lookup "x"
      = some (Symbol.variableS "x" Ty.float true 1 5 (some (Lit.float "3.0")))) ∧
    (SemanticError.TypeMismatch "Int" "String" 2 7
      ∈ ((analyze_constant_declaration
          (ConstantDeclaration.mk ⟨"c", 2, 7⟩ (some Ty.int)
            (Expression.literal (Lit.str "s"))) SA.new).2).errors) ∧
    (((analyze_constant_declaration
        (ConstantDeclaration.mk ⟨"c", 2, 7⟩ (some Ty.int)
          (Expression.literal (Lit.str "s"))) SA.new).2).symbol_table.lookup "c"
      = some (Symbol.constantS "c" Ty.string 2 7 (some (Lit.str "s")))) := by
  have h := declaration_inserts_inferred_type SA.new SA.new
    (VariableDeclaration.mk ⟨"x", 1, 5⟩ (some Ty.int) (Expression.literal (Lit.float "3.0")))
    (ConstantDeclaration.mk ⟨"c", 2, 7⟩ (some Ty.int) (Expression.literal (Lit.str "s")))
    Ty.int Ty.int rfl (by decide) rfl (by decide)
  exact ⟨rfl, by decide, h.1.1 (by decide), h.1.2, h.2.1 (by decide), h.2.2⟩

/-! ## Claim C1: return-flag machinery

Specification-side predicate describing when the analyzer's threaded
`has_return` flag gets set: a Return statement anywhere reachable
through blocks and through EITHER branch of an `if` (conditions,
loop bodies and do-until bodies are analyzed without the flag). -/

mutual

def stmtHasReturnAny : Statement → Bool
  | .ret _ => true
  | .block b => blockHasReturnAny b
  | .ifS i => ifHasReturnAny i
  | .expression _ => false
  | .whileS _ => false
  | .forS _ => false
  | .doUntil _ => false
termination_by structural st => st

def ifHasReturnAny : IfStatement → Bool
  | .mk _ tb eb =>
    blockHasReturnAny tb ||
    (match eb with
     | some (.blockB blk) => stmtHasReturnAny blk
     | some (.ifB inner) => ifHasReturnAny inner
     | none => false)
termination_by structural i => i

def blockHasReturnAny : Block → Bool
  | .mk ds => declsHaveReturnAny ds
termination_by structural b => b

def declsHaveReturnAny : List Declaration → Bool
  | [] => false
  | d :: rest =>
    (match d with
     | .stmtD s => stmtHasReturnAny s
     | _ => false) || declsHaveReturnAny rest
termination_by structural ds => ds

end

/-! The analyzer's flag after a checked statement equals the old flag
OR-ed with the any-branch return predicate. -/

mutual

theorem flag_stmt : ∀ (st : Statement) (hr : Bool) (sa : SA),
    (analyze_statement_with_return_check st hr sa).2.1 = (hr || stmtHasReturnAny st)
  | .ret r, hr, sa => by
    simp [analyze_statement_with_return_check, stmtHasReturnAny]
  | .block b, hr, sa => by
    simp [analyze_statement_with_return_check, stmtHasReturnAny, flag_block b hr sa]
  | .ifS i, hr, sa => by
    simp [analyze_statement_with_return_check, stmtHasReturnAny, flag_if i hr sa]
  | .expression e, hr, sa => by
    simp [analyze_statement_with_return_check, stmtHasReturnAny]
  | .whileS w, hr, sa => by
    simp [analyze_statement_with_return_check, stmtHasReturnAny]
  | .forS f, hr, sa => by
    simp [analyze_statement_with_return_check, stmtHasReturnAny]
  | .doUntil d, hr, sa => by
    simp [analyze_statement_with_return_check, stmtHasReturnAny]
termination_by structural st => st

theorem flag_if : ∀ (i : IfStatement) (hr : Bool) (sa : SA),
    (analyze_if_with_return_check i hr sa).2.1 = (hr || ifHasReturnAny i)
  | .mk cond tb eb, hr, sa => by
    have ht := flag_block tb hr sa
    rcases hB : analyze_block_with_return_check tb hr sa with ⟨tn, hr1, sa1⟩
    rw [hB] at ht
    simp only at ht
    subst ht
    cases eb with
    | none =>
      simp [analyze_if_with_return_check, hB, ifHasReturnAny]
    | some br =>
      cases br with
      | blockB blk =>
        simp [analyze_if_with_return_check, hB, ifHasReturnAny]
        rw [flag_stmt blk]
        simp [Bool.or_assoc]
      | ifB inner =>
        simp [analyze_if_with_return_check, hB, ifHasReturnAny]
        rw [flag_if inner]
        simp [Bool.or_assoc]
termination_by structural i => i

theorem flag_block : ∀ (b : Block) (hr : Bool) (sa : SA),
    (analyze_block_with_return_check b hr sa).2.1 = (hr || blockHasReturnAny b)
  | .mk ds, hr, sa => by
    have h := flag_decls ds hr (sa.enterScope "block")
    rcases hD : analyze_decls_with_return_check ds hr (sa.enterScope "block")
      with ⟨ns, hr2, sa2⟩
    rw [hD] at h
    simp only at h
    simp [analyze_block_with_return_check, hD, blockHasReturnAny, h]
termination_by structural b => b

theorem flag_decls : ∀ (ds : List Declaration) (hr : Bool) (sa : SA),
    (analyze_decls_with_return_check ds hr sa).2.1 = (hr || declsHaveReturnAny ds)
  | [], hr, sa => by
    simp [analyze_decls_with_return_check, declsHaveReturnAny]
  | d :: rest, hr, sa => by
    cases d with
    | stmtD s =>
      have h1 := flag_stmt s hr sa
      rcases hS : analyze_statement_with_return_check s hr sa with ⟨n1, hr1, sa1⟩
      rw [hS] at h1
      simp only at h1
      subst h1
      simp [analyze_decls_with_return_check, hS, declsHaveReturnAny]
      rw [flag_decls rest]
      simp [Bool.or_assoc]
    | fnD f =>
      rcases hA : analyze_declaration (.fnD f) sa with ⟨n1, sa1⟩
      simp [analyze_decls_with_return_check, hA, declsHaveReturnAny]
      rw [flag_decls rest]
    | varD v =>
      rcases hA : analyze_declaration (.varD v) sa with ⟨n1, sa1⟩
      simp [analyze_decls_with_return_check, hA, declsHaveReturnAny]
      rw [flag_decls rest]
    | structD s =>
      rcases hA : analyze_declaration (.structD s) sa with ⟨n1, sa1⟩
      simp [analyze_decls_with_return_check, hA, declsHaveReturnAny]
      rw [flag_decls rest]
    | constD c =>
      rcases hA : analyze_declaration (.constD c) sa with ⟨n1, sa1⟩
      simp [analyze_decls_with_return_check, hA, declsHaveReturnAny]
      rw [flag_decls rest]
termination_by structural ds => ds

end


/-! Counting `MissingReturnStatement` errors. -/

def isMissingReturn : SemanticError → Bool
  | .MissingReturnStatement _ _ _ => true
  | _ => false

def countMR (es : List SemanticError) : Nat := es.countP isMissingReturn

theorem countMR_push (es : List SemanticError) (e : SemanticError)
    (h : isMissingReturn e = false) : countMR (es ++ [e]) = countMR es := by
  simp [countMR, List.countP_append, List.countP_cons, h]

/-! Absence of nested function declarations in the analyzed region
(the only construct whose analysis can push `MissingReturnStatement`). -/

mutual

def stmtNoFn : Statement → Bool
  | .expression _ => true
  | .ret _ => true
  | .ifS i => ifNoFn i
  | .block b => blockNoFn b
  | .whileS (.mk _ b) => blockNoFn b
  | .forS (.mk _ _ b) => blockNoFn b
  | .doUntil _ => true
termination_by structural st => st

def ifNoFn : IfStatement → Bool
  | .mk _ tb none => blockNoFn tb
  | .mk _ tb (some (.blockB blk)) => blockNoFn tb && stmtNoFn blk
  | .mk _ tb (some (.ifB inner)) => blockNoFn tb && ifNoFn inner
termination_by structural i => i

def blockNoFn : Block → Bool
  | .mk ds => declsNoFn ds
termination_by structural b => b

def declsNoFn : List Declaration → Bool
  | [] => true
  | d :: rest => declNoFn d && declsNoFn rest
termination_by structural ds => ds

def declNoFn : Declaration → Bool
  | .fnD _ => false
  | .stmtD s => stmtNoFn s
  | .varD _ => true
  | .structD _ => true
  | .constD _ => true
termination_by structural d => d

end

/-! Expression analysis never records a `MissingReturnStatement`. -/

mutual

theorem mr_expr : ∀ (e : Expression) (sa : SA),
    countMR ((analyze_expression e sa).2).errors = countMR sa.errors
  | .identifier id, sa => by
    simp only [analyze_expression]
    split <;> simp [SA.pushErr, countMR_push, isMissingReturn]
  | .literal lit, sa => by
    cases lit <;> simp [analyze_expression]
  | .binary l op r, sa => by
    have h1 := mr_expr l sa
    rcases hL : analyze_expression l sa with ⟨ln, sa1⟩
    rw [hL] at h1
    simp only at h1
    have h2 := mr_expr r sa1
    rcases hR : analyze_expression r sa1 with ⟨rn, sa2⟩
    rw [hR] at h2
    simp only at h2
    simp only [analyze_expression, hL, hR]
    split <;> simp [SA.pushErr, countMR_push, isMissingReturn, h1, h2]
  | .assignment target value, sa => by
    have h1 := mr_expr value sa
    rcases hV : analyze_expression value sa with ⟨vn, sa1⟩
    rw [hV] at h1
    simp only at h1
    simp only [analyze_expression, hV]
    rcases hlk : SA.lookup sa target.name with _ | s
    · simp [hlk, SA.pushErr, countMR_push, isMissingReturn, h1]
    · simp only [hlk, Option.map]
      split
      · simp [SA.pushErr, countMR_push, isMissingReturn, h1]
      · split <;> simp [SA.pushErr, countMR_push, isMissingReturn, h1]
  | .unary op e, sa => by
    have h1 := mr_expr e sa
    rcases hE : analyze_expression e sa with ⟨en, sa1⟩
    rw [hE] at h1
    simp only at h1
    simp [analyze_expression, hE, h1]
  | .grouped e, sa => by
    have h1 := mr_expr e sa
    rcases hE : analyze_expression e sa with ⟨en, sa1⟩
    rw [hE] at h1
    simp only at h1
    simp [analyze_expression, hE, h1]
  | .functionCall f args, sa => by
    cases f with
    | identifier fn_id =>
      have h1 := mr_expr_list args sa
      rcases hA : analyze_expr_list args sa with ⟨ns, sa1⟩
      rw [hA] at h1
      simp only at h1
      simp [analyze_expression, hA, h1]
    | literal lit => simp [analyze_expression, SA.pushErr, countMR_push, isMissingReturn]
    | binary l op r => simp [analyze_expression, SA.pushErr, countMR_push, isMissingReturn]
    | unary op e => simp [analyze_expression, SA.pushErr, countMR_push, isMissingReturn]
    | assignment t v => simp [analyze_expression, SA.pushErr, countMR_push, isMissingReturn]
    | grouped e => simp [analyze_expression, SA.pushErr, countMR_push, isMissingReturn]
    | functionCall g as => simp [analyze_expression, SA.pushErr, countMR_push, isMissingReturn]
    | array es => simp [analyze_expression, SA.pushErr, countMR_push, isMissingReturn]
    | object fs => simp [analyze_expression, SA.pushErr, countMR_push, isMissingReturn]
    | splat e => simp [analyze_expression, SA.pushErr, countMR_push, isMissingReturn]
    | structInst n fs => simp [analyze_expression, SA.pushErr, countMR_push, isMissingReturn]
    | memberAccess o p => simp [analyze_expression, SA.pushErr, countMR_push, isMissingReturn]
  | .array es, sa => by simp [analyze_expression]
  | .object fs, sa => by simp [analyze_expression]
  | .splat e, sa => by simp [analyze_expression]
  | .structInst n fs, sa => by simp [analyze_expression]
  | .memberAccess o p, sa => by simp [analyze_expression]
termination_by structural e => e

theorem mr_expr_list : ∀ (es : List Expression) (sa : SA),
    countMR ((analyze_expr_list es sa).2).errors = countMR sa.errors
  | [], sa => by simp [analyze_expr_list]
  | e :: rest, sa => by
    have h1 := mr_expr e sa
    rcases hE : analyze_expression e sa with ⟨en, sa1⟩
    rw [hE] at h1
    simp only at h1
    have h2 := mr_expr_list rest sa1
    rcases hR : analyze_expr_list rest sa1 with ⟨ns, sa2⟩
    rw [hR] at h2
    simp only at h2
    simp [analyze_expr_list, hE, hR, h1, h2]
termination_by structural es => es

end


/-! The non-recursive analyzer routines preserve the MR-count too. -/

theorem mr_return (r : ReturnStatement) (sa : SA) :
    countMR ((analyze_return_statement r sa).2).errors = countMR sa.errors := by
  have h1 := mr_expr r.value sa
  rcases hV : analyze_expression r.value sa with ⟨vn, sa1⟩
  rw [hV] at h1
  simp only at h1
  simp only [analyze_return_statement, hV]
  rcases hc : sa1.current_function with _ | ⟨fnm, rt⟩
  · simp [hc, SA.pushErr, countMR_push, isMissingReturn, h1]
  · simp only [hc]
    split <;> simp [SA.pushErr, countMR_push, isMissingReturn, h1]

theorem mr_var_decl (vd : VariableDeclaration) (sa : SA) :
    countMR ((analyze_variable_declaration vd sa).2).errors = countMR sa.errors := by
  have h1 := mr_expr vd.value sa
  rcases hV : analyze_expression vd.value sa with ⟨vn, sa1⟩
  rw [hV] at h1
  simp only at h1
  simp only [countMR] at h1 ⊢
  simp only [analyze_variable_declaration, hV, SA.insertSym, SA.pushErr]
  split <;> split <;>
    simp [SA.pushErr, isMissingReturn, h1, List.countP_append, List.countP_cons]

theorem mr_const_decl (cd : ConstantDeclaration) (sa : SA) :
    countMR ((analyze_constant_declaration cd sa).2).errors = countMR sa.errors := by
  have h1 := mr_expr cd.value sa
  rcases hV : analyze_expression cd.value sa with ⟨vn, sa1⟩
  rw [hV] at h1
  simp only at h1
  simp only [countMR] at h1 ⊢
  simp only [analyze_constant_declaration, hV, SA.insertSym, SA.pushErr]
  split <;> split <;>
    simp [SA.pushErr, isMissingReturn, h1, List.countP_append, List.countP_cons]

theorem mr_struct_fields : ∀ (fds : List FieldDeclaration) (nm : String)
    (fields : RMap Ty) (nodes : List ANode) (sa : SA),
    countMR ((analyzeStructFields fds nm fields nodes sa).2.2).errors = countMR sa.errors
  | [], nm, fields, nodes, sa => by simp [analyzeStructFields]
  | f :: rest, nm, fields, nodes, sa => by
    simp only [analyzeStructFields]
    split
    · rw [mr_struct_fields rest]
      simp [SA.pushErr, countMR_push, isMissingReturn]
    · rw [mr_struct_fields rest]

theorem mr_struct_decl (sd : StructDeclaration) (sa : SA) :
    countMR ((analyze_struct_declaration sd sa).2).errors = countMR sa.errors := by
  have h1 := mr_struct_fields sd.fields sd.name.name RMap.empty [] sa
  rcases hF : analyzeStructFields sd.fields sd.name.name RMap.empty [] sa
    with ⟨fields, nodes, sa1⟩
  rw [hF] at h1
  simp only at h1
  simp only [countMR] at h1 ⊢
  simp only [analyze_struct_declaration, hF, SA.insertSym, SA.pushErr]
  split <;> simp [SA.pushErr, isMissingReturn, h1, List.countP_append, List.countP_cons]

theorem mr_params : ∀ (ps : List Parameter) (sa : SA),
    countMR ((analyzeParams ps sa).2).errors = countMR sa.errors
  | [], sa => by simp [analyzeParams]
  | p :: rest, sa => by
    simp only [analyzeParams, SA.insertSym, SA.pushErr]
    split
    · rw [mr_params rest]
    · rw [mr_params rest]
      simp [countMR, List.countP_append, List.countP_cons, isMissingReturn]

theorem SA.insertSym_errors (sa : SA) (n : String) (sym : Symbol) :
    ((sa.insertSym n sym).2).errors = sa.errors := by
  simp only [SA.insertSym]

/-! MR-count preservation across statement analysis, assuming no nested
function declarations (the only construct that can push the error). -/

mutual

theorem mr_stmt : ∀ (st : Statement) (sa : SA), stmtNoFn st = true →
    countMR ((analyze_statement st sa).2).errors = countMR sa.errors
  | .expression e, sa, _ => by
    simp only [analyze_statement]
    exact mr_expr e sa
  | .ret r, sa, _ => by
    simp only [analyze_statement]
    exact mr_return r sa
  | .ifS i, sa, h => by
    simp only [analyze_statement]
    exact mr_if_plain i sa (by simpa [stmtNoFn] using h)
  | .block b, sa, h => by
    simp only [analyze_statement]
    exact mr_block b sa (by simpa [stmtNoFn] using h)
  | .whileS w, sa, h => by
    simp only [analyze_statement]
    exact mr_while w sa h
  | .forS f, sa, h => by
    simp only [analyze_statement]
    exact mr_for f sa h
  | .doUntil d, sa, _ => by
    simp [analyze_statement]
termination_by structural st => st

theorem mr_while : ∀ (w : WhileStatement) (sa : SA),
    stmtNoFn (.whileS w) = true →
    countMR ((analyze_while w sa).2).errors = countMR sa.errors
  | .mk cond body, sa, h => by
    have h1 := mr_expr cond sa
    rcases hC : analyze_expression cond sa with ⟨cn, sa1⟩
    rw [hC] at h1
    simp only at h1
    have h2 := mr_block body sa1 (by simpa [stmtNoFn] using h)
    rcases hB : analyze_block body sa1 with ⟨bn, sa2⟩
    rw [hB] at h2
    simp only at h2
    simp [analyze_while, hC, hB, h1, h2]
termination_by structural w => w

theorem mr_for : ∀ (f : ForStatement) (sa : SA),
    stmtNoFn (.forS f) = true →
    countMR ((analyze_for f sa).2).errors = countMR sa.errors
  | .mk v iter body, sa, h => by
    rcases hIns : (sa.enterScope "for_loop").insertSym v.name
      (Symbol.variableS v.name Ty.int true v.line v.column none) with ⟨ok, sa2⟩
    have hs2 : sa2.errors = sa.errors := by
      have h3 := congrArg (fun p => (Prod.snd p).errors) hIns
      simp only at h3
      rw [SA.insertSym_errors] at h3
      simpa [SA.enterScope] using h3.symm
    have h1 := mr_expr iter sa2
    rcases hI : analyze_expression iter sa2 with ⟨inode, sa3⟩
    rw [hI] at h1
    simp only at h1
    have h2 := mr_block body sa3 (by simpa [stmtNoFn] using h)
    rcases hB : analyze_block body sa3 with ⟨bn, sa4⟩
    rw [hB] at h2
    simp only at h2
    simp only [analyze_for, hIns, hI, hB, SA.leaveScope]
    simp [h1, h2, hs2]
termination_by structural f => f

theorem mr_if_plain : ∀ (i : IfStatement) (sa : SA), ifNoFn i = true →
    countMR ((analyze_if_plain i sa).2).errors = countMR sa.errors
  | .mk cond tb none, sa, h => by
    have h1 := mr_expr cond sa
    rcases hC : analyze_expression cond sa with ⟨cn, sa1⟩
    rw [hC] at h1
    simp only at h1
    have h2 := mr_block tb sa1 (by simpa [ifNoFn] using h)
    rcases hB : analyze_block tb sa1 with ⟨tn, sa2⟩
    rw [hB] at h2
    simp only at h2
    simp [analyze_if_plain, hC, hB, h1, h2]
  | .mk cond tb (some (.blockB blk)), sa, h => by
    have h1 := mr_expr cond sa
    rcases hC : analyze_expression cond sa with ⟨cn, sa1⟩
    rw [hC] at h1
    simp only at h1
    have h2 := mr_block tb sa1 (by simp [ifNoFn] at h; exact h.1)
    rcases hB : analyze_block tb sa1 with ⟨tn, sa2⟩
    rw [hB] at h2
    simp only at h2
    have h3 := mr_stmt blk sa2 (by simp [ifNoFn] at h; exact h.2)
    rcases hS : analyze_statement blk sa2 with ⟨en, sa3⟩
    rw [hS] at h3
    simp only at h3
    simp [analyze_if_plain, hC, hB, hS, h1, h2, h3]
  | .mk cond tb (some (.ifB inner)), sa, h => by
    have h1 := mr_expr cond sa
    rcases hC : analyze_expression cond sa with ⟨cn, sa1⟩
    rw [hC] at h1
    simp only at h1
    have h2 := mr_block tb sa1 (by simp [ifNoFn] at h; exact h.1)
    rcases hB : analyze_block tb sa1 with ⟨tn, sa2⟩
    rw [hB] at h2
    simp only at h2
    have h3 := mr_if_plain inner sa2 (by simp [ifNoFn] at h; exact h.2)
    rcases hS : analyze_if_plain inner sa2 with ⟨en, sa3⟩
    rw [hS] at h3
    simp only at h3
    simp [analyze_if_plain, hC, hB, hS, h1, h2, h3]
termination_by structural i => i

theorem mr_block : ∀ (b : Block) (sa : SA), blockNoFn b = true →
    countMR ((analyze_block b sa).2).errors = countMR sa.errors
  | .mk ds, sa, h => by
    have h1 := mr_decls ds (sa.enterScope "block") (by simpa [blockNoFn] using h)
    rcases hD : analyze_decls ds (sa.enterScope "block") with ⟨ns, sa1⟩
    rw [hD] at h1
    simp only at h1
    rw [show (sa.enterScope "block").errors = sa.errors from rfl] at h1
    simp only [analyze_block, hD, SA.leaveScope]
    simpa using h1
termination_by structural b => b

theorem mr_decls : ∀ (ds : List Declaration) (sa : SA), declsNoFn ds = true →
    countMR ((analyze_decls ds sa).2).errors = countMR sa.errors
  | [], sa, _ => by simp [analyze_decls]
  | d :: rest, sa, h => by
    have h1 := mr_decl d sa (by simp [declsNoFn] at h; exact h.1)
    rcases hA : analyze_declaration d sa with ⟨n1, sa1⟩
    rw [hA] at h1
    simp only at h1
    have h2 := mr_decls rest sa1 (by simp [declsNoFn] at h; exact h.2)
    rcases hR : analyze_decls rest sa1 with ⟨ns, sa2⟩
    rw [hR] at h2
    simp only at h2
    simp [analyze_decls, hA, hR, h1, h2]
termination_by structural ds => ds

theorem mr_decl : ∀ (d : Declaration) (sa : SA), declNoFn d = true →
    countMR ((analyze_declaration d sa).2).errors = countMR sa.errors
  | .varD v, sa, _ => by
    simp only [analyze_declaration]
    exact mr_var_decl v sa
  | .constD c, sa, _ => by
    simp only [analyze_declaration]
    exact mr_const_decl c sa
  | .structD s, sa, _ => by
    simp only [analyze_declaration]
    exact mr_struct_decl s sa
  | .fnD f, sa, h => by simp [declNoFn] at h
  | .stmtD st, sa, h => by
    simp only [analyze_declaration]
    exact mr_stmt st sa (by simpa [declNoFn] using h)
termination_by structural d => d

theorem mr_stmt_check : ∀ (st : Statement) (hr : Bool) (sa : SA), stmtNoFn st = true →
    countMR ((analyze_statement_with_return_check st hr sa).2.2).errors = countMR sa.errors
  | .ret r, hr, sa, _ => by
    have h1 := mr_return r sa
    rcases hR : analyze_return_statement r sa with ⟨n, sa1⟩
    rw [hR] at h1
    simp only at h1
    simp [analyze_statement_with_return_check, hR, h1]
  | .block b, hr, sa, h => by
    simp only [analyze_statement_with_return_check]
    exact mr_block_check b hr sa (by simpa [stmtNoFn] using h)
  | .ifS i, hr, sa, h => by
    simp only [analyze_statement_with_return_check]
    exact mr_if_check i hr sa (by simpa [stmtNoFn] using h)
  | .expression e, hr, sa, _ => by
    have h1 := mr_expr e sa
    rcases hE : analyze_expression e sa with ⟨n, sa1⟩
    rw [hE] at h1
    simp only at h1
    simp [analyze_statement_with_return_check, hE, h1]
  | .whileS w, hr, sa, h => by
    have h1 := mr_while w sa h
    rcases hW : analyze_while w sa with ⟨n, sa1⟩
    rw [hW] at h1
    simp only at h1
    simp [analyze_statement_with_return_check, hW, h1]
  | .forS f, hr, sa, h => by
    have h1 := mr_for f sa h
    rcases hF : analyze_for f sa with ⟨n, sa1⟩
    rw [hF] at h1
    simp only at h1
    simp [analyze_statement_with_return_check, hF, h1]
  | .doUntil d, hr, sa, _ => by
    simp [analyze_statement_with_return_check]
termination_by structural st => st

theorem mr_if_check : ∀ (i : IfStatement) (hr : Bool) (sa : SA), ifNoFn i = true →
    countMR ((analyze_if_with_return_check i hr sa).2.2).errors = countMR sa.errors
  | .mk cond tb none, hr, sa, h => by
    have h2 := mr_block_check tb hr sa (by simpa [ifNoFn] using h)
    rcases hB : analyze_block_with_return_check tb hr sa with ⟨tn, hr1, sa1⟩
    rw [hB] at h2
    simp only at h2
    have h1 := mr_expr cond sa1
    rcases hC : analyze_expression cond sa1 with ⟨cn, sa2⟩
    rw [hC] at h1
    simp only at h1
    simp [analyze_if_with_return_check, hB, hC, h1, h2]
  | .mk cond tb (some (.blockB blk)), hr, sa, h => by
    have h2 := mr_block_check tb hr sa (by simp [ifNoFn] at h; exact h.1)
    rcases hB : analyze_block_with_return_check tb hr sa with ⟨tn, hr1, sa1⟩
    rw [hB] at h2
    simp only at h2
    have h3 := mr_stmt_check blk hr1 sa1 (by simp [ifNoFn] at h; exact h.2)
    rcases hS : analyze_statement_with_return_check blk hr1 sa1 with ⟨en, hr2, sa2⟩
    rw [hS] at h3
    simp only at h3
    have h1 := mr_expr cond sa2
    rcases hC : analyze_expression cond sa2 with ⟨cn, sa3⟩
    rw [hC] at h1
    simp only at h1
    simp [analyze_if_with_return_check, hB, hS, hC, h1, h2, h3]
  | .mk cond tb (some (.ifB inner)), hr, sa, h => by
    have h2 := mr_block_check tb hr sa (by simp [ifNoFn] at h; exact h.1)
    rcases hB : analyze_block_with_return_check tb hr sa with ⟨tn, hr1, sa1⟩
    rw [hB] at h2
    simp only at h2
    have h3 := mr_if_check inner hr1 sa1 (by simp [ifNoFn] at h; exact h.2)
    rcases hS : analyze_if_with_return_check inner hr1 sa1 with ⟨en, hr2, sa2⟩
    rw [hS] at h3
    simp only at h3
    have h1 := mr_expr cond sa2
    rcases hC : analyze_expression cond sa2 with ⟨cn, sa3⟩
    rw [hC] at h1
    simp only at h1
    simp [analyze_if_with_return_check, hB, hS, hC, h1, h2, h3]
termination_by structural i => i

theorem mr_block_check : ∀ (b : Block) (hr : Bool) (sa : SA), blockNoFn b = true →
    countMR ((analyze_block_with_return_check b hr sa).2.2).errors = countMR sa.errors
  | .mk ds, hr, sa, h => by
    have h1 := mr_decls_check ds hr (sa.enterScope "block") (by simpa [blockNoFn] using h)
    rcases hD : analyze_decls_with_return_check ds hr (sa.enterScope "block")
      with ⟨ns, hr2, sa1⟩
    rw [hD] at h1
    simp only at h1
    rw [show (sa.enterScope "block").errors = sa.errors from rfl] at h1
    simp only [analyze_block_with_return_check, hD, SA.leaveScope]
    simpa using h1
termination_by structural b => b

theorem mr_decls_check : ∀ (ds : List Declaration) (hr : Bool) (sa : SA),
    declsNoFn ds = true →
    countMR ((analyze_decls_with_return_check ds hr sa).2.2).errors = countMR sa.errors
  | [], hr, sa, _ => by simp [analyze_decls_with_return_check]
  | d :: rest, hr, sa, h => by
    cases d with
    | stmtD s =>
      have h1 := mr_stmt_check s hr sa (by simp [declsNoFn, declNoFn] at h; exact h.1)
      rcases hS : analyze_statement_with_return_check s hr sa with ⟨n1, hr1, sa1⟩
      rw [hS] at h1
      simp only at h1
      have h2 := mr_decls_check rest hr1 sa1 (by simp [declsNoFn] at h; exact h.2)
      rcases hR : analyze_decls_with_return_check rest hr1 sa1 with ⟨ns, hr2, sa2⟩
      rw [hR] at h2
      simp only at h2
      simp [analyze_decls_with_return_check, hS, hR, h1, h2]
    | varD v =>
      have h1 := mr_decl (.varD v) sa (by simp [declNoFn])
      rcases hA : analyze_declaration (.varD v) sa with ⟨n1, sa1⟩
      rw [hA] at h1
      simp only at h1
      have h2 := mr_decls_check rest hr sa1 (by simp [declsNoFn] at h; exact h.2)
      rcases hR : analyze_decls_with_return_check rest hr sa1 with ⟨ns, hr2, sa2⟩
      rw [hR] at h2
      simp only at h2
      simp [analyze_decls_with_return_check, hA, hR, h1, h2]
    | constD c =>
      have h1 := mr_decl (.constD c) sa (by simp [declNoFn])
      rcases hA : analyze_declaration (.constD c) sa with ⟨n1, sa1⟩
      rw [hA] at h1
      simp only at h1
      have h2 := mr_decls_check rest hr sa1 (by simp [declsNoFn] at h; exact h.2)
      rcases hR : analyze_decls_with_return_check rest hr sa1 with ⟨ns, hr2, sa2⟩
      rw [hR] at h2
      simp only at h2
      simp [analyze_decls_with_return_check, hA, hR, h1, h2]
    | structD s =>
      have h1 := mr_decl (.structD s) sa (by simp [declNoFn])
      rcases hA : analyze_declaration (.structD s) sa with ⟨n1, sa1⟩
      rw [hA] at h1
      simp only at h1
      have h2 := mr_decls_check rest hr sa1 (by simp [declsNoFn] at h; exact h.2)
      rcases hR : analyze_decls_with_return_check rest hr sa1 with ⟨ns, hr2, sa2⟩
      rw [hR] at h2
      simp only at h2
      simp [analyze_decls_with_return_check, hA, hR, h1, h2]
    | fnD f =>
      simp [declsNoFn, declNoFn] at h
termination_by structural ds => ds

end


/-! ## Claim C1 -/

/-- Tail of `analyze_function_declaration` after the scope is entered:
parameter analysis then the body's return check.  The MR-count is
preserved and the resulting flag is exactly `blockHasReturnAny`. -/
theorem mr_after_params_and_body (fparams : List Parameter) (fbody : Block)
    (hnf : blockNoFn fbody = true) (sa4 : SA) :
    countMR ((analyze_block_with_return_check fbody false
        (analyzeParams fparams sa4).2).2.2).errors = countMR sa4.errors ∧
    (analyze_block_with_return_check fbody false (analyzeParams fparams sa4).2).2.1
      = blockHasReturnAny fbody := by
  have h1 := mr_params fparams sa4
  rcases hP : analyzeParams fparams sa4 with ⟨pn, sa5⟩
  rw [hP] at h1
  simp only at h1
  have h2 := mr_block_check fbody false sa5 hnf
  have h3 := flag_block fbody false sa5
  rcases hB : analyze_block_with_return_check fbody false sa5 with ⟨bn, hret, sa6⟩
  rw [hB] at h2 h3
  simp only at h2 h3
  simp [hB, h1, h2, h3]

/-- What rule the code actually implements: for a body free of nested
function declarations, `analyze_function_declaration` appends exactly one
`MissingReturnStatement` when the return type is not Void and NO `return`
occurs anywhere in the body (`blockHasReturnAny`), and none otherwise.
The single threaded `has_return` flag is set by a `return` inside any
branch, so an `if` whose then-branch returns counts as returning even
when the else branch is absent — the both-branches rule the spec states
is not what the code checks. -/
theorem missing_return_counts_any_return (fd : Function) (sa : SA)
    (hnf : blockNoFn fd.body = true) :
    countMR ((analyze_function_declaration fd sa).2).errors =
      countMR sa.errors +
        (if fd.return_type ≠ Ty.void ∧ blockHasReturnAny fd.body = false
         then 1 else 0) := by
  rcases fd with ⟨fname, fparams, frt, fbody⟩
  simp only [Function.body, Function.return_type] at hnf ⊢
  rcases hIns : sa.insertSym fname.name
      (Symbol.functionS fname.name (fparams.map fun p => p.param_type) frt
        fname.line fname.column) with ⟨ok1, sa1⟩
  have hs1 : sa1.errors = sa.errors := by
    have h3 := congrArg (fun p => (Prod.snd p).errors) hIns
    simp only at h3
    rw [SA.insertSym_errors] at h3
    exact h3.symm
  simp only [analyze_function_declaration, hIns]
  set sa2 := (if ok1 = true then sa1
    else sa1.pushErr (SemanticError.RedeclaredVariable fname.name fname.line
      fname.column)) with hsa2
  have hm2 : countMR sa2.errors = countMR sa.errors := by
    rw [hsa2]
    cases ok1 <;>
      simp [SA.pushErr, countMR, List.countP_append, List.countP_cons,
        isMissingReturn, hs1]
  set sa4 := SA.enterScope
    { sa2 with current_function := some (fname.name, frt) }
    ("function: " ++ fname.name) with hsa4
  have hm4 : countMR sa4.errors = countMR sa.errors := by
    rw [hsa4]
    simpa [SA.enterScope] using hm2
  have htail := mr_after_params_and_body fparams fbody hnf sa4
  rcases hP : analyzeParams fparams sa4 with ⟨pn, sa5⟩
  rw [hP] at htail
  simp only at htail
  rcases hB : analyze_block_with_return_check fbody false sa5 with ⟨bn, hret, sa6⟩
  rw [hB] at htail
  simp only at htail
  rcases htail with ⟨hm6, hflag⟩
  subst hflag
  simp only [hP, hB]
  by_cases hc : frt ≠ Ty.void ∧ blockHasReturnAny fbody = false
  · simp [hc, SA.pushErr, SA.leaveScope, countMR, List.countP_append,
      List.countP_cons, isMissingReturn]
    rw [show List.countP isMissingReturn sa6.errors = countMR sa6.errors from rfl,
      hm6, hm4]
    rfl
  · simp [hc, SA.leaveScope]
    rw [hm6, hm4]

/-- The AST the parser produces for the claim's example program
`fn f() -> Int \x7b if (true) \x7b return 1; \x7d \x7d`: a function `f`
(line 1, column 4) with no parameters, return type Int, whose body is a
single `if` on the boolean literal `true` whose then-block returns the
integer literal 1 and whose else branch is absent. -/
def c1ExampleFn : Function :=
  .mk ⟨"f", 1, 4⟩ [] Ty.int
    (.mk [.stmtD (.ifS (.mk (.literal (.bool true))
      (.mk [.stmtD (.ret ⟨.literal (.int 1)⟩)]) none))])

/-- C1: the claim demands exactly one `MissingReturnStatement` for
`fn f() -> Int \x7b if (true) \x7b return 1; \x7d \x7d` (else branch
absent, so under the spec's both-branches rule the body lacks a
structural return).  The analyzer records NONE: its single threaded
`has_return` flag is already set by the `return` inside the then-branch,
so the whole program analyzes to just `MissingMainFunction` and the
count of `MissingReturnStatement` errors is 0, not 1. -/
theorem missing_return_example_not_flagged :
    countMR ((analyzeProgram (Program.mk [Declaration.fnD c1ExampleFn])).2).errors
      = 0 ∧
    ((analyzeProgram (Program.mk [Declaration.fnD c1ExampleFn])).2).errors
      = [SemanticError.MissingMainFunction] := by
  decide


/-! ## Claim C8: shape of the emitted control flow -/

/-- The name of the basic block at index `i`. -/
def blockNameAt (st : CState) (i : Nat) : Option String :=
  (st.blocks.get? i).map BBlock.name

/-- The final instruction of the basic block at index `i`. -/
def lastInstrAt (st : CState) (i : Nat) : Option Instr :=
  (st.blocks.get? i).bind (fun b => b.instrs.getLast?)

theorem listModify_length {α : Type} : ∀ (l : List α) (n : Nat) (f : α → α),
    (listModify l n f).length = l.length
  | [], _, _ => rfl
  | _ :: _, 0, _ => rfl
  | x :: xs, n + 1, f => by
    simp only [listModify, List.length_cons, listModify_length xs n f]

theorem listModify_get_ne {α : Type} : ∀ (l : List α) (n i : Nat) (f : α → α),
    i ≠ n → (listModify l n f).get? i = l.get? i
  | [], _, _, _, _ => rfl
  | _ :: _, 0, 0, _, h => absurd rfl h
  | _ :: _, 0, _ + 1, _, _ => rfl
  | _ :: _, _ + 1, 0, _, _ => rfl
  | x :: xs, n + 1, i + 1, f, h => by
    simp only [listModify, List.get?_cons_succ]
    exact listModify_get_ne xs n i f (fun hh => h (by rw [hh]))

theorem listModify_get_eq {α : Type} : ∀ (l : List α) (n : Nat) (f : α → α),
    (listModify l n f).get? n = (l.get? n).map f
  | [], _, _ => rfl
  | _ :: _, 0, _ => rfl
  | x :: xs, n + 1, f => by
    simp only [listModify, List.get?_cons_succ]
    exact listModify_get_eq xs n f

theorem get?_append_left {α : Type} : ∀ (l l2 : List α) (i : Nat) (b : α),
    l.get? i = some b → (l ++ l2).get? i = some b
  | [], _, i, _, h => by simp [List.get?] at h
  | x :: xs, l2, 0, b, h => by simpa using h
  | x :: xs, l2, i + 1, b, h => by
    simpa using get?_append_left xs l2 i b (by simpa using h)

/-- Shape of an expression compilation step: the current block and the
block structure are unchanged except that instructions may be appended
to the current block. -/
structure EShape (st st2 : CState) : Prop where
  cur_eq : st2.cur = st.cur
  len_eq : st2.blocks.length = st.blocks.length
  fn_eq : st2.current_function = st.current_function
  other : ∀ i, i ≠ st.cur → st2.blocks.get? i = st.blocks.get? i
  at_cur : ∀ b, st.blocks.get? st.cur = some b →
    ∃ tail, st2.blocks.get? st.cur = some ⟨b.name, b.instrs ++ tail, b.deleted⟩

theorem EShape.erfl (st : CState) : EShape st st :=
  ⟨Eq.refl _, Eq.refl _, Eq.refl _, fun _ _ => Eq.refl _,
   fun _ hb => ⟨[], by simpa using hb⟩⟩

theorem EShape.etrans {s1 s2 s3 : CState} (h1 : EShape s1 s2) (h2 : EShape s2 s3) :
    EShape s1 s3 := by
  refine ⟨h2.cur_eq.trans h1.cur_eq, h2.len_eq.trans h1.len_eq,
    h2.fn_eq.trans h1.fn_eq, ?_, ?_⟩
  · intro i hi
    rw [h2.other i (by rw [h1.cur_eq]; exact hi), h1.other i hi]
  · intro b hb
    obtain ⟨t1, ht1⟩ := h1.at_cur b hb
    have hcur2 : s2.blocks.get? s2.cur = some ⟨b.name, b.instrs ++ t1, b.deleted⟩ := by
      rw [h1.cur_eq]; exact ht1
    obtain ⟨t2, ht2⟩ := h2.at_cur _ hcur2
    refine ⟨t1 ++ t2, ?_⟩
    rw [h1.cur_eq] at ht2
    simpa [List.append_assoc] using ht2

theorem eshape_addInstr (st : CState) (ins : Instr) : EShape st (st.addInstr ins) := by
  refine ⟨Eq.refl _, ?_, Eq.refl _, ?_, ?_⟩
  · simp only [CState.addInstr]
    exact listModify_length _ _ _
  · intro i hi
    simp only [CState.addInstr]
    exact listModify_get_ne _ _ _ _ hi
  · intro b hb
    refine ⟨[ins], ?_⟩
    simp only [CState.addInstr]
    rw [listModify_get_eq, hb]
    rfl

theorem eshape_same_blocks {st st2 : CState} (hb : st2.blocks = st.blocks)
    (hc : st2.cur = st.cur) (hf : st2.current_function = st.current_function) :
    EShape st st2 := by
  refine ⟨hc, by rw [hb], hf, ?_, ?_⟩
  · intro i _
    rw [hb]
  · intro b hbe
    exact ⟨[], by rw [hb]; simpa using hbe⟩

theorem eshape_push (st : CState) (k : Nat) (ins : Instr) :
    EShape st (CState.addInstr { st with nextId := k } ins) := by
  refine @EShape.etrans st { st with nextId := k } _ (eshape_same_blocks ?_ ?_ ?_)
    (eshape_addInstr { st with nextId := k } ins) <;> rfl


/-! Every successful expression compilation has the `EShape` property:
the value is produced by appending instructions to the current block
only. -/

mutual

theorem eshape_expr : ∀ (e : Expression) (st : CState) (v : BVal) (st2 : CState),
    compile_expression e st = .ok (v, st2) → EShape st st2
  | .identifier ident, st, v, st2 => by
    intro hok
    simp only [compile_expression, CState.freshId] at hok
    rcases hv : RMap.get? st.vars ident.name with _ | ptr
    · simp [hv] at hok
    · simp only [hv] at hok
      rcases ht : RMap.get? st.variable_types ident.name with _ | vt
      · simp [ht] at hok
      · simp only [ht, Except.ok.injEq, Prod.mk.injEq] at hok
        exact hok.2 ▸ eshape_push st _ _
  | .literal lit, st, v, st2 => by
    intro hok
    cases lit <;>
      (simp only [compile_expression, compile_literal, CState.freshId,
        Except.ok.injEq, Prod.mk.injEq] at hok
       exact hok.2 ▸ eshape_same_blocks (Eq.refl _) (Eq.refl _) (Eq.refl _))
  | .binary left op right, st, v, st2 => by
    intro hok
    simp only [compile_expression, compile_binary, CState.freshId] at hok
    rcases hL : compile_expression left st with er | ⟨lhs, st1⟩
    · simp [hL] at hok
    · simp only [hL] at hok
      rcases hR : compile_expression right st1 with er | ⟨rhs, stg⟩
      · simp [hR] at hok
      · simp only [hR] at hok
        have ih1 := eshape_expr left st lhs st1 hL
        have ih2 := eshape_expr right st1 rhs stg hR
        split at hok
        · split at hok <;>
            first
              | (simp only [Except.ok.injEq, Prod.mk.injEq] at hok
                 exact hok.2 ▸ (ih1.etrans (ih2.etrans (eshape_push stg _ _))))
              | simp at hok
        · split at hok
          · split at hok <;>
              first
                | (simp only [Except.ok.injEq, Prod.mk.injEq] at hok
                   exact hok.2 ▸ (ih1.etrans (ih2.etrans (eshape_push stg _ _))))
                | simp at hok
          · simp at hok
  | .unary op expr, st, v, st2 => by
    intro hok
    simp only [compile_expression, compile_unary, CState.freshId] at hok
    rcases hE : compile_expression expr st with er | ⟨val, st1⟩
    · simp [hE] at hok
    · simp only [hE] at hok
      have ih := eshape_expr expr st val st1 hE
      cases op <;> split at hok <;> repeat' split at hok
      all_goals
        first
          | (simp only [Except.ok.injEq, Prod.mk.injEq] at hok
             exact hok.2 ▸ (ih.etrans (eshape_push st1 _ _)))
          | simp at hok
  | .assignment target value, st, v, st2 => by
    intro hok
    simp only [compile_expression] at hok
    rcases hV : compile_expression value st with er | ⟨val, st1⟩
    · simp [hV] at hok
    · simp only [hV] at hok
      rcases hp : RMap.get? st1.vars target.name with _ | ptr
      · simp [hp] at hok
      · simp only [hp, Except.ok.injEq, Prod.mk.injEq] at hok
        exact hok.2 ▸ ((eshape_expr value st val st1 hV).etrans (eshape_addInstr st1 _))
  | .functionCall f args, st, v, st2 => by
    intro hok
    cases f with
    | identifier ident =>
      simp only [compile_expression, compile_function_call, CState.freshId] at hok
      rcases hF : st.functions.find? (fun p => p.1 == ident.name) with _ | ⟨nm, retTy⟩
      · simp [hF] at hok
      · simp only [hF] at hok
        rcases hA : compile_args args st with er | ⟨argVals, st1⟩
        · simp [hA] at hok
        · simp only [hA] at hok
          have ih := eshape_args args st argVals st1 hA
          rcases retTy with _ | lt
          · simp at hok
          · simp only [Except.ok.injEq, Prod.mk.injEq] at hok
            exact hok.2 ▸ (ih.etrans (eshape_push st1 _ _))
    | literal lit => simp [compile_expression, compile_function_call] at hok
    | binary l op r => simp [compile_expression, compile_function_call] at hok
    | unary op e => simp [compile_expression, compile_function_call] at hok
    | assignment t vv => simp [compile_expression, compile_function_call] at hok
    | grouped e => simp [compile_expression, compile_function_call] at hok
    | functionCall g as => simp [compile_expression, compile_function_call] at hok
    | array es => simp [compile_expression, compile_function_call] at hok
    | object fs => simp [compile_expression, compile_function_call] at hok
    | splat e => simp [compile_expression, compile_function_call] at hok
    | structInst n fs => simp [compile_expression, compile_function_call] at hok
    | memberAccess o p => simp [compile_expression, compile_function_call] at hok
  | .grouped e, st, v, st2 => by
    intro hok
    simp only [compile_expression] at hok
    exact eshape_expr e st v st2 hok
  | .array es, st, v, st2 => by
    intro hok
    simp [compile_expression] at hok
  | .object fs, st, v, st2 => by
    intro hok
    simp [compile_expression] at hok
  | .splat e, st, v, st2 => by
    intro hok
    simp [compile_expression] at hok
  | .structInst n fs, st, v, st2 => by
    intro hok
    simp [compile_expression] at hok
  | .memberAccess o p, st, v, st2 => by
    intro hok
    simp [compile_expression] at hok
termination_by structural e => e

theorem eshape_args : ∀ (es : List Expression) (st : CState) (vs : List BVal)
    (st2 : CState), compile_args es st = .ok (vs, st2) → EShape st st2
  | [], st, vs, st2 => by
    intro hok
    simp only [compile_args, Except.ok.injEq, Prod.mk.injEq] at hok
    exact hok.2 ▸ EShape.erfl st
  | e :: rest, st, vs, st2 => by
    intro hok
    simp only [compile_args] at hok
    rcases hE : compile_expression e st with er | ⟨v1, st1⟩
    · simp [hE] at hok
    · simp only [hE] at hok
      rcases hR : compile_args rest st1 with er | ⟨vs1, stg⟩
      · simp [hR] at hok
      · simp only [hR, Except.ok.injEq, Prod.mk.injEq] at hok
        exact hok.2 ▸ ((eshape_expr e st v1 st1 hE).etrans
          (eshape_args rest st1 vs1 stg hR))
termination_by structural es => es

end


/-- Shape of a statement compilation step: blocks are only appended (so
indices stay stable), the final current block is the original one or a
newly created one, the enclosing function is unchanged, the names of
pre-existing blocks are preserved, and a pre-existing block other than
the current one only ever receives prepended instructions (the entry
block allocas). -/
structure CShape (st st2 : CState) : Prop where
  len_le : st.blocks.length ≤ st2.blocks.length
  cur_or : st2.cur = st.cur ∨ st.blocks.length ≤ st2.cur
  cur_lt : st.cur < st.blocks.length → st2.cur < st2.blocks.length
  fn_eq : st2.current_function = st.current_function
  names : ∀ i b, st.blocks.get? i = some b →
    ∃ b2, st2.blocks.get? i = some b2 ∧ b2.name = b.name
  pres : ∀ i b, st.blocks.get? i = some b → i ≠ st.cur →
    ∃ b2, st2.blocks.get? i = some b2 ∧ b2.name = b.name ∧
      ∃ pre, b2.instrs = pre ++ b.instrs

theorem get?_some_lt {α : Type} : ∀ (l : List α) (i : Nat) (b : α),
    l.get? i = some b → i < l.length
  | [], i, b, h => by simp [List.get?] at h
  | x :: xs, 0, b, _ => Nat.succ_pos _
  | x :: xs, i + 1, b, h => by
    have := get?_some_lt xs i b (by simpa using h)
    simpa [Nat.succ_lt_succ_iff] using this

theorem CShape.crfl (st : CState) : CShape st st :=
  ⟨Nat.le_refl _, Or.inl (Eq.refl _), fun h => h, Eq.refl _,
   fun _ b hb => ⟨b, hb, Eq.refl _⟩,
   fun _ b hb _ => ⟨b, hb, Eq.refl _, [], (List.nil_append _).symm⟩⟩

theorem CShape.ctrans {s1 s2 s3 : CState} (h1 : CShape s1 s2) (h2 : CShape s2 s3) :
    CShape s1 s3 := by
  refine ⟨Nat.le_trans h1.len_le h2.len_le, ?_, ?_, h2.fn_eq.trans h1.fn_eq, ?_, ?_⟩
  · rcases h2.cur_or with h | h
    · rw [h]
      exact h1.cur_or
    · exact Or.inr (Nat.le_trans h1.len_le h)
  · intro hc
    exact h2.cur_lt (h1.cur_lt hc)
  · intro i b hb
    obtain ⟨b2, hb2, hn2⟩ := h1.names i b hb
    obtain ⟨b3, hb3, hn3⟩ := h2.names i b2 hb2
    exact ⟨b3, hb3, hn3.trans hn2⟩
  · intro i b hb hic
    have hilt : i < s1.blocks.length := get?_some_lt _ _ _ hb
    obtain ⟨b2, hb2, hn2, pre1, hp1⟩ := h1.pres i b hb hic
    have hic2 : i ≠ s2.cur := by
      rcases h1.cur_or with h | h
      · rw [h]
        exact hic
      · exact fun he => absurd (he ▸ hilt) (Nat.not_lt.mpr h)
    obtain ⟨b3, hb3, hn3, pre2, hp2⟩ := h2.pres i b2 hb2 hic2
    exact ⟨b3, hb3, hn3.trans hn2, pre2 ++ pre1,
      by rw [hp2, hp1, List.append_assoc]⟩

theorem cshape_of_eshape {st st2 : CState} (h : EShape st st2) : CShape st st2 := by
  refine ⟨Nat.le_of_eq h.len_eq.symm, Or.inl h.cur_eq, ?_, h.fn_eq, ?_, ?_⟩
  · intro hc
    rw [h.cur_eq, h.len_eq]
    exact hc
  · intro i b hb
    by_cases hic : i = st.cur
    · subst hic
      obtain ⟨t, ht⟩ := h.at_cur b hb
      exact ⟨_, ht, Eq.refl _⟩
    · exact ⟨b, by rw [h.other i hic]; exact hb, Eq.refl _⟩
  · intro i b hb hic
    exact ⟨b, by rw [h.other i hic]; exact hb, Eq.refl _, [],
      (List.nil_append _).symm⟩

theorem cshape_addInstr (st : CState) (ins : Instr) : CShape st (st.addInstr ins) :=
  cshape_of_eshape (eshape_addInstr st ins)

theorem cshape_appendBB (st : CState) (nm : String) :
    CShape st (st.appendBB nm).2 := by
  refine ⟨?_, Or.inl (Eq.refl _), ?_, Eq.refl _, ?_, ?_⟩
  · simp [CState.appendBB]
  · intro hc
    simp only [CState.appendBB, List.length_append, List.length_cons,
      List.length_nil]
    omega
  · intro i b hb
    exact ⟨b, get?_append_left _ _ _ _ hb, Eq.refl _⟩
  · intro i b hb _
    exact ⟨b, get?_append_left _ _ _ _ hb, Eq.refl _, [], (List.nil_append _).symm⟩

theorem cshape_deleteBB (st : CState) (j : Nat) : CShape st (st.deleteBB j) := by
  refine ⟨?_, Or.inl (Eq.refl _), ?_, Eq.refl _, ?_, ?_⟩
  · simp only [CState.deleteBB]
    exact Nat.le_of_eq (listModify_length _ _ _).symm
  · intro hc
    simp only [CState.deleteBB, listModify_length]
    exact hc
  · intro i b hb
    by_cases hij : i = j
    · subst hij
      refine ⟨{ b with deleted := true }, ?_, Eq.refl _⟩
      simp only [CState.deleteBB]
      rw [listModify_get_eq, hb]
      rfl
    · refine ⟨b, ?_, Eq.refl _⟩
      simp only [CState.deleteBB]
      rw [listModify_get_ne _ _ _ _ hij]
      exact hb
  · intro i b hb _
    by_cases hij : i = j
    · subst hij
      refine ⟨{ b with deleted := true }, ?_, Eq.refl _, [], (List.nil_append _).symm⟩
      simp only [CState.deleteBB]
      rw [listModify_get_eq, hb]
      rfl
    · refine ⟨b, ?_, Eq.refl _, [], (List.nil_append _).symm⟩
      simp only [CState.deleteBB]
      rw [listModify_get_ne _ _ _ _ hij]
      exact hb

theorem cshape_position {st st2 : CState} (h : CShape st st2) (j : Nat)
    (hj : st.blocks.length ≤ j) (hlt : j < st2.blocks.length) :
    CShape st (st2.positionAtEnd j) := by
  refine ⟨h.len_le, Or.inr hj, fun _ => hlt, h.fn_eq, h.names, ?_⟩
  intro i b hb hic
  exact h.pres i b hb hic

theorem cshape_alloca (st : CState) (nm : String) :
    CShape st (create_entry_block_alloca st nm).2 := by
  simp only [create_entry_block_alloca, CState.freshId]
  rcases hcf : st.current_function with _ | e <;> simp only [hcf]
  · exact cshape_of_eshape (eshape_same_blocks (Eq.refl _) (Eq.refl _) hcf.symm)
  · refine ⟨?_, Or.inl (Eq.refl _), ?_, hcf.symm, ?_, ?_⟩
    · exact Nat.le_of_eq (listModify_length _ _ _).symm
    · intro hc
      rw [listModify_length]
      exact hc
    · intro i b hb
      by_cases hie : i = e
      · subst hie
        refine ⟨{ b with instrs := Instr.alloca st.nextId nm :: b.instrs }, ?_,
          Eq.refl _⟩
        rw [listModify_get_eq, hb]
        rfl
      · refine ⟨b, ?_, Eq.refl _⟩
        rw [listModify_get_ne _ _ _ _ hie]
        exact hb
    · intro i b hb _
      by_cases hie : i = e
      · subst hie
        refine ⟨{ b with instrs := Instr.alloca st.nextId nm :: b.instrs }, ?_,
          Eq.refl _, [Instr.alloca st.nextId nm], Eq.refl _⟩
        rw [listModify_get_eq, hb]
        rfl
      · refine ⟨b, ?_, Eq.refl _, [], (List.nil_append _).symm⟩
        rw [listModify_get_ne _ _ _ _ hie]
        exact hb


theorem cshape_same_blocks {st st2 : CState} (hb : st2.blocks = st.blocks)
    (hc : st2.cur = st.cur) (hf : st2.current_function = st.current_function) :
    CShape st st2 :=
  cshape_of_eshape (eshape_same_blocks hb hc hf)

theorem appendBB_fst (st : CState) (nm : String) :
    (st.appendBB nm).1 = st.blocks.length := rfl

theorem appendBB_len (st : CState) (nm : String) :
    (st.appendBB nm).2.blocks.length = st.blocks.length + 1 := by
  simp [CState.appendBB]

theorem addInstr_len (st : CState) (ins : Instr) :
    (st.addInstr ins).blocks.length = st.blocks.length := by
  simp only [CState.addInstr]
  exact listModify_length _ _ _

theorem position_blocks (st : CState) (j : Nat) :
    (st.positionAtEnd j).blocks = st.blocks := rfl

/-- Common tail of the three `compile_if` arms: branch to or delete the
merge block. -/
theorem cshape_if_tail {st st10 st2 : CState} (c10 : CShape st st10) (mb : Nat)
    (hmb1 : st.blocks.length ≤ mb) (hmb2 : mb < st10.blocks.length) (tterm : Bool)
    (hok : (if tterm = false ∨ st10.curTerminated = false then
            Except.ok ((if st10.curTerminated = false
              then st10.addInstr (Instr.br mb) else st10).positionAtEnd mb)
          else
            Except.ok ((if st10.curTerminated = false
              then st10.addInstr (Instr.br mb) else st10).deleteBB mb)
          : Except String CState) =
      Except.ok st2) :
    CShape st st2 := by
  split at hok <;> simp only [Except.ok.injEq] at hok <;> subst hok
  · split
    · refine cshape_position (c10.ctrans (cshape_addInstr _ _)) _ hmb1 ?_
      rw [addInstr_len]
      exact hmb2
    · exact cshape_position c10 _ hmb1 hmb2
  · split
    · exact (c10.ctrans (cshape_addInstr _ _)).ctrans (cshape_deleteBB _ _)
    · exact c10.ctrans (cshape_deleteBB _ _)

/-! Every successful statement compilation has the `CShape` property. -/

mutual

theorem cshape_block : ∀ (b : Block) (st st2 : CState),
    compile_block b st = .ok st2 → CShape st st2
  | .mk ds, st, st2 => by
    intro hok
    simp only [compile_block] at hok
    exact cshape_block_decls ds st st2 hok
termination_by structural b => b

theorem cshape_block_decls : ∀ (ds : List Declaration) (st st2 : CState),
    compile_block_decls ds st = .ok st2 → CShape st st2
  | [], st, st2 => by
    intro hok
    simp only [compile_block_decls, Except.ok.injEq] at hok
    subst hok
    exact CShape.crfl st
  | d :: rest, st, st2 => by
    intro hok
    simp only [compile_block_decls] at hok
    split at hok
    · simp at hok
    · rename_i st1 hd
      exact (cshape_block_declaration d st st1 hd).ctrans
        (cshape_block_decls rest st1 st2 hok)
termination_by structural ds => ds

theorem cshape_block_declaration : ∀ (d : Declaration) (st st2 : CState),
    compile_block_declaration d st = .ok st2 → CShape st st2
  | .varD var, st, st2 => by
    intro hok
    simp only [compile_block_declaration] at hok
    split at hok
    · simp at hok
    · rename_i value st1 hV
      simp only [Except.ok.injEq] at hok
      subst hok
      exact (cshape_of_eshape (eshape_expr _ _ _ _ hV)).ctrans
        ((cshape_alloca st1 var.identifier.name).ctrans
          ((cshape_addInstr _ _).ctrans
            (cshape_same_blocks (Eq.refl _) (Eq.refl _) (Eq.refl _))))
  | .constD cdecl, st, st2 => by
    intro hok
    simp only [compile_block_declaration] at hok
    split at hok
    · simp at hok
    · rename_i value st1 hV
      simp only [Except.ok.injEq] at hok
      subst hok
      exact (cshape_of_eshape (eshape_expr _ _ _ _ hV)).ctrans
        ((cshape_alloca st1 cdecl.identifier.name).ctrans
          ((cshape_addInstr _ _).ctrans
            (cshape_same_blocks (Eq.refl _) (Eq.refl _) (Eq.refl _))))
  | .stmtD stmt, st, st2 => by
    intro hok
    simp only [compile_block_declaration] at hok
    exact cshape_statement stmt st st2 hok
  | .fnD f, st, st2 => by
    intro hok
    simp [compile_block_declaration] at hok
  | .structD s, st, st2 => by
    intro hok
    simp only [compile_block_declaration, Except.ok.injEq] at hok
    subst hok
    exact CShape.crfl st
termination_by structural d => d

theorem cshape_statement : ∀ (s : Statement) (st st2 : CState),
    compile_statement s st = .ok st2 → CShape st st2
  | .expression expr, st, st2 => by
    intro hok
    simp only [compile_statement] at hok
    split at hok
    · simp at hok
    · rename_i v st1 hV
      simp only [Except.ok.injEq] at hok
      subst hok
      exact cshape_of_eshape (eshape_expr _ _ _ _ hV)
  | .ret r, st, st2 => by
    intro hok
    simp only [compile_statement] at hok
    split at hok
    · simp at hok
    · rename_i value st1 hV
      simp only [Except.ok.injEq] at hok
      subst hok
      exact (cshape_of_eshape (eshape_expr _ _ _ _ hV)).ctrans (cshape_addInstr _ _)
  | .ifS if_stmt, st, st2 => by
    intro hok
    simp only [compile_statement] at hok
    exact cshape_if if_stmt st st2 hok
  | .whileS while_stmt, st, st2 => by
    intro hok
    simp only [compile_statement] at hok
    exact cshape_while while_stmt st st2 hok
  | .forS f, st, st2 => by
    intro hok
    simp [compile_statement] at hok
  | .doUntil do_until, st, st2 => by
    intro hok
    simp only [compile_statement] at hok
    exact cshape_do_until do_until st st2 hok
  | .block block, st, st2 => by
    intro hok
    simp only [compile_statement] at hok
    exact cshape_block block st st2 hok
termination_by structural s => s

theorem cshape_if : ∀ (i : IfStatement) (st st2 : CState),
    compile_if i st = .ok st2 → CShape st st2
  | .mk condition then_block none, st, st2 => by
    intro hok
    simp only [compile_if] at hok
    split at hok
    · simp at hok
    · rename_i cond st1 hC
      split at hok
      · split at hok
        · simp at hok
        · split at hok
          · simp at hok
          · rename_i st7 hB
            have hE := eshape_expr condition st cond st1 hC
            have hlen1 : st1.blocks.length = st.blocks.length := hE.len_eq
            have c6 : CShape st ((((((st1.appendBB "then").2.appendBB
                "else").2.appendBB "ifcont").2.addInstr
                  (Instr.condBr cond (st1.appendBB "then").1
                    ((st1.appendBB "then").2.appendBB "else").1)).positionAtEnd
                      (st1.appendBB "then").1)) := by
              refine cshape_position ?_ _ ?_ ?_
              · exact (cshape_of_eshape hE).ctrans
                  ((((cshape_appendBB st1 "then").ctrans
                    (cshape_appendBB _ "else")).ctrans
                      (cshape_appendBB _ "ifcont")).ctrans (cshape_addInstr _ _))
              · simp only [appendBB_fst, position_blocks, addInstr_len, appendBB_len,
                  hlen1]
                omega
              · simp only [appendBB_fst, position_blocks, addInstr_len, appendBB_len]
                omega
            have cB := cshape_block then_block _ st7 hB
            have c7 : CShape st st7 := c6.ctrans cB
            have hlen7 : st.blocks.length + 3 ≤ st7.blocks.length := by
              have hh := cB.len_le
              simp only [appendBB_fst, position_blocks, addInstr_len, appendBB_len,
                hlen1] at hh
              exact hh
            have c8 : CShape st (if st7.curTerminated = false
                then st7.addInstr (Instr.br (((st1.appendBB "then").2.appendBB
                  "else").2.appendBB "ifcont").1) else st7) := by
              split
              · exact c7.ctrans (cshape_addInstr _ _)
              · exact c7
            have hlen8 : ∀ k : Nat, (if st7.curTerminated = false
                then st7.addInstr (Instr.br k) else st7).blocks.length
                  = st7.blocks.length := by
              intro k
              split
              · rw [addInstr_len]
              · rfl
            refine cshape_if_tail (cshape_position c8 _ ?_ ?_) _ ?_ ?_ _ hok
            · simp only [appendBB_fst, position_blocks, addInstr_len, appendBB_len,
                hlen1]
              omega
            · simp only [appendBB_fst, position_blocks, addInstr_len, appendBB_len,
                hlen1, hlen8]
              omega
            · simp only [appendBB_fst, position_blocks, addInstr_len, appendBB_len,
                hlen1]
              omega
            · simp only [appendBB_fst, position_blocks, addInstr_len, appendBB_len,
                hlen1, hlen8]
              omega
      · simp at hok
  | .mk condition then_block (some (.ifB inner)), st, st2 => by
    intro hok
    simp only [compile_if] at hok
    split at hok
    · simp at hok
    · rename_i cond st1 hC
      split at hok
      · split at hok
        · simp at hok
        · split at hok
          · simp at hok
          · rename_i st7 hB
            have hE := eshape_expr condition st cond st1 hC
            have hlen1 : st1.blocks.length = st.blocks.length := hE.len_eq
            have c6 : CShape st ((((((st1.appendBB "then").2.appendBB
                "else").2.appendBB "ifcont").2.addInstr
                  (Instr.condBr cond (st1.appendBB "then").1
                    ((st1.appendBB "then").2.appendBB "else").1)).positionAtEnd
                      (st1.appendBB "then").1)) := by
              refine cshape_position ?_ _ ?_ ?_
              · exact (cshape_of_eshape hE).ctrans
                  ((((cshape_appendBB st1 "then").ctrans
                    (cshape_appendBB _ "else")).ctrans
                      (cshape_appendBB _ "ifcont")).ctrans (cshape_addInstr _ _))
              · simp only [appendBB_fst, position_blocks, addInstr_len, appendBB_len,
                  hlen1]
                omega
              · simp only [appendBB_fst, position_blocks, addInstr_len, appendBB_len]
                omega
            have cB := cshape_block then_block _ st7 hB
            have c7 : CShape st st7 := c6.ctrans cB
            have hlen7 : st.blocks.length + 3 ≤ st7.blocks.length := by
              have hh := cB.len_le
              simp only [appendBB_fst, position_blocks, addInstr_len, appendBB_len,
                hlen1] at hh
              exact hh
            have c8 : CShape st (if st7.curTerminated = false
                then st7.addInstr (Instr.br (((st1.appendBB "then").2.appendBB
                  "else").2.appendBB "ifcont").1) else st7) := by
              split
              · exact c7.ctrans (cshape_addInstr _ _)
              · exact c7
            have hlen8 : ∀ k : Nat, (if st7.curTerminated = false
                then st7.addInstr (Instr.br k) else st7).blocks.length
                  = st7.blocks.length := by
              intro k
              split
              · rw [addInstr_len]
              · rfl
            split at hok
            · simp at hok
            · rename_i st10 hInner
              have c9 : CShape st ((if st7.curTerminated = false
                  then st7.addInstr (Instr.br (((st1.appendBB "then").2.appendBB
                    "else").2.appendBB "ifcont").1) else st7).positionAtEnd
                      ((st1.appendBB "then").2.appendBB "else").1) := by
                refine cshape_position c8 _ ?_ ?_
                · simp only [appendBB_fst, position_blocks, addInstr_len,
                    appendBB_len, hlen1]
                  omega
                · simp only [appendBB_fst, position_blocks, addInstr_len,
                    appendBB_len, hlen1, hlen8]
                  omega
              have cI := cshape_if inner _ st10 hInner
              have c10 : CShape st st10 := c9.ctrans cI
              have hlen10 : st.blocks.length + 3 ≤ st10.blocks.length := by
                have hh := cI.len_le
                simp only [appendBB_fst, position_blocks, addInstr_len, appendBB_len,
                  hlen1, hlen8] at hh
                omega
              refine cshape_if_tail c10 _ ?_ ?_ _ hok
              · simp only [appendBB_fst, position_blocks, addInstr_len, appendBB_len,
                  hlen1]
                omega
              · simp only [appendBB_fst, position_blocks, addInstr_len, appendBB_len,
                  hlen1]
                omega
      · simp at hok
  | .mk condition then_block (some (.blockB blk)), st, st2 => by
    intro hok
    simp only [compile_if] at hok
    split at hok
    · simp at hok
    · rename_i cond st1 hC
      split at hok
      · split at hok
        · simp at hok
        · split at hok
          · simp at hok
          · rename_i st7 hB
            have hE := eshape_expr condition st cond st1 hC
            have hlen1 : st1.blocks.length = st.blocks.length := hE.len_eq
            have c6 : CShape st ((((((st1.appendBB "then").2.appendBB
                "else").2.appendBB "ifcont").2.addInstr
                  (Instr.condBr cond (st1.appendBB "then").1
                    ((st1.appendBB "then").2.appendBB "else").1)).positionAtEnd
                      (st1.appendBB "then").1)) := by
              refine cshape_position ?_ _ ?_ ?_
              · exact (cshape_of_eshape hE).ctrans
                  ((((cshape_appendBB st1 "then").ctrans
                    (cshape_appendBB _ "else")).ctrans
                      (cshape_appendBB _ "ifcont")).ctrans (cshape_addInstr _ _))
              · simp only [appendBB_fst, position_blocks, addInstr_len, appendBB_len,
                  hlen1]
                omega
              · simp only [appendBB_fst, position_blocks, addInstr_len, appendBB_len]
                omega
            have cB := cshape_block then_block _ st7 hB
            have c7 : CShape st st7 := c6.ctrans cB
            have hlen7 : st.blocks.length + 3 ≤ st7.blocks.length := by
              have hh := cB.len_le
              simp only [appendBB_fst, position_blocks, addInstr_len, appendBB_len,
                hlen1] at hh
              exact hh
            have c8 : CShape st (if st7.curTerminated = false
                then st7.addInstr (Instr.br (((st1.appendBB "then").2.appendBB
                  "else").2.appendBB "ifcont").1) else st7) := by
              split
              · exact c7.ctrans (cshape_addInstr _ _)
              · exact c7
            have hlen8 : ∀ k : Nat, (if st7.curTerminated = false
                then st7.addInstr (Instr.br k) else st7).blocks.length
                  = st7.blocks.length := by
              intro k
              split
              · rw [addInstr_len]
              · rfl
            split at hok
            · simp at hok
            · rename_i st10 hInner
              have c9 : CShape st ((if st7.curTerminated = false
                  then st7.addInstr (Instr.br (((st1.appendBB "then").2.appendBB
                    "else").2.appendBB "ifcont").1) else st7).positionAtEnd
                      ((st1.appendBB "then").2.appendBB "else").1) := by
                refine cshape_position c8 _ ?_ ?_
                · simp only [appendBB_fst, position_blocks, addInstr_len,
                    appendBB_len, hlen1]
                  omega
                · simp only [appendBB_fst, position_blocks, addInstr_len,
                    appendBB_len, hlen1, hlen8]
                  omega
              have cI := cshape_statement blk _ st10 hInner
              have c10 : CShape st st10 := c9.ctrans cI
              have hlen10 : st.blocks.length + 3 ≤ st10.blocks.length := by
                have hh := cI.len_le
                simp only [appendBB_fst, position_blocks, addInstr_len, appendBB_len,
                  hlen1, hlen8] at hh
                omega
              refine cshape_if_tail c10 _ ?_ ?_ _ hok
              · simp only [appendBB_fst, position_blocks, addInstr_len, appendBB_len,
                  hlen1]
                omega
              · simp only [appendBB_fst, position_blocks, addInstr_len, appendBB_len,
                  hlen1]
                omega
      · simp at hok
termination_by structural i => i

theorem cshape_while : ∀ (w : WhileStatement) (st st2 : CState),
    compile_while w st = .ok st2 → CShape st st2
  | .mk condition body, st, st2 => by
    intro hok
    simp only [compile_while] at hok
    split at hok
    · simp at hok
    · split at hok
      · simp at hok
      · rename_i cond st6 hC
        have cE : CShape st ((((((st.appendBB "whilecond").2.appendBB
            "whilebody").2.appendBB "afterwhile").2.addInstr
              (Instr.br (st.appendBB "whilecond").1)).positionAtEnd
                (st.appendBB "whilecond").1)) := by
          refine cshape_position ?_ _ ?_ ?_
          · exact ((((cshape_appendBB st "whilecond").ctrans
              (cshape_appendBB _ "whilebody")).ctrans
                (cshape_appendBB _ "afterwhile")).ctrans (cshape_addInstr _ _))
          · simp only [appendBB_fst, position_blocks, addInstr_len, appendBB_len]
            omega
          · simp only [appendBB_fst, position_blocks, addInstr_len, appendBB_len]
            omega
        have hE := eshape_expr condition _ cond st6 hC
        have cF : CShape st st6 := cE.ctrans (cshape_of_eshape hE)
        have hlen6 : st6.blocks.length = st.blocks.length + 3 := by
          rw [hE.len_eq]
          simp only [appendBB_fst, position_blocks, addInstr_len, appendBB_len]
        split at hok
        · split at hok
          · simp at hok
          · rename_i st9 hB
            have cB := cshape_block body _ st9 hB
            have cH : CShape st ((st6.addInstr
                (Instr.condBr cond ((st.appendBB "whilecond").2.appendBB
                  "whilebody").1 (((st.appendBB "whilecond").2.appendBB
                    "whilebody").2.appendBB "afterwhile").1)).positionAtEnd
                      ((st.appendBB "whilecond").2.appendBB "whilebody").1) := by
              refine cshape_position (cF.ctrans (cshape_addInstr _ _)) _ ?_ ?_
              · simp only [appendBB_fst, position_blocks, addInstr_len, appendBB_len]
                omega
              · simp only [appendBB_fst, position_blocks, addInstr_len, appendBB_len,
                  hlen6]
                omega
            have cI : CShape st st9 := cH.ctrans cB
            have hlen9 : st.blocks.length + 3 ≤ st9.blocks.length := by
              have hh := cB.len_le
              simp only [appendBB_fst, position_blocks, addInstr_len, appendBB_len,
                hlen6] at hh
              exact hh
            split at hok
            · simp only [Except.ok.injEq] at hok
              subst hok
              refine cshape_position (cI.ctrans (cshape_addInstr _ _)) _ ?_ ?_
              · simp only [appendBB_fst, position_blocks, addInstr_len, appendBB_len]
                omega
              · simp only [appendBB_fst, position_blocks, addInstr_len, appendBB_len]
                omega
            · simp only [Except.ok.injEq] at hok
              subst hok
              refine cshape_position cI _ ?_ ?_
              · simp only [appendBB_fst, position_blocks, addInstr_len, appendBB_len]
                omega
              · simp only [appendBB_fst, position_blocks, addInstr_len, appendBB_len]
                omega
        · simp at hok
termination_by structural w => w

theorem cshape_do_until : ∀ (d : DoUntilStatement) (st st2 : CState),
    compile_do_until d st = .ok st2 → CShape st st2
  | .mk body condition, st, st2 => by
    intro hok
    simp only [compile_do_until] at hok
    split at hok
    · simp at hok
    · split at hok
      · simp at hok
      · rename_i st6 hB
        have c5 : CShape st ((((((st.appendBB "doBody").2.appendBB
            "doCond").2.appendBB "afterDo").2.addInstr
              (Instr.br (st.appendBB "doBody").1)).positionAtEnd
                (st.appendBB "doBody").1)) := by
          refine cshape_position ?_ _ ?_ ?_
          · exact ((((cshape_appendBB st "doBody").ctrans
              (cshape_appendBB _ "doCond")).ctrans
                (cshape_appendBB _ "afterDo")).ctrans (cshape_addInstr _ _))
          · simp only [appendBB_fst, position_blocks, addInstr_len, appendBB_len]
            omega
          · simp only [appendBB_fst, position_blocks, addInstr_len, appendBB_len]
            omega
        have cB := cshape_block body _ st6 hB
        have c6 : CShape st st6 := c5.ctrans cB
        have hlen6 : st.blocks.length + 3 ≤ st6.blocks.length := by
          have hh := cB.len_le
          simp only [appendBB_fst, position_blocks, addInstr_len, appendBB_len] at hh
          exact hh
        have c7 : CShape st (if st6.curTerminated = false
            then st6.addInstr (Instr.br ((st.appendBB "doBody").2.appendBB
              "doCond").1) else st6) := by
          split
          · exact c6.ctrans (cshape_addInstr _ _)
          · exact c6
        have hlen7 : ∀ k : Nat, (if st6.curTerminated = false
            then st6.addInstr (Instr.br k) else st6).blocks.length
              = st6.blocks.length := by
          intro k
          split
          · rw [addInstr_len]
          · rfl
        have c8 : CShape st ((if st6.curTerminated = false
            then st6.addInstr (Instr.br ((st.appendBB "doBody").2.appendBB
              "doCond").1) else st6).positionAtEnd
                ((st.appendBB "doBody").2.appendBB "doCond").1) := by
          refine cshape_position c7 _ ?_ ?_
          · simp only [appendBB_fst, position_blocks, addInstr_len, appendBB_len]
            omega
          · simp only [appendBB_fst, position_blocks, addInstr_len, appendBB_len,
              hlen7]
            omega
        split at hok
        · simp at hok
        · rename_i cond st9 hC
          have hE := eshape_expr condition _ cond st9 hC
          have c9 : CShape st st9 := c8.ctrans (cshape_of_eshape hE)
          have hlen9 : st.blocks.length + 3 ≤ st9.blocks.length := by
            rw [hE.len_eq]
            simp only [appendBB_fst, position_blocks, addInstr_len, appendBB_len,
              hlen7]
            omega
          split at hok
          · simp only [Except.ok.injEq] at hok
            subst hok
            refine cshape_position (c9.ctrans (cshape_addInstr _ _)) _ ?_ ?_
            · simp only [appendBB_fst, position_blocks, addInstr_len, appendBB_len]
              omega
            · simp only [appendBB_fst, position_blocks, addInstr_len, appendBB_len]
              omega
          · simp at hok
termination_by structural d => d

end


theorem addInstr_get_ne (st : CState) (ins : Instr) (i : Nat) (h : i ≠ st.cur) :
    (st.addInstr ins).blocks.get? i = st.blocks.get? i := by
  simp only [CState.addInstr]
  exact listModify_get_ne _ _ _ _ h

theorem addInstr_get_cur (st : CState) (ins : Instr) (b : BBlock)
    (hb : st.blocks.get? st.cur = some b) :
    (st.addInstr ins).blocks.get? st.cur =
      some ⟨b.name, b.instrs ++ [ins], b.deleted⟩ := by
  simp only [CState.addInstr]
  rw [listModify_get_eq, hb]
  rfl

theorem addInstr_get_name (st : CState) (ins : Instr) (i : Nat) (b : BBlock)
    (hb : st.blocks.get? i = some b) :
    ∃ b2, (st.addInstr ins).blocks.get? i = some b2 ∧ b2.name = b.name := by
  by_cases hic : i = st.cur
  · subst hic
    exact ⟨_, addInstr_get_cur st ins b hb, Eq.refl _⟩
  · exact ⟨b, by rw [addInstr_get_ne st ins i hic]; exact hb, Eq.refl _⟩

theorem get?_of_lt {α : Type} (l : List α) (i : Nat) (h : i < l.length) :
    ∃ b, l.get? i = some b :=
  ⟨l.get ⟨i, h⟩, List.get?_eq_get h⟩

/-- The state `compile_do_until` hands to the body: the three blocks
`doBody`/`doCond`/`afterDo` appended, the unconditional branch into
`doBody` emitted in the previous current block, and the builder
positioned at `doBody`. -/
def doUntilBodyStart (st : CState) : CState :=
  ((((st.appendBB "doBody").2.appendBB "doCond").2.appendBB "afterDo").2.addInstr
    (Instr.br (st.appendBB "doBody").1)).positionAtEnd (st.appendBB "doBody").1

theorem doUntilBodyStart_cur (st : CState) :
    (doUntilBodyStart st).cur = st.blocks.length := rfl

theorem doUntilBodyStart_len (st : CState) :
    (doUntilBodyStart st).blocks.length = st.blocks.length + 3 := by
  simp only [doUntilBodyStart, position_blocks, addInstr_len, appendBB_len]

theorem doUntilBodyStart_get_doBody (st : CState) (h : st.cur < st.blocks.length) :
    (doUntilBodyStart st).blocks.get? st.blocks.length =
      some ⟨"doBody", [], false⟩ := by
  simp only [doUntilBodyStart, CState.positionAtEnd, CState.addInstr, CState.appendBB]
  rw [listModify_get_ne _ _ _ _ (by omega : st.blocks.length ≠ st.cur)]
  refine get?_append_left _ _ _ _ (get?_append_left _ _ _ _ ?_)
  exact List.get?_concat_length _ _

theorem doUntilBodyStart_get_doCond (st : CState) (h : st.cur < st.blocks.length) :
    (doUntilBodyStart st).blocks.get? (st.blocks.length + 1) =
      some ⟨"doCond", [], false⟩ := by
  simp only [doUntilBodyStart, CState.positionAtEnd, CState.addInstr, CState.appendBB]
  rw [listModify_get_ne _ _ _ _ (by omega : st.blocks.length + 1 ≠ st.cur)]
  refine get?_append_left _ _ _ _ ?_
  have hl : (st.blocks ++ [(⟨"doBody", [], false⟩ : BBlock)]).length
      = st.blocks.length + 1 := by simp
  rw [← hl]
  exact List.get?_concat_length _ _

theorem doUntilBodyStart_get_afterDo (st : CState) (h : st.cur < st.blocks.length) :
    (doUntilBodyStart st).blocks.get? (st.blocks.length + 2) =
      some ⟨"afterDo", [], false⟩ := by
  simp only [doUntilBodyStart, CState.positionAtEnd, CState.addInstr, CState.appendBB]
  rw [listModify_get_ne _ _ _ _ (by omega : st.blocks.length + 2 ≠ st.cur)]
  have hl : ((st.blocks ++ [(⟨"doBody", [], false⟩ : BBlock)]) ++
      [(⟨"doCond", [], false⟩ : BBlock)]).length = st.blocks.length + 2 := by simp
  rw [← hl]
  exact List.get?_concat_length _ _

theorem doUntilBodyStart_get_cur (st : CState) (b0 : BBlock)
    (hb : st.blocks.get? st.cur = some b0) :
    (doUntilBodyStart st).blocks.get? st.cur =
      some ⟨b0.name, b0.instrs ++ [Instr.br st.blocks.length], b0.deleted⟩ := by
  simp only [doUntilBodyStart, CState.positionAtEnd, CState.addInstr, CState.appendBB]
  rw [listModify_get_eq,
    get?_append_left _ _ _ _ (get?_append_left _ _ _ _ (get?_append_left _ _ _ _ hb))]
  rfl


/-- C8: lowering a do-until statement creates the three blocks
`doBody` (index = old block count), `doCond` (+1) and `afterDo` (+2),
emits an unconditional branch into `doBody` as the last instruction of
the previous current block, leaves the builder positioned at `afterDo`,
ends `doCond` with a conditional branch on the (integer-typed) condition
whose true target is `afterDo` (exit) and whose false target is `doBody`
(loop), and, when the compiled body's final block is not already
terminated, ends that block with a fall-through branch to `doCond`. -/
theorem do_until_lowering (body : Block) (condition : Expression) (st st2 : CState)
    (hcur : st.cur < st.blocks.length)
    (hok : compile_do_until (.mk body condition) st = .ok st2) :
    blockNameAt st2 st.blocks.length = some "doBody" ∧
    blockNameAt st2 (st.blocks.length + 1) = some "doCond" ∧
    blockNameAt st2 (st.blocks.length + 2) = some "afterDo" ∧
    lastInstrAt st2 st.cur = some (Instr.br st.blocks.length) ∧
    st2.cur = st.blocks.length + 2 ∧
    (∃ v, v.isIntValue = true ∧
      lastInstrAt st2 (st.blocks.length + 1) =
        some (Instr.condBr v (st.blocks.length + 2) st.blocks.length)) ∧
    ∃ st6, compile_block body (doUntilBodyStart st) = .ok st6 ∧
      (st6.curTerminated = false →
        lastInstrAt st2 st6.cur = some (Instr.br (st.blocks.length + 1))) := by
  simp only [compile_do_until] at hok
  split at hok
  · simp at hok
  · split at hok
    · simp at hok
    · rename_i st6 hB
      split at hok
      · simp at hok
      · rename_i cond st9 hC
        split at hok
        · rename_i hInt
          simp only [Except.ok.injEq] at hok
          subst hok
          have hB2 : compile_block body (doUntilBodyStart st) = Except.ok st6 := hB
          have cB := cshape_block body (doUntilBodyStart st) st6 hB2
          have hcur6 : st6.cur = st.blocks.length ∨
              st.blocks.length + 3 ≤ st6.cur := by
            have hh := cB.cur_or
            rw [doUntilBodyStart_cur, doUntilBodyStart_len] at hh
            exact hh
          have hlen6 : st.blocks.length + 3 ≤ st6.blocks.length := by
            have hh := cB.len_le
            rw [doUntilBodyStart_len] at hh
            exact hh
          have hlt6 : st6.cur < st6.blocks.length := by
            refine cB.cur_lt ?_
            rw [doUntilBodyStart_cur, doUntilBodyStart_len]
            omega
          have hCONDT : ((st.appendBB "doBody").2.appendBB "doCond").1 =
              st.blocks.length + 1 := by
            rw [appendBB_fst, appendBB_len]
          have hAFT : (((st.appendBB "doBody").2.appendBB "doCond").2.appendBB
              "afterDo").1 = st.blocks.length + 2 := by
            rw [appendBB_fst, appendBB_len, appendBB_len]
          have h7ne : ∀ i, i ≠ st6.cur →
              (if st6.curTerminated = false
                then st6.addInstr (Instr.br ((st.appendBB "doBody").2.appendBB
                  "doCond").1) else st6).blocks.get? i = st6.blocks.get? i := by
            intro i hi
            split
            · exact addInstr_get_ne st6 _ i hi
            · rfl
          have h7name : ∀ i b, st6.blocks.get? i = some b →
              ∃ b2, (if st6.curTerminated = false
                then st6.addInstr (Instr.br ((st.appendBB "doBody").2.appendBB
                  "doCond").1) else st6).blocks.get? i = some b2 ∧
                    b2.name = b.name := by
            intro i b hb
            split
            · exact addInstr_get_name st6 _ i b hb
            · exact ⟨b, hb, Eq.refl _⟩
          have hE := eshape_expr condition _ cond st9 hC
          have h8cur : ((if st6.curTerminated = false
              then st6.addInstr (Instr.br ((st.appendBB "doBody").2.appendBB
                "doCond").1) else st6).positionAtEnd
                  ((st.appendBB "doBody").2.appendBB "doCond").1).cur =
              st.blocks.length + 1 := by
            simp only [CState.positionAtEnd]
            exact hCONDT
          have h9cur : st9.cur = st.blocks.length + 1 := by
            rw [hE.cur_eq]
            exact h8cur
          obtain ⟨bA, hbA, hnA⟩ :=
            cB.names _ _ (doUntilBodyStart_get_doBody st hcur)
          obtain ⟨bA2, hbA2, hnA2⟩ := h7name _ _ hbA
          have hA9 : st9.blocks.get? st.blocks.length = some bA2 := by
            rw [hE.other _ (by rw [h8cur]; omega)]
            exact hbA2
          have hA10 : (st9.addInstr (Instr.condBr cond
              ((((st.appendBB "doBody").2.appendBB "doCond").2.appendBB
                "afterDo").1) ((st.appendBB "doBody").1))).blocks.get?
                  st.blocks.length = some bA2 := by
            rw [addInstr_get_ne _ _ _ (by rw [h9cur]; omega)]
            exact hA9
          obtain ⟨bC, hbC, hnC⟩ :=
            cB.names _ _ (doUntilBodyStart_get_afterDo st hcur)
          obtain ⟨bC2, hbC2, hnC2⟩ := h7name _ _ hbC
          have hC9 : st9.blocks.get? (st.blocks.length + 2) = some bC2 := by
            rw [hE.other _ (by rw [h8cur]; omega)]
            exact hbC2
          have hC10 : (st9.addInstr (Instr.condBr cond
              ((((st.appendBB "doBody").2.appendBB "doCond").2.appendBB
                "afterDo").1) ((st.appendBB "doBody").1))).blocks.get?
                  (st.blocks.length + 2) = some bC2 := by
            rw [addInstr_get_ne _ _ _ (by rw [h9cur]; omega)]
            exact hC9
          obtain ⟨bB, hbB, hnB⟩ :=
            cB.names _ _ (doUntilBodyStart_get_doCond st hcur)
          obtain ⟨bB2, hbB2, hnB2⟩ := h7name _ _ hbB
          have hb8 : ((if st6.curTerminated = false
              then st6.addInstr (Instr.br ((st.appendBB "doBody").2.appendBB
                "doCond").1) else st6).positionAtEnd
                  ((st.appendBB "doBody").2.appendBB "doCond").1).blocks.get?
              ((if st6.curTerminated = false
                then st6.addInstr (Instr.br ((st.appendBB "doBody").2.appendBB
                  "doCond").1) else st6).positionAtEnd
                    ((st.appendBB "doBody").2.appendBB "doCond").1).cur =
              some bB2 := by
            rw [h8cur]
            exact hbB2
          obtain ⟨tailB, htailB⟩ := hE.at_cur _ hb8
          have hB9 : st9.blocks.get? (st.blocks.length + 1) =
              some ⟨bB2.name, bB2.instrs ++ tailB, bB2.deleted⟩ := by
            rw [← h8cur]
            exact htailB
          have hB10 : (st9.addInstr (Instr.condBr cond
              ((((st.appendBB "doBody").2.appendBB "doCond").2.appendBB
                "afterDo").1) ((st.appendBB "doBody").1))).blocks.get?
                  (st.blocks.length + 1) =
              some ⟨bB2.name, (bB2.instrs ++ tailB) ++ [Instr.condBr cond
                ((((st.appendBB "doBody").2.appendBB "doCond").2.appendBB
                  "afterDo").1) ((st.appendBB "doBody").1)], bB2.deleted⟩ := by
            have hx := addInstr_get_cur st9 (Instr.condBr cond
              ((((st.appendBB "doBody").2.appendBB "doCond").2.appendBB
                "afterDo").1) ((st.appendBB "doBody").1)) _
                  (by rw [h9cur]; exact hB9)
            rw [h9cur] at hx
            exact hx
          obtain ⟨b0, hb0⟩ := get?_of_lt st.blocks st.cur hcur
          have h5cur := doUntilBodyStart_get_cur st b0 hb0
          obtain ⟨bD, hbD, hnD, preD, hpD⟩ := cB.pres _ _ h5cur
            (by rw [doUntilBodyStart_cur]; omega)
          have hD7 : (if st6.curTerminated = false
              then st6.addInstr (Instr.br ((st.appendBB "doBody").2.appendBB
                "doCond").1) else st6).blocks.get? st.cur = some bD := by
            rw [h7ne _ (by rcases hcur6 with h | h <;> omega)]
            exact hbD
          have hD9 : st9.blocks.get? st.cur = some bD := by
            rw [hE.other _ (by rw [h8cur]; omega)]
            exact hD7
          have hD10 : (st9.addInstr (Instr.condBr cond
              ((((st.appendBB "doBody").2.appendBB "doCond").2.appendBB
                "afterDo").1) ((st.appendBB "doBody").1))).blocks.get?
                  st.cur = some bD := by
            rw [addInstr_get_ne _ _ _ (by rw [h9cur]; omega)]
            exact hD9
          refine ⟨?_, ?_, ?_, ?_, ?_, ⟨cond, hInt, ?_⟩, st6, hB2, ?_⟩
          · simp only [blockNameAt, position_blocks]
            rw [hA10]
            simp [Option.map, hnA2, hnA]
          · simp only [blockNameAt, position_blocks]
            rw [hB10]
            simp [Option.map, hnB2, hnB]
          · simp only [blockNameAt, position_blocks]
            rw [hC10]
            simp [Option.map, hnC2, hnC]
          · simp only [lastInstrAt, position_blocks]
            rw [hD10]
            simp only [Option.bind]
            rw [hpD]
            show (preD ++ (b0.instrs ++ [Instr.br st.blocks.length])).getLast? = _
            rw [← List.append_assoc]
            exact List.getLast?_concat _
          · simp only [CState.positionAtEnd]
            exact hAFT
          · simp only [lastInstrAt, position_blocks]
            rw [hB10]
            simp only [Option.bind]
            rw [List.getLast?_concat]
            rw [hAFT]
            rfl
          · intro hterm
            obtain ⟨b6, hb6⟩ := get?_of_lt st6.blocks st6.cur hlt6
            have h7c : (if st6.curTerminated = false
                then st6.addInstr (Instr.br ((st.appendBB "doBody").2.appendBB
                  "doCond").1) else st6).blocks.get? st6.cur =
                some ⟨b6.name, b6.instrs ++ [Instr.br ((st.appendBB
                  "doBody").2.appendBB "doCond").1], b6.deleted⟩ := by
              rw [if_pos hterm]
              exact addInstr_get_cur st6 _ _ hb6
            have h9c : st9.blocks.get? st6.cur =
                some ⟨b6.name, b6.instrs ++ [Instr.br ((st.appendBB
                  "doBody").2.appendBB "doCond").1], b6.deleted⟩ := by
              rw [hE.other _ (by rw [h8cur]; rcases hcur6 with h | h <;> omega)]
              exact h7c
            have h10c : (st9.addInstr (Instr.condBr cond
                ((((st.appendBB "doBody").2.appendBB "doCond").2.appendBB
                  "afterDo").1) ((st.appendBB "doBody").1))).blocks.get?
                    st6.cur =
                some ⟨b6.name, b6.instrs ++ [Instr.br ((st.appendBB
                  "doBody").2.appendBB "doCond").1], b6.deleted⟩ := by
              rw [addInstr_get_ne _ _ _
                (by rw [h9cur]; rcases hcur6 with h | h <;> omega)]
              exact h9c
            simp only [lastInstrAt, position_blocks]
            rw [h10c]
            simp only [Option.bind]
            rw [List.getLast?_concat]
            rw [hCONDT]
        · simp at hok


/-- A one-block module state: a single `entry` block, builder at
`entry`, inside a function whose entry block is index 0. -/
def c8st : CState := ⟨[⟨"entry", [], false⟩], 0, 0, [], [], [], some 0⟩

/-- The result of lowering `do \x7b \x7d until (true)` from `c8st`. -/
def c8res : CState :=
  ⟨[⟨"entry", [Instr.br 1], false⟩, ⟨"doBody", [Instr.br 2], false⟩,
    ⟨"doCond", [Instr.condBr ⟨LType.i1, 0⟩ 3 1], false⟩, ⟨"afterDo", [], false⟩],
   3, 1, [], [], [], some 0⟩

theorem do_until_lowering_witness :
    c8st.cur < c8st.blocks.length ∧
    compile_do_until (DoUntilStatement.mk (Block.mk [])
        (Expression.literal (Lit.bool true))) c8st = Except.ok c8res ∧
    (blockNameAt c8res c8st.blocks.length = some "doBody" ∧
     blockNameAt c8res (c8st.blocks.length + 1) = some "doCond" ∧
     blockNameAt c8res (c8st.blocks.length + 2) = some "afterDo" ∧
     lastInstrAt c8res c8st.cur = some (Instr.br c8st.blocks.length) ∧
     c8res.cur = c8st.blocks.length + 2 ∧
     (∃ v, v.isIntValue = true ∧
       lastInstrAt c8res (c8st.blocks.length + 1) =
         some (Instr.condBr v (c8st.blocks.length + 2) c8st.blocks.length)) ∧
     ∃ st6, compile_block (Block.mk []) (doUntilBodyStart c8st) = Except.ok st6 ∧
       (st6.curTerminated = false →
         lastInstrAt c8res st6.cur = some (Instr.br (c8st.blocks.length + 1)))) :=
  ⟨by decide,
   by
     simp [compile_do_until, compile_block, compile_block_decls, compile_expression,
       compile_literal, CState.freshId, CState.appendBB, CState.addInstr,
       CState.positionAtEnd, CState.curTerminated, listModify, BVal.isIntValue,
       c8st, c8res, Instr.isTerminator],
   do_until_lowering (Block.mk []) (Expression.literal (Lit.bool true)) c8st c8res
     (by decide)
     (by
       simp [compile_do_until, compile_block, compile_block_decls,
         compile_expression, compile_literal, CState.freshId, CState.appendBB,
         CState.addInstr, CState.positionAtEnd, CState.curTerminated, listModify,
         BVal.isIntValue, c8st, c8res, Instr.isTerminator])⟩

end Dream
